import Mathlib

/-!
# Git2 `mktag`: the tag-signature validator

A shallow embedding of `src/mktag.c` (`verify_object`, `verify_and_create_tag`) and of
`lookup_handler` of `src/git2.c`.

* A byte is a `Nat`; memory is a `List Nat`; a `char *` into the buffer is an index
  into it, and the C string it points at is the suffix `buffer.drop p`.
* Reading outside the modelled region yields `0`.
* Integers are those of a 64-bit platform: `int` has 32 bits, `long` and `size_t` 64.
* The external library (libgit2) is the record `git_repository`; every call made to it
  is recorded, with its arguments, in the list of events of the outcome.
* `error(...)` is an `Err`: which message, and the `char%d` offset it prints (when any).

The definitions come first: the embedding of the source, then the grammar of a tag document
and the predicates used to state the properties, then test documents. The theorems follow.
-/

namespace Git2

/-! ## The C library -/

/-- The byte at index `i` of memory `m`. -/
def rd (m : List Nat) (i : Nat) : Nat := m.getD i 0

/-- The function `memcmp(s1, s2, n)`: `true` when the result is non-zero, that is when the
first `n` bytes differ. -/
def memcmp : List Nat → List Nat → Nat → Bool
  | _, _, 0 => false
  | s1, s2, n + 1 => if s1.headD 0 = s2.headD 0 then memcmp s1.tail s2.tail n else true

/-- The C string stored at the start of `s`: its bytes up to the first NUL. -/
def cstr (s : List Nat) : List Nat := s.takeWhile (fun c => c ≠ 0)

/-- The function `strlen(s)`. -/
def strlen (s : List Nat) : Nat := (cstr s).length

/-- The function `strchr(s, c)`: the offset of the first `c` in the C string `s`, `none` for NULL. -/
def strchr : List Nat → Nat → Option Nat
  | [], c => if c = 0 then some 0 else none
  | x :: xs, c =>
    if x = c then some 0
    else if x = 0 then none
    else (strchr xs c).map (fun i => i + 1)

/-- Whether the bytes at the start of `s` are those of `lit`. -/
def starts_with : List Nat → List Nat → Bool
  | _, [] => true
  | [], _ :: _ => false
  | x :: xs, y :: ys => if x = y then starts_with xs ys else false

/-- The function `strstr(s, needle)`: the offset of the first occurrence of `needle` in the
C string `s`, `none` for NULL. -/
def strstr : List Nat → List Nat → Option Nat
  | [], needle => if needle = [] then some 0 else none
  | x :: xs, needle =>
    if starts_with (x :: xs) needle then some 0
    else if x = 0 then none
    else (strstr xs needle).map (fun i => i + 1)

/-- The function `strpbrk(s, accept)`: the offset of the first byte of the C string `s` that is
one of `accept`, `none` for NULL. -/
def strpbrk : List Nat → List Nat → Option Nat
  | [], _ => none
  | x :: xs, accept =>
    if x = 0 then none
    else if x ∈ accept then some 0
    else (strpbrk xs accept).map (fun i => i + 1)

/-- The function `strspn(s, accept)`: the length of the initial run of bytes of `s` that are
all in `accept`. -/
def strspn : List Nat → List Nat → Nat
  | [], _ => 0
  | x :: xs, accept => if x ≠ 0 ∧ x ∈ accept then strspn xs accept + 1 else 0

/-- The function `isspace(c)` in the C locale. -/
def isspace (c : Nat) : Bool := c = 32 ∨ (9 ≤ c ∧ c ≤ 13)

/-- The decimal value of the initial run of digits of `s`, continuing from `acc`. -/
def digits_value : List Nat → Nat → Nat
  | [], acc => acc
  | c :: cs, acc => if 48 ≤ c ∧ c ≤ 57 then digits_value cs (10 * acc + (c - 48)) else acc

/-- The function `strtol(s, NULL, 10)` on a 64-bit `long`: white space, an optional sign, the
digits; a value out of range is clamped. -/
def strtol (s : List Nat) : Int :=
  let v : Int :=
    match s.dropWhile isspace with
    | 45 :: r => - (digits_value r 0 : Int)
    | 43 :: r => (digits_value r 0 : Int)
    | r => (digits_value r 0 : Int)
  if v < -(2 ^ 63) then -(2 ^ 63) else if 2 ^ 63 - 1 < v then 2 ^ 63 - 1 else v

/-- Conversion to a 32-bit `int`. -/
def to_int (v : Int) : Int := (v + 2 ^ 31) % 2 ^ 32 - 2 ^ 31

/-- Conversion to a 64-bit `size_t`. -/
def to_size_t (v : Int) : Int := v % 2 ^ 64

/-- The function `atoi(s)`, which is `(int) strtol(s, NULL, 10)`. -/
def atoi (s : List Nat) : Int := to_int (strtol s)

/-! ## String literals of `mktag.c` -/

/-- The literal `"object "`. -/
def lit_object : List Nat := [111, 98, 106, 101, 99, 116, 32]

/-- The literal `"\ntype "`. -/
def lit_nl_type : List Nat := [10, 116, 121, 112, 101, 32]

/-- The literal `"tag "`. -/
def lit_tag : List Nat := [116, 97, 103, 32]

/-- The literal `"tagger "`. -/
def lit_tagger : List Nat := [116, 97, 103, 103, 101, 114, 32]

/-- The literal `" <"`. -/
def lit_lb : List Nat := [32, 60]

/-- The literal `"> "`. -/
def lit_rb : List Nat := [62, 32]

/-- The literal `"<>\n"`. -/
def lit_name_stop : List Nat := [60, 62, 10]

/-- The literal `"><\n "`. -/
def lit_email_stop : List Nat := [62, 60, 10, 32]

/-- The literal `"0123456789"`. -/
def lit_digits : List Nat := [48, 49, 50, 51, 52, 53, 54, 55, 56, 57]

/-- The constant `TAG_NAME_LEN`. -/
def TAG_NAME_LEN : Nat := 40

/-! ## libgit2 -/

/-- Modelled from the spec: libgit2's hexadecimal digit table used by `git_oid_mkstr`
(the identifier "must parse as valid hexadecimal"); digits and letters `a`-`f`, `A`-`F`. -/
def from_hex (c : Nat) : Option Nat :=
  if 48 ≤ c ∧ c ≤ 57 then some (c - 48)
  else if 97 ≤ c ∧ c ≤ 102 then some (c - 87)
  else if 65 ≤ c ∧ c ≤ 70 then some (c - 55)
  else none

/-- Modelled from the spec: the loop of libgit2's `git_oid_mkstr`, two hexadecimal characters
for each of the `n` bytes of the identifier. -/
def oid_bytes : Nat → List Nat → Option (List Nat)
  | 0, _ => some []
  | n + 1, s =>
    match from_hex (s.headD 0), from_hex (s.tail.headD 0) with
    | some hi, some lo => (oid_bytes n s.tail.tail).map (fun r => (16 * hi + lo) :: r)
    | _, _ => none

/-- Modelled from the spec: libgit2's `git_oid_mkstr`, which reads 40 hexadecimal characters
into a 20-byte object id and fails (`none`) when one of them is not hexadecimal. -/
def git_oid_mkstr (str : List Nat) : Option (List Nat) := oid_bytes 20 str

/-- The handle returned by `git_signature_new`: the values it was given. -/
structure git_signature where
  name : List Nat
  email : List Nat
  time : Int
  offset : Int
deriving DecidableEq, Repr

/-- The repository handle `git_repository *repo` and the library behind it. An object type
(`git_otype`) is its enumeration value. -/
structure git_repository where
  /-- Whether `git_repository_database(repo)` is not NULL. -/
  has_database : Bool
  /-- The functions `git_odb_read` and `git_odb_object_type`: the type of the object stored
  under an id, `none` when the read fails. -/
  odb_read : List Nat → Option Int
  /-- The function `git_object_type2string`. -/
  type2string : Int → List Nat
  /-- The function `git_signature_new`: `none` for NULL. -/
  signature_new : List Nat → List Nat → Int → Int → Option git_signature
  /-- The function `git_tag_create` called with the tag name, the target id, the target type,
  the tagger and the message: the id of the new tag, `none` for an error code. -/
  tag_create : List Nat → List Nat → Int → git_signature → List Nat → Option (List Nat)

/-- A call made to the library. -/
inductive Event where
  | odb_read (oid : List Nat)
  | signature_new (name email : List Nat) (time offset : Int)
  | tag_create (tagname : List Nat) (target : List Nat) (target_type : Int)
      (tagger : git_signature) (message : List Nat)
deriving DecidableEq, Repr

/-! ## Errors -/

/-- Why `verify_object` failed. -/
inductive ObjectError where
  /-- The message "Object not found". -/
  | not_found
  /-- The type strings differ (no message of its own). -/
  | type_mismatch
deriving DecidableEq, Repr

/-- The arrays of `verify_and_create_tag` that are filled by a copy with no check of its
length: `char author_name[40]`, `char author_email[40]` and `char timestamp[20]`. -/
inductive FieldArray where
  | author_name
  | author_email
  | timestamp
deriving DecidableEq, Repr

/-- The calls of `error(...)` in `verify_and_create_tag`, in source order, and the event
that ends a run without any call of `error`: a copy that does not fit its array. -/
inductive ErrKind where
  /-- Line 63: "wanna fool me ? you obviously got the size wrong !". -/
  | wrong_size
  /-- Line 70: does not start with "object ". -/
  | no_object
  /-- Line 75: "Invalid SHA1 hash". -/
  | invalid_sha1
  /-- Line 80: could not find "\ntype ". -/
  | type_line
  /-- Line 85: could not find next "\n". -/
  | next_newline
  /-- Line 89: no "tag " found. -/
  | no_tag
  /-- Line 95: "type too long". -/
  | type_too_long
  /-- Line 103: "Could not get the database". -/
  | no_database
  /-- Line 107: "could not verify object". -/
  | verify_object (cause : ObjectError)
  /-- Line 118: "could not verify tag name". -/
  | tag_name
  /-- Line 124: "Tag name too long". -/
  | tag_name_too_long
  /-- Line 131: could not find "tagger ". -/
  | no_tagger
  /-- Line 144: "malformed tagger field". -/
  | malformed_tagger
  /-- Line 149: "missing tagger name". -/
  | missing_tagger_name
  /-- Line 162: "missing tag timestamp". -/
  | missing_timestamp
  /-- Line 169: "malformed tag timestamp". -/
  | malformed_timestamp
  /-- Line 177: "malformed tag timezone". -/
  | malformed_timezone
  /-- Line 187: "trailing garbage in tag header". -/
  | trailing_garbage
  /-- Line 193: "Could create the signature". -/
  | signature
  /-- Line 195: "Could not create the tag". -/
  | tag_create
  /-- Not an error message: the copy of lines 153-154, 156-157 or 165-166, with its
  terminator, is longer than the array it is written into. The behaviour of the C function
  is undefined from there on, and the run of the model ends. -/
  | overflow (array : FieldArray)
deriving DecidableEq, Repr

/-- An error: the message and the offset printed for `char%d`, when the message has one. -/
structure Err where
  kind : ErrKind
  offset : Option Nat
deriving DecidableEq, Repr

/-- What a call of `verify_and_create_tag` did: the library calls it made, in order, and
what it returned (the id of the new tag, printed on success). -/
structure Outcome where
  events : List Event
  result : Except Err (List Nat)

deriving instance DecidableEq for Except

/-- The statement `return error(...)`. -/
def fail (events : List Event) (kind : ErrKind) (offset : Option Nat) : Outcome :=
  { events := events, result := Except.error { kind := kind, offset := offset } }

/-- The statement at which a copy overflows its array: the run stops there, with the calls
made so far, and nothing is known of what the C function does next. -/
def undefined_behaviour (events : List Event) (array : FieldArray) : Outcome :=
  { events := events, result := Except.error { kind := ErrKind.overflow array, offset := none } }

/-- The position of a check in the source order of the checks. An overflow has the number
of the check that the run was about to make: 14 for the copies of the name and the email,
15 for the copy of the timestamp. -/
def ErrKind.step : ErrKind → Nat
  | .wrong_size => 0
  | .no_object => 1
  | .invalid_sha1 => 2
  | .type_line => 3
  | .next_newline => 4
  | .no_tag => 5
  | .type_too_long => 6
  | .no_database => 7
  | .verify_object _ => 8
  | .tag_name => 9
  | .tag_name_too_long => 10
  | .no_tagger => 11
  | .malformed_tagger => 12
  | .missing_tagger_name => 13
  | .missing_timestamp => 14
  | .malformed_timestamp => 15
  | .malformed_timezone => 16
  | .trailing_garbage => 17
  | .signature => 18
  | .tag_create => 19
  | .overflow FieldArray.timestamp => 15
  | .overflow _ => 14

/-- Whether the behaviour of the C function is defined for the whole run: no copy was
longer than its array. -/
def Outcome.is_defined (o : Outcome) : Bool :=
  match o.result with
  | Except.error { kind := ErrKind.overflow _, offset := _ } => false
  | _ => true

/-- The run got past check number `n` (see `ErrKind.step`: 0 is the size, 1 to 17 are the
checks of the document up to the blank line, 8 being the lookup, 18 is `git_signature_new`
and 19 `git_tag_create`): it succeeded, or failed at a later check. A run that ends in
undefined behaviour got past the checks made before the copy and no other: the copies of
the name and the email are made between the checks 13 and 14, the copy of the timestamp
between the checks 14 and 15. -/
def Outcome.passed (o : Outcome) (n : Nat) : Prop :=
  match o.result with
  | Except.ok _ => True
  | Except.error e => n < e.kind.step

instance (o : Outcome) (n : Nat) : Decidable (o.passed n) := by
  unfold Outcome.passed
  cases o.result <;> infer_instance

/-! ## `verify_object` (lines 25-43) -/

/-- The function `verify_object`: the type of the object, or why it was refused. The argument
`expected_type` is the array `type` of the caller. -/
def verify_object (repo : git_repository) (expected_type : List Nat) (oid : List Nat) :
    Except ObjectError Int :=
  match repo.odb_read oid with
  | none => Except.error ObjectError.not_found
  | some type =>
    let str_type := repo.type2string type
    if memcmp str_type expected_type (strlen str_type) then Except.error ObjectError.type_mismatch
    else Except.ok type

/-! ## `verify_and_create_tag` (lines 45-203)

The function is cut into consecutive blocks of its body; each block is given the variables
that are live at its first line, and ends by running the next block. The field buffers
(`type`, `author_name`, ...) are the bytes copied followed by the terminator written after
them; `tagname` gets no terminator, so it is the copy followed by what the array (and the
memory behind it) held before, `stack_tagname`. As in the source, only the copies into
`type` and `tagname` are preceded by a check of their length; the copies into
`author_name[40]`, `author_email[40]` and `timestamp[20]` are not, and a run in which one of
them, with its terminator, does not fit its array ends there as `undefined_behaviour`. -/

/-- Lines 190-202: the two calls that create the tag. The message is the C string at
`tagger_line + 1`. -/
def create_the_tag (repo : git_repository) (events : List Event) (buffer : List Nat)
    (target_oid : List Nat) (target_type : Int)
    (tagname author_name author_email timestamp offset : List Nat) (tagger_line : Nat) :
    Outcome :=
  let events := events ++ [Event.signature_new (cstr author_name) (cstr author_email)
    (atoi timestamp) (atoi offset)]
  match repo.signature_new (cstr author_name) (cstr author_email)
    (atoi timestamp) (atoi offset) with
  | none => fail events ErrKind.signature none
  | some tagger =>
    let message := cstr (buffer.drop (tagger_line + 1))
    let events := events ++ [Event.tag_create (cstr tagname) target_oid target_type
      tagger message]
    match repo.tag_create (cstr tagname) target_oid target_type tagger message with
    | none => fail events ErrKind.tag_create none
    | some tag_oid => { events := events, result := Except.ok tag_oid }

/-- Lines 185-188: the blank line separating the header from the body. -/
def verify_blank_line (repo : git_repository) (events : List Event) (buffer : List Nat)
    (target_oid : List Nat) (target_type : Int)
    (tagname author_name author_email timestamp offset : List Nat) (tagger_line : Nat) :
    Outcome :=
  if rd buffer tagger_line ≠ 10 then
    fail events ErrKind.trailing_garbage (some tagger_line)
  else
    create_the_tag repo events buffer target_oid target_type
      tagname author_name author_email timestamp offset tagger_line

/-- Lines 173-183: the timezone, `[+-]hhmm` and a newline, at most 1400. -/
def verify_timezone (repo : git_repository) (events : List Event) (buffer : List Nat)
    (target_oid : List Nat) (target_type : Int)
    (tagname author_name author_email timestamp : List Nat) (tagger_line : Nat) : Outcome :=
  if ¬ ((rd buffer tagger_line = 43 ∨ rd buffer tagger_line = 45) ∧
        strspn (buffer.drop (tagger_line + 1)) lit_digits = 4 ∧
        rd buffer (tagger_line + 5) = 10 ∧
        atoi (buffer.drop (tagger_line + 1)) ≤ 1400) then
    fail events ErrKind.malformed_timezone (some tagger_line)
  else
    let offset := (buffer.drop tagger_line).take 5 ++ [0]
    verify_blank_line repo events buffer target_oid target_type
      tagname author_name author_email timestamp offset (tagger_line + 6)

/-- Lines 159-171: the timestamp, one or more digits followed by a space. The copy of
lines 165-166 writes `len` bytes and a terminator into `char timestamp[20]`. -/
def verify_timestamp (repo : git_repository) (events : List Event) (buffer : List Nat)
    (target_oid : List Nat) (target_type : Int)
    (tagname author_name author_email : List Nat) (tagger_line : Nat) : Outcome :=
  let len := strspn (buffer.drop tagger_line) lit_digits
  if len = 0 then
    fail events ErrKind.missing_timestamp (some tagger_line)
  else if 20 ≤ len then
    undefined_behaviour events FieldArray.timestamp
  else
    let timestamp := (buffer.drop tagger_line).take len ++ [0]
    let tagger_line := tagger_line + len
    if rd buffer tagger_line ≠ 32 then
      fail events ErrKind.malformed_timestamp (some tagger_line)
    else
      verify_timezone repo events buffer target_oid target_type
        tagname author_name author_email timestamp (tagger_line + 1)

/-- Lines 127-157: the start of the tagger line, the name and the email. The copies of
lines 153-157 write the name, then the email, each with a terminator, into
`char author_name[40]` and `char author_email[40]`. -/
def verify_tagger (repo : git_repository) (events : List Event) (buffer : List Nat)
    (target_oid : List Nat) (target_type : Int) (tagname : List Nat) (tag_line : Nat) :
    Outcome :=
  let tagger_line := tag_line
  if memcmp (buffer.drop tagger_line) lit_tagger 7 then
    fail events ErrKind.no_tagger (some tagger_line)
  else
    let tagger_line := tagger_line + 7
    match strstr (buffer.drop tagger_line) lit_lb with
    | none => fail events ErrKind.malformed_tagger (some tagger_line)
    | some lb_off =>
      let lb := tagger_line + lb_off
      match strstr (buffer.drop (lb + 2)) lit_rb with
      | none => fail events ErrKind.malformed_tagger (some tagger_line)
      | some rb_off =>
        let rb := lb + 2 + rb_off
        if strpbrk (buffer.drop tagger_line) lit_name_stop ≠ some (lb + 1 - tagger_line) ∨
            strpbrk (buffer.drop (lb + 2)) lit_email_stop ≠ some (rb - (lb + 2)) then
          fail events ErrKind.malformed_tagger (some tagger_line)
        else if lb = tagger_line then
          fail events ErrKind.missing_tagger_name (some tagger_line)
        else if 40 ≤ lb - tagger_line then
          undefined_behaviour events FieldArray.author_name
        else if 40 ≤ rb - lb - 2 then
          undefined_behaviour events FieldArray.author_email
        else
          let author_name := (buffer.drop tagger_line).take (lb - tagger_line) ++ [0]
          let author_email := (buffer.drop (lb + 2)).take (rb - lb - 2) ++ [0]
          verify_timestamp repo events buffer target_oid target_type
            tagname author_name author_email (rb + 2)

/-- Lines 112-120: the loop over the tag name. The argument `s` is the string at `tag_line`;
the result is `tag_line` after the loop, as an error when the loop returns the error. -/
def scan_tag_name : List Nat → Nat → Except Nat Nat
  | [], tag_line => Except.error (tag_line + 1)
  | c :: s, tag_line =>
    if c = 10 then Except.ok (tag_line + 1)
    else if c > 32 then scan_tag_name s (tag_line + 1)
    else Except.error (tag_line + 1)

/-- Lines 109-125: the tag name, without control characters or spaces, and its copy. -/
def verify_tag_name (repo : git_repository) (stack_tagname : List Nat) (events : List Event)
    (buffer : List Nat) (target_oid : List Nat) (target_type : Int) (tag_line : Nat) :
    Outcome :=
  let tag_line := tag_line + 4
  let tagname_begin := tag_line
  match scan_tag_name (buffer.drop tag_line) tag_line with
  | Except.error tag_line => fail events ErrKind.tag_name (some tag_line)
  | Except.ok tag_line =>
    if tag_line - 1 - tagname_begin ≥ TAG_NAME_LEN then
      fail events ErrKind.tag_name_too_long none
    else
      let tagname := (buffer.drop tagname_begin).take (tag_line - 1 - tagname_begin) ++
        stack_tagname.drop (tag_line - 1 - tagname_begin)
      verify_tagger repo events buffer target_oid target_type tagname tag_line

/-- Line 93: `typelen = tag_line - type_line - strlen("type \n")`, the difference of the
pointers minus a `size_t`, computed in `size_t` and stored in an `int`. -/
def typelen (type_line tag_line : Nat) : Int :=
  to_int (to_size_t ((tag_line : Int) - (type_line : Int) - 6))

/-- Lines 92-107: the declared type, and the object it is checked against. The comparison of
line 94 is made in `size_t`. -/
def verify_type (repo : git_repository) (stack_tagname : List Nat) (buffer : List Nat)
    (target_oid : List Nat) (type_line tag_line : Nat) : Outcome :=
  if to_size_t (typelen type_line tag_line) ≥ 20 then
    fail [] ErrKind.type_too_long (some (type_line + 5))
  else
    let type := (buffer.drop (type_line + 5)).take (typelen type_line tag_line).toNat ++ [0]
    if ¬ repo.has_database then
      fail [] ErrKind.no_database none
    else
      match verify_object repo type target_oid with
      | Except.error cause =>
        fail [Event.odb_read target_oid] (ErrKind.verify_object cause) (some 7)
      | Except.ok target_type =>
        verify_tag_name repo stack_tagname [Event.odb_read target_oid] buffer
          target_oid target_type tag_line

/-- Lines 77-90: the type line and the start of the tag line. -/
def verify_tag_line (repo : git_repository) (stack_tagname : List Nat) (buffer : List Nat)
    (target_oid : List Nat) : Outcome :=
  let type_line := 48
  if memcmp (buffer.drop (type_line - 1)) lit_nl_type 6 then
    fail [] ErrKind.type_line (some 47)
  else
    match strchr (buffer.drop type_line) 10 with
    | none => fail [] ErrKind.next_newline (some type_line)
    | some nl =>
      let tag_line := type_line + nl + 1
      if memcmp (buffer.drop tag_line) lit_tag 4 ∨ rd buffer (tag_line + 4) = 10 then
        fail [] ErrKind.no_tag (some tag_line)
      else
        verify_type repo stack_tagname buffer target_oid type_line tag_line

/-- The function `verify_and_create_tag` (lines 62-75, then the blocks above): the size, the
sentinel, the object line and the object id. -/
def verify_and_create_tag (repo : git_repository) (stack_tagname : List Nat)
    (buffer : List Nat) (size : Nat) : Outcome :=
  if size < 84 then
    fail [] ErrKind.wrong_size none
  else
    let buffer := buffer.set size 0
    if memcmp buffer lit_object 7 then
      fail [] ErrKind.no_object (some 0)
    else
      let sha1_hex := (buffer.drop 7).take 40
      match git_oid_mkstr sha1_hex with
      | none => fail [] ErrKind.invalid_sha1 (some 7)
      | some target_oid => verify_tag_line repo stack_tagname buffer target_oid

/-! ## The bytes of the buffer that are read -/

/-- The indices read by `memcmp(buffer + p, literal, n)`: the function compares `n` bytes,
and a caller must be able to read all of them. -/
def memcmp_reads (p n : Nat) : List Nat := List.range' p n

/-- The indices read by `strchr(buffer + p, c)`, where `s` is the string at `p`: every byte
up to the first `c` or NUL, that one included. -/
def strchr_reads : List Nat → Nat → Nat → List Nat
  | [], _, p => [p]
  | x :: xs, c, p => if x = c ∨ x = 0 then [p] else p :: strchr_reads xs c (p + 1)

/-- The indices of the buffer read by lines 67-88 of `verify_and_create_tag`: the object
line, the type line, the search of the newline and the comparison with `"tag "`. -/
def reads_to_tag_line (buffer : List Nat) (size : Nat) : List Nat :=
  if size < 84 then []
  else
    let buffer := buffer.set size 0
    memcmp_reads 0 7 ++
    if memcmp buffer lit_object 7 then []
    else
      List.range' 7 40 ++
      match git_oid_mkstr ((buffer.drop 7).take 40) with
      | none => []
      | some _ =>
        memcmp_reads 47 6 ++
        if memcmp (buffer.drop 47) lit_nl_type 6 then []
        else
          strchr_reads (buffer.drop 48) 10 48 ++
          match strchr (buffer.drop 48) 10 with
          | none => []
          | some nl => memcmp_reads (48 + nl + 1) 4

/-! ## The command table (`git2.c`) -/

/-- A command handler (`cmd_handler`). -/
inductive Handler where
  | cmd_mktag
deriving DecidableEq, Repr

/-- What `lookup_handler` does: it returns a handler, returns NULL, or indexes `commands`
outside the table. -/
inductive Lookup where
  | handler (h : Handler)
  | null
  | outside (i : Nat)
deriving DecidableEq, Repr

/-- The table `commands`: the one entry `{"mktag", cmd_mktag}`. -/
def commands : List (List Nat × Handler) := [([109, 107, 116, 97, 103], Handler.cmd_mktag)]

/-- The value of `sizeof(commands)`: the bytes of one entry of two pointers, 16 with 64-bit
pointers. -/
def sizeof_commands : Nat := 16

/-- The function `strcmp(a, b)`: `true` when the result is non-zero. -/
def strcmp (a b : List Nat) : Bool := cstr a ≠ cstr b

/-- The loop of `lookup_handler` from index `i`, with `n` iterations left. -/
def lookup_loop (cmd : List Nat) : Nat → Nat → Lookup
  | 0, _ => Lookup.null
  | n + 1, i =>
    match commands.get? i with
    | none => Lookup.outside i
    | some entry =>
      if ¬ strcmp entry.1 cmd then Lookup.handler entry.2
      else lookup_loop cmd n (i + 1)

/-- The function `lookup_handler` (lines 15-22): `for (i = 0; i < sizeof(commands); i++)`. -/
def lookup_handler (cmd : List Nat) : Lookup := lookup_loop cmd sizeof_commands 0

/-! ## Bytes, and what each block of checks accepts -/

/-- A hexadecimal character: a digit, or a letter from `a` to `f` in either case. -/
def is_hex (c : Nat) : Prop :=
  (48 ≤ c ∧ c ≤ 57) ∨ (97 ≤ c ∧ c ≤ 102) ∨ (65 ≤ c ∧ c ≤ 70)

instance (c : Nat) : Decidable (is_hex c) := by
  unfold is_hex
  infer_instance

/-- An ASCII digit. -/
def is_digit (c : Nat) : Prop := 48 ≤ c ∧ c ≤ 57

instance (c : Nat) : Decidable (is_digit c) := by
  unfold is_digit
  infer_instance

/-- The decimal value of a string of digits. -/
def decimal (ds : List Nat) : Nat := ds.foldl (fun acc c => 10 * acc + (c - 48)) 0

/-- The object line at the start of the buffer: `"object "` and the 40 hexadecimal
characters `h`. -/
def object_ok (buffer h : List Nat) : Prop :=
  (∃ r, buffer = lit_object ++ h ++ r) ∧ h.length = 40 ∧ ∀ c ∈ h, is_hex c

/-- The type line and the start of the tag line, at the start of `s` (offset 47):
`"\ntype " T "\ntag "`, the type `T` without newline or NUL, the tag name not starting with
a newline. -/
def type_line_ok (s T : List Nat) : Prop :=
  (∃ r, s = lit_nl_type ++ T ++ 10 :: (lit_tag ++ r) ∧ r.headD 0 ≠ 10) ∧ 10 ∉ T ∧ 0 ∉ T

/-- The tag name at the start of `s`: the bytes `N`, all above the space, then a newline. -/
def tag_name_ok (s N : List Nat) : Prop :=
  (∃ r, s = N ++ 10 :: r) ∧ ∀ c ∈ N, 32 < c

/-- The tagger line up to the timestamp, at the start of `s`:
`"tagger " name " <" email "> "`, the name not empty and without `<`, `>`, newline or NUL,
the email without `>`, `<`, newline, space or NUL, each of at most 39 bytes, so that it fits
its array of 40 with the terminator. -/
def tagger_ok (s name email : List Nat) : Prop :=
  (∃ r, s = lit_tagger ++ name ++ lit_lb ++ email ++ lit_rb ++ r) ∧ name ≠ [] ∧
  (∀ c ∈ name, c ≠ 60 ∧ c ≠ 62 ∧ c ≠ 10 ∧ c ≠ 0) ∧
  (∀ c ∈ email, c ≠ 62 ∧ c ≠ 60 ∧ c ≠ 10 ∧ c ≠ 32 ∧ c ≠ 0) ∧
  name.length < 40 ∧ email.length < 40

/-- The timestamp field at the start of `s`: the digits `ts`, one or more and at most 19, so
that they fit `char timestamp[20]` with the terminator, then a space. -/
def timestamp_ok (s ts : List Nat) : Prop :=
  (∃ r, s = ts ++ 32 :: r) ∧ ts ≠ [] ∧ (∀ c ∈ ts, is_digit c) ∧ ts.length < 20

/-- The timezone field at the start of `s`: a sign, four digits of value at most 1400, a
newline. -/
def timezone_ok (s : List Nat) : Prop :=
  ∃ sign d1 d2 d3 d4 r, s = sign :: d1 :: d2 :: d3 :: d4 :: 10 :: r ∧
    (sign = 43 ∨ sign = 45) ∧ is_digit d1 ∧ is_digit d2 ∧ is_digit d3 ∧ is_digit d4 ∧
    decimal [d1, d2, d3, d4] ≤ 1400

/-! ## The grammar of a tag document -/

/-- The document up to the tag name: `"object " h "\ntype " T "\ntag "`. -/
def doc_to_tag (h T : List Nat) : List Nat :=
  lit_object ++ h ++ lit_nl_type ++ T ++ [10] ++ lit_tag

/-- The document up to the tagger line: the tag name `N` and its newline added. -/
def doc_to_tagger (h T N : List Nat) : List Nat :=
  doc_to_tag h T ++ N ++ [10]

/-- The document up to the timestamp: `"tagger " name " <" email "> "` added. -/
def doc_to_stamp (h T N name email : List Nat) : List Nat :=
  doc_to_tagger h T N ++ lit_tagger ++ name ++ lit_lb ++ email ++ lit_rb

/-- The document up to the timezone: the timestamp `ts` and a space added. -/
def doc_to_zone (h T N name email ts : List Nat) : List Nat :=
  doc_to_stamp h T N name email ++ ts ++ [32]

/-- The whole header: the timezone `tz`, its newline and the blank line added. -/
def doc_header (h T N name email ts tz : List Nat) : List Nat :=
  doc_to_zone h T N name email ts ++ tz ++ [10] ++ [10]

/-- The object line and the type: 40 hexadecimal characters that make the id `oid`, a
type without newline or NUL, and an object of type `tt` stored under `oid`. -/
def target_ok (repo : git_repository) (h T oid : List Nat) (tt : Int) : Prop :=
  h.length = 40 ∧ (∀ c ∈ h, is_hex c) ∧ 10 ∉ T ∧ 0 ∉ T ∧ git_oid_mkstr h = some oid ∧
  repo.has_database = true ∧ repo.odb_read oid = some tt

/-- A tag name: 1 to 39 bytes, all above the space. -/
def name_ok (N : List Nat) : Prop :=
  N ≠ [] ∧ (∀ c ∈ N, 32 < c) ∧ N.length < 40

/-- The tagger: a name that is not empty and has no `<`, `>`, newline or NUL, an email
that has no `>`, `<`, newline, space or NUL, each of at most 39 bytes. -/
def ident_ok (name email : List Nat) : Prop :=
  name ≠ [] ∧ (∀ c ∈ name, c ≠ 60 ∧ c ≠ 62 ∧ c ≠ 10 ∧ c ≠ 0) ∧
  (∀ c ∈ email, c ≠ 62 ∧ c ≠ 60 ∧ c ≠ 10 ∧ c ≠ 32 ∧ c ≠ 0) ∧
  name.length < 40 ∧ email.length < 40

/-- A timestamp: 1 to 19 digits. -/
def stamp_ok (ts : List Nat) : Prop :=
  ts ≠ [] ∧ (∀ c ∈ ts, is_digit c) ∧ ts.length < 20

/-- A timezone: a sign and four digits of value at most 1400. -/
def zone_ok (tz : List Nat) : Prop :=
  ∃ sign d1 d2 d3 d4, tz = [sign, d1, d2, d3, d4] ∧ (sign = 43 ∨ sign = 45) ∧
    is_digit d1 ∧ is_digit d2 ∧ is_digit d3 ∧ is_digit d4 ∧ decimal [d1, d2, d3, d4] ≤ 1400

/-- A well-formed tag document:
`"object " h "\ntype " T "\ntag " N "\ntagger " name " <" email "> " digits " " sign dddd "\n"
"\n" body`, with 40 hexadecimal characters `h`, a type `T` without newline, a tag name `N`
that is not empty and has only bytes above 0x20, a name that is not empty and has no `<`,
`>` or newline, an email without `<`, `>`, newline or space, one or more digits, and a sign
followed by four digits. -/
def tag_document (doc : List Nat) : Prop :=
  ∃ h T N name email digits sign d1 d2 d3 d4 body,
    doc = lit_object ++ h ++ lit_nl_type ++ T ++ [10] ++ lit_tag ++ N ++ [10] ++
      lit_tagger ++ name ++ lit_lb ++ email ++ lit_rb ++ digits ++ [32] ++
      [sign, d1, d2, d3, d4] ++ [10] ++ [10] ++ body ∧
    h.length = 40 ∧ (∀ c ∈ h, is_hex c) ∧ 10 ∉ T ∧
    N ≠ [] ∧ (∀ c ∈ N, 32 < c) ∧
    name ≠ [] ∧ (∀ c ∈ name, c ≠ 60 ∧ c ≠ 62 ∧ c ≠ 10) ∧
    (∀ c ∈ email, c ≠ 60 ∧ c ≠ 62 ∧ c ≠ 10 ∧ c ≠ 32) ∧
    digits ≠ [] ∧ (∀ c ∈ digits, is_digit c) ∧
    (sign = 43 ∨ sign = 45) ∧ is_digit d1 ∧ is_digit d2 ∧ is_digit d3 ∧ is_digit d4

/-- The type names `"blob"`, `"tree"`, `"commit"` and `"tag"`. -/
def type_names : List (List Nat) :=
  [[98, 108, 111, 98], [116, 114, 101, 101], [99, 111, 109, 109, 105, 116], [116, 97, 103]]

/-! ## The library calls of a run -/

/-- The library calls of a run that got past every check of the document. -/
def accepted_events (repo : git_repository) (oid : List Nat) (tt : Int)
    (tagname name email : List Nat) (time offset : Int) (message : List Nat) : List Event :=
  [Event.odb_read oid, Event.signature_new name email time offset] ++
  match repo.signature_new name email time offset with
  | none => []
  | some tagger => [Event.tag_create tagname oid tt tagger message]

/-- Whether a call is the call of `git_tag_create`. -/
def Event.is_tag_create : Event → Bool
  | Event.tag_create _ _ _ _ _ => true
  | _ => false

/-! ## A parsed tag and its format -/

/-- Modelled from the spec: the `ParsedTag` of the specification, the fields of a tag
document. The timestamp is not negative; the offset is the signed number `hhmm` of the
timezone field. -/
structure ParsedTag where
  id : List Nat
  type : List Nat
  tag_name : List Nat
  name : List Nat
  email : List Nat
  timestamp : Nat
  offset : Int
  message : List Nat

/-- Modelled from the spec: the decimal digits of `n`, with `fuel` divisions by ten at
most. -/
def decimal_digits : Nat → Nat → List Nat
  | 0, n => [48 + n % 10]
  | fuel + 1, n =>
    if n < 10 then [48 + n] else decimal_digits fuel (n / 10) ++ [48 + n % 10]

/-- Modelled from the spec: a timestamp written in decimal. -/
def format_timestamp (n : Nat) : List Nat := decimal_digits n n

/-- Modelled from the spec: an offset written as a sign and four digits. -/
def format_offset (o : Int) : List Nat :=
  [if o < 0 then 45 else 43, 48 + o.natAbs / 1000 % 10, 48 + o.natAbs / 100 % 10,
   48 + o.natAbs / 10 % 10, 48 + o.natAbs % 10]

/-- Modelled from the spec: a `ParsedTag` formatted back into the grammar,
`"object " id "\ntype " type "\ntag " name "\ntagger " name " <" email "> " timestamp " "
offset "\n\n" message`. -/
def format (p : ParsedTag) : List Nat :=
  doc_header p.id p.type p.tag_name p.name p.email (format_timestamp p.timestamp)
    (format_offset p.offset) ++ p.message

/-! ## Test data: the scenario document of the specification and variants of it -/

/-- The bytes `"a" * 40`. -/
def hex_a : List Nat := List.replicate 40 97

/-- The document
`"object " + "a"*40 + "\ntype blob\ntag v1\ntagger A <a@b> 1000000000 +0000\n\nHello\n"`. -/
def doc_v1 : List Nat :=
  lit_object ++ hex_a ++ lit_nl_type ++ [98, 108, 111, 98] ++ [10] ++ lit_tag ++ [118, 49] ++
  [10] ++ lit_tagger ++ [65] ++ lit_lb ++ [97, 64, 98] ++ lit_rb ++
  [49, 48, 48, 48, 48, 48, 48, 48, 48, 48] ++ [32] ++ [43, 48, 48, 48, 48] ++ [10] ++ [10] ++
  [72, 101, 108, 108, 111, 10]

/-- A repository in which every object is a blob (type 3), and both services succeed. -/
def repo_blob : git_repository where
  has_database := true
  odb_read := fun _ => some 3
  type2string := fun t =>
    if t = 1 then [99, 111, 109, 109, 105, 116] else if t = 2 then [116, 114, 101, 101]
    else if t = 3 then [98, 108, 111, 98] else if t = 4 then [116, 97, 103] else []
  signature_new := fun n e t o => some { name := n, email := e, time := t, offset := o }
  tag_create := fun _ target _ _ _ => some target

/-- A repository like `repo_blob` in which `git_signature_new` returns NULL. -/
def repo_no_signature : git_repository :=
  { repo_blob with signature_new := fun _ _ _ _ => none }

/-- The scenario document with another tagger name, timestamp and timezone. -/
def doc_with (name ts tz : List Nat) : List Nat :=
  doc_header hex_a [98, 108, 111, 98] [118, 49] name [97, 64, 98] ts tz ++
  [72, 101, 108, 108, 111, 10]

/-- The scenario document with the declared type `"blobx"`. -/
def doc_blobx : List Nat :=
  lit_object ++ hex_a ++ lit_nl_type ++ [98, 108, 111, 98, 120] ++ [10] ++ lit_tag ++
  [118, 49] ++ [10] ++ lit_tagger ++ [65] ++ lit_lb ++ [97, 64, 98] ++ lit_rb ++
  [49, 48, 48, 48, 48, 48, 48, 48, 48, 48] ++ [32] ++ [43, 48, 48, 48, 48] ++ [10] ++ [10] ++
  [72, 101, 108, 108, 111, 10]

/-- The scenario document with a tag name of 40 bytes. -/
def doc_long_name : List Nat :=
  lit_object ++ hex_a ++ lit_nl_type ++ [98, 108, 111, 98] ++ [10] ++ lit_tag ++
  List.replicate 40 118 ++ [10] ++ doc_v1.drop 65

/-- The scenario document with a declared type of 20 bytes. -/
def doc_long_type : List Nat :=
  lit_object ++ hex_a ++ lit_nl_type ++ List.replicate 20 120 ++ [10] ++ doc_v1.drop 58

/-- A document of 84 bytes that ends with the newline of its type line:
`"object " + "a"*40 + "\ntype " + "x"*30 + "\n"`. -/
def doc_no_tag : List Nat :=
  lit_object ++ hex_a ++ lit_nl_type ++ List.replicate 30 120 ++ [10]

/-- The scenario of the specification. -/
def parsed_v1 : ParsedTag where
  id := hex_a
  type := [98, 108, 111, 98]
  tag_name := [118, 49]
  name := [65]
  email := [97, 64, 98]
  timestamp := 1000000000
  offset := 0
  message := [72, 101, 108, 108, 111, 10]

/-- The scenario of the specification with a NUL byte in the message. -/
def parsed_nul : ParsedTag where
  id := hex_a
  type := [98, 108, 111, 98]
  tag_name := [118, 49]
  name := [65]
  email := [97, 64, 98]
  timestamp := 1000000000
  offset := 0
  message := [72, 101, 0, 108, 111, 10]

/-! ## Facts about the C library -/

theorem rd_drop (m : List Nat) (p i : Nat) : rd (m.drop p) i = rd m (p + i) := by
  simp [rd, List.getD_eq_getElem?_getD, List.getElem?_drop]

theorem memcmp_lit (lit : List Nat) (h0 : 0 ∉ lit) (s : List Nat) :
    memcmp s lit lit.length = false ↔ ∃ r, s = lit ++ r := by
  induction lit generalizing s with
  | nil => simp [memcmp]
  | cons a lit ih =>
    simp only [List.mem_cons, not_or] at h0
    cases s with
    | nil =>
      simp only [memcmp, List.length_cons, List.headD_nil, List.headD_cons]
      have : (0:Nat) ≠ a := h0.1
      simp [this]
    | cons b s =>
      simp only [memcmp, List.length_cons, List.headD_cons, List.tail_cons]
      by_cases hab : b = a
      · subst hab
        simp [ih h0.2]
      · simp [hab]

theorem strchr_some {s : List Nat} {c k : Nat} (hc : c ≠ 0) (h : strchr s c = some k) :
    ∃ pre post, s = pre ++ c :: post ∧ pre.length = k ∧ c ∉ pre ∧ 0 ∉ pre := by
  induction s generalizing k with
  | nil => simp [strchr, hc] at h
  | cons x xs ih =>
    simp only [strchr] at h
    split at h
    · rename_i hx
      subst hx
      refine ⟨[], xs, ?_⟩
      simp at h
      simp [h]
    · rename_i hx
      split at h
      · simp at h
      · rename_i hx0
        cases hr : strchr xs c with
        | none => simp [hr] at h
        | some j =>
          simp [hr] at h
          obtain ⟨pre, post, h1, h2, h3, h4⟩ := ih hr
          refine ⟨x :: pre, post, ?_⟩
          simp [h1, h2, h, h3, h4]
          exact ⟨fun e => hx e.symm, fun e => hx0 e.symm⟩

theorem strchr_append {pre : List Nat} (c : Nat) (post : List Nat)
    (h1 : c ∉ pre) (h2 : 0 ∉ pre) : strchr (pre ++ c :: post) c = some pre.length := by
  induction pre with
  | nil => simp [strchr]
  | cons x xs ih =>
    simp only [List.mem_cons, not_or] at h1 h2
    have hx : x ≠ c := fun e => h1.1 e.symm
    have hx0 : x ≠ 0 := fun e => h2.1 e.symm
    simp [strchr, hx, hx0, ih h1.2 h2.2]

theorem strchr_none_of_nul {pre : List Nat} (c : Nat) (post : List Nat)
    (h1 : c ∉ pre) (h2 : 0 ∈ pre) : strchr (pre ++ post) c = none := by
  induction pre with
  | nil => simp at h2
  | cons x xs ih =>
    simp only [List.mem_cons, not_or] at h1
    have hx : x ≠ c := fun e => h1.1 e.symm
    by_cases hx0 : x = 0
    · subst hx0
      simp [strchr, hx]
    · have : 0 ∈ xs := by
        rcases List.mem_cons.1 h2 with e | e
        · exact absurd e.symm hx0
        · exact e
      simp [strchr, hx, hx0, ih h1.2 this]

theorem strstr_some {s : List Nat} {x y k : Nat} (h : strstr s [x, y] = some k) :
    ∃ pre post, s = pre ++ x :: y :: post ∧ pre.length = k ∧ 0 ∉ pre := by
  induction s generalizing k with
  | nil => simp [strstr] at h
  | cons a s ih =>
    simp only [strstr] at h
    split at h
    · rename_i hs
      simp at h
      cases s with
      | nil => simp [starts_with] at hs
      | cons b s =>
        simp only [starts_with] at hs
        split at hs
        · rename_i hax
          split at hs
          · rename_i hby
            exact ⟨[], s, by simp [hax, hby], by simp [h], by simp⟩
          · simp at hs
        · simp at hs
    · split at h
      · simp at h
      · rename_i hs ha
        cases hr : strstr s [x, y] with
        | none => simp [hr] at h
        | some j =>
          simp [hr] at h
          obtain ⟨pre, post, h1, h2, h3⟩ := ih hr
          refine ⟨a :: pre, post, by simp [h1], by simp [h2, h], ?_⟩
          simp [h3]
          exact fun e => ha e.symm

theorem strstr_append_snd {pre : List Nat} (x y : Nat) (post : List Nat)
    (hxy : x ≠ y) (h1 : y ∉ pre) (h2 : 0 ∉ pre) :
    strstr (pre ++ x :: y :: post) [x, y] = some pre.length := by
  induction pre with
  | nil => simp [strstr, starts_with]
  | cons a pre ih =>
    simp only [List.mem_cons, not_or] at h1 h2
    have ha0 : a ≠ 0 := fun e => h2.1 e.symm
    have hs : starts_with (a :: pre ++ x :: y :: post) [x, y] = false := by
      cases pre with
      | nil =>
        simp only [List.cons_append, List.nil_append, starts_with]
        simp [hxy]
      | cons b pre =>
        simp only [List.mem_cons, not_or] at h1
        have : b ≠ y := fun e => h1.2.1 e.symm
        simp only [List.cons_append, starts_with]
        simp [this]
    simp only [List.cons_append] at hs ⊢
    simp [strstr, hs, ha0, ih h1.2 h2.2]

theorem strstr_append_fst {pre : List Nat} (x y : Nat) (post : List Nat)
    (h1 : x ∉ pre) (h2 : 0 ∉ pre) :
    strstr (pre ++ x :: y :: post) [x, y] = some pre.length := by
  induction pre with
  | nil => simp [strstr, starts_with]
  | cons a pre ih =>
    simp only [List.mem_cons, not_or] at h1 h2
    have ha0 : a ≠ 0 := fun e => h2.1 e.symm
    have hax : a ≠ x := fun e => h1.1 e.symm
    have hs : starts_with (a :: (pre ++ x :: y :: post)) [x, y] = false := by
      simp [starts_with, hax]
    simp only [List.cons_append]
    simp [strstr, hs, ha0, ih h1.2 h2.2]

theorem strpbrk_some {s accept : List Nat} {k : Nat} (h : strpbrk s accept = some k) :
    ∃ pre c post, s = pre ++ c :: post ∧ pre.length = k ∧ c ∈ accept ∧
      (∀ a ∈ pre, a ∉ accept ∧ a ≠ 0) := by
  induction s generalizing k with
  | nil => simp [strpbrk] at h
  | cons a s ih =>
    simp only [strpbrk] at h
    split at h
    · simp at h
    · rename_i ha0
      split at h
      · rename_i hmem
        simp at h
        exact ⟨[], a, s, by simp, by simp [h], hmem, by simp⟩
      · rename_i hmem
        cases hr : strpbrk s accept with
        | none => simp [hr] at h
        | some j =>
          simp [hr] at h
          obtain ⟨pre, c, post, h1, h2, h3, h4⟩ := ih hr
          refine ⟨a :: pre, c, post, by simp [h1], by simp [h2, h], h3, ?_⟩
          intro b hb
          rcases List.mem_cons.1 hb with e | e
          · subst e
            exact ⟨hmem, ha0⟩
          · exact h4 b e

theorem strpbrk_append {pre accept : List Nat} (c : Nat) (post : List Nat)
    (h1 : ∀ a ∈ pre, a ∉ accept ∧ a ≠ 0) (hc : c ∈ accept) (hc0 : c ≠ 0) :
    strpbrk (pre ++ c :: post) accept = some pre.length := by
  induction pre with
  | nil => simp [strpbrk, hc, hc0]
  | cons a pre ih =>
    have ha := h1 a (by simp)
    have ih1 := ih (fun b hb => h1 b (by simp [hb]))
    simp [strpbrk, ha.1, ha.2, ih1]

theorem strspn_spec (s accept : List Nat) :
    ∃ pre post, s = pre ++ post ∧ pre.length = strspn s accept ∧
      (∀ a ∈ pre, a ∈ accept ∧ a ≠ 0) ∧ ¬ (post.headD 0 ≠ 0 ∧ post.headD 0 ∈ accept) := by
  induction s with
  | nil => exact ⟨[], [], by simp [strspn]⟩
  | cons a s ih =>
    by_cases ha : a ≠ 0 ∧ a ∈ accept
    · obtain ⟨pre, post, h1, h2, h3, h4⟩ := ih
      refine ⟨a :: pre, post, by simp [h1], by simp [strspn, ha, h2], ?_, h4⟩
      intro b hb
      rcases List.mem_cons.1 hb with e | e
      · subst e
        exact ⟨ha.2, ha.1⟩
      · exact h3 b e
    · refine ⟨[], a :: s, by simp, ?_, by simp, by simpa using ha⟩
      simp only [strspn, List.length_nil]
      rw [if_neg ha]

theorem strspn_append {pre accept : List Nat} (post : List Nat)
    (h1 : ∀ a ∈ pre, a ∈ accept ∧ a ≠ 0)
    (h2 : ¬ (post.headD 0 ≠ 0 ∧ post.headD 0 ∈ accept)) :
    strspn (pre ++ post) accept = pre.length := by
  induction pre with
  | nil =>
    cases post with
    | nil => simp [strspn]
    | cons b post =>
      simp only [List.headD_cons] at h2
      simp only [List.nil_append, strspn, List.length_nil]
      rw [if_neg h2]
  | cons a pre ih =>
    have ha := h1 a (by simp)
    have ih1 := ih (fun b hb => h1 b (by simp [hb]))
    simp [strspn, ha.1, ha.2, ih1]

theorem scan_tag_name_ok {s : List Nat} {p q : Nat} (h : scan_tag_name s p = Except.ok q) :
    ∃ N post, s = N ++ 10 :: post ∧ q = p + N.length + 1 ∧ ∀ c ∈ N, 32 < c := by
  induction s generalizing p with
  | nil => simp [scan_tag_name] at h
  | cons a s ih =>
    simp only [scan_tag_name] at h
    split at h
    · rename_i ha
      simp at h
      exact ⟨[], s, by simp [ha], by simp [h], by simp⟩
    · split at h
      · rename_i ha
        obtain ⟨N, post, h1, h2, h3⟩ := ih h
        refine ⟨a :: N, post, by simp [h1], by simp [h2]; omega, ?_⟩
        intro c hc
        rcases List.mem_cons.1 hc with e | e
        · subst e
          exact ha
        · exact h3 c e
      · simp at h

theorem scan_tag_name_append {N : List Nat} (post : List Nat) (p : Nat)
    (h : ∀ c ∈ N, 32 < c) :
    scan_tag_name (N ++ 10 :: post) p = Except.ok (p + N.length + 1) := by
  induction N generalizing p with
  | nil => simp [scan_tag_name]
  | cons a N ih =>
    have ha := h a (by simp)
    have ha10 : a ≠ 10 := by omega
    have := ih (p + 1) (fun c hc => h c (by simp [hc]))
    have e : p + 1 + N.length + 1 = p + (a :: N).length + 1 := by
      simp only [List.length_cons]
      omega
    rw [e] at this
    simp only [List.cons_append, scan_tag_name, if_neg ha10]
    rw [if_pos (by omega)]
    exact this

theorem scan_tag_name_error {N : List Nat} (post : List Nat) (p : Nat)
    (h1 : ∃ c ∈ N, c ≤ 32) (h2 : 10 ∉ N) :
    ∃ q, scan_tag_name (N ++ post) p = Except.error q := by
  induction N generalizing p with
  | nil => simp at h1
  | cons a N ih =>
    simp only [List.mem_cons, not_or] at h2
    have ha10 : a ≠ 10 := fun e => h2.1 e.symm
    simp only [List.cons_append, scan_tag_name, if_neg ha10]
    by_cases ha : a > 32
    · rw [if_pos ha]
      apply ih
      · obtain ⟨c, hc, hc32⟩ := h1
        rcases List.mem_cons.1 hc with e | e
        · subst e
          omega
        · exact ⟨c, e, hc32⟩
      · exact h2.2
    · rw [if_neg ha]
      exact ⟨_, rfl⟩

theorem from_hex_isSome (c : Nat) : (from_hex c).isSome ↔ is_hex c := by
  unfold from_hex is_hex
  split
  · simp_all
  · split
    · simp_all
    · split
      · simp_all
      · simp_all

theorem from_hex_eq_none (c : Nat) : from_hex c = none ↔ ¬ is_hex c := by
  rw [← from_hex_isSome]
  cases from_hex c <;> simp

theorem oid_bytes_isSome (n : Nat) (s : List Nat) :
    (oid_bytes n s).isSome ↔ (2 * n ≤ s.length ∧ ∀ c ∈ s.take (2 * n), is_hex c) := by
  induction n generalizing s with
  | zero => simp [oid_bytes]
  | succ n ih =>
    have h0 : ¬ is_hex 0 := by decide
    cases s with
    | nil =>
      have : from_hex 0 = none := (from_hex_eq_none 0).2 h0
      simp [oid_bytes, this]
    | cons a s =>
      cases s with
      | nil =>
        have : from_hex 0 = none := (from_hex_eq_none 0).2 h0
        simp only [oid_bytes, List.headD_cons, List.tail_cons, List.headD_nil, this]
        cases from_hex a <;> simp <;> omega
      | cons b s =>
        have e2 : 2 * (n + 1) = (2 * n + 1) + 1 := by omega
        simp only [oid_bytes, List.headD_cons, List.tail_cons, e2, List.take_succ_cons,
          List.mem_cons, List.length_cons]
        cases ha : from_hex a with
        | none =>
          have := (from_hex_eq_none a).1 ha
          simp only [Option.isSome_none, Bool.false_eq_true, false_iff, not_and]
          intro _ hall
          exact this (hall a (Or.inl rfl))
        | some hi =>
          cases hb : from_hex b with
          | none =>
            have := (from_hex_eq_none b).1 hb
            simp only [Option.isSome_none, Bool.false_eq_true, false_iff, not_and]
            intro _ hall
            exact this (hall b (Or.inr (Or.inl rfl)))
          | some lo =>
            have ha1 : is_hex a := (from_hex_isSome a).1 (by simp [ha])
            have hb1 : is_hex b := (from_hex_isSome b).1 (by simp [hb])
            simp only [Option.isSome_map']
            rw [ih s]
            constructor
            · rintro ⟨h1, h2⟩
              refine ⟨by omega, ?_⟩
              rintro c (e | e | e)
              · exact e ▸ ha1
              · exact e ▸ hb1
              · exact h2 c e
            · rintro ⟨h1, h2⟩
              exact ⟨by omega, fun c hc => h2 c (Or.inr (Or.inr hc))⟩

theorem git_oid_mkstr_isSome (h : List Nat) (h40 : h.length = 40) :
    (git_oid_mkstr h).isSome ↔ ∀ c ∈ h, is_hex c := by
  unfold git_oid_mkstr
  rw [oid_bytes_isSome]
  simp [h40, List.take_of_length_le]

theorem git_oid_mkstr_take {s oid : List Nat} (h : git_oid_mkstr (s.take 40) = some oid) :
    ∃ hx r, s = hx ++ r ∧ hx.length = 40 ∧ (∀ c ∈ hx, is_hex c) ∧
      git_oid_mkstr hx = some oid := by
  have h1 : (oid_bytes 20 (s.take 40)).isSome := by
    unfold git_oid_mkstr at h
    simp [h]
  rw [oid_bytes_isSome] at h1
  refine ⟨s.take 40, s.drop 40, by simp, ?_, ?_, h⟩
  · have := List.length_take_le 40 s
    omega
  · intro c hc
    apply h1.2
    simp only [List.take_take]
    simpa using hc

theorem mem_lit_digits (c : Nat) : c ∈ lit_digits ↔ is_digit c := by
  unfold lit_digits is_digit
  simp only [List.mem_cons, List.mem_singleton, List.not_mem_nil, or_false]
  omega

theorem digit_run (c : Nat) : (c ≠ 0 ∧ c ∈ lit_digits) ↔ is_digit c := by
  rw [mem_lit_digits]
  unfold is_digit
  omega

theorem set_sentinel (buffer : List Nat) (size : Nat) :
    ∃ z, buffer.set size 0 = buffer.take size ++ z ∧ z.headD 0 = 0 ∧
      z.length = (buffer.drop size).length := by
  induction buffer generalizing size with
  | nil => exact ⟨[], by simp⟩
  | cons a buffer ih =>
    cases size with
    | zero => exact ⟨0 :: buffer, by simp⟩
    | succ n =>
      obtain ⟨z, h1, h2, h3⟩ := ih n
      exact ⟨z, by simp [h1], h2, by simpa using h3⟩

theorem take_set_sentinel (buffer : List Nat) (size : Nat) :
    (buffer.set size 0).take size = buffer.take size := by
  induction buffer generalizing size with
  | nil => simp
  | cons a buffer ih =>
    cases size with
    | zero => simp
    | succ n => simp [ih n]

theorem cstr_cons (a : Nat) (s : List Nat) :
    cstr (a :: s) = if a = 0 then [] else a :: cstr s := by
  unfold cstr
  rw [List.takeWhile_cons]
  by_cases ha : a = 0 <;> simp [ha]

theorem cstr_append_nul (body z : List Nat) (hz : z.headD 0 = 0) :
    cstr (body ++ z) = cstr body := by
  induction body with
  | nil =>
    cases z with
    | nil => rfl
    | cons a z =>
      simp only [List.headD_cons] at hz
      subst hz
      simp [cstr]
  | cons a body ih =>
    rw [List.cons_append, cstr_cons, cstr_cons, ih]

theorem cstr_of_no_nul (s : List Nat) (h : 0 ∉ s) : cstr (s ++ [0]) = s := by
  induction s with
  | nil => simp [cstr]
  | cons a s ih =>
    simp only [List.mem_cons, not_or] at h
    have ha : a ≠ 0 := fun e => h.1 e.symm
    rw [List.cons_append, cstr_cons, if_neg ha, ih h.2]

theorem cstr_eq_self (s : List Nat) (h : 0 ∉ s) : cstr s = s := by
  induction s with
  | nil => simp [cstr]
  | cons a s ih =>
    simp only [List.mem_cons, not_or] at h
    have ha : a ≠ 0 := fun e => h.1 e.symm
    rw [cstr_cons, if_neg ha, ih h.2]

theorem digits_value_append {ds : List Nat} (post : List Nat) (acc : Nat)
    (h1 : ∀ c ∈ ds, is_digit c) (h2 : ¬ is_digit (post.headD 0)) :
    digits_value (ds ++ post) acc = ds.foldl (fun acc c => 10 * acc + (c - 48)) acc := by
  induction ds generalizing acc with
  | nil =>
    cases post with
    | nil => simp [digits_value]
    | cons b post =>
      simp only [List.headD_cons, is_digit] at h2
      simp only [List.nil_append, digits_value, List.foldl_nil]
      rw [if_neg h2]
  | cons a ds ih =>
    have ha : 48 ≤ a ∧ a ≤ 57 := h1 a (by simp)
    simp only [List.cons_append, digits_value, List.foldl_cons]
    rw [if_pos ha]
    exact ih _ (fun c hc => h1 c (by simp [hc]))

theorem strtol_digits {ds : List Nat} (post : List Nat) (hne : ds ≠ [])
    (h1 : ∀ c ∈ ds, is_digit c) (h2 : ¬ is_digit (post.headD 0))
    (h3 : decimal ds < 2 ^ 63) : strtol (ds ++ post) = (decimal ds : Int) := by
  cases ds with
  | nil => exact absurd rfl hne
  | cons a ds =>
    have ha : 48 ≤ a ∧ a ≤ 57 := h1 a (by simp)
    have hsp : isspace a = false := by
      unfold isspace
      simp only [decide_eq_false_iff_not]
      omega
    have hv := digits_value_append post 0 h1 h2
    have hd : (a :: ds ++ post).dropWhile isspace = a :: (ds ++ post) := by
      simp [List.dropWhile_cons, hsp]
    unfold strtol
    rw [hd]
    have e : ∀ (v : Int), (match a :: (ds ++ post) with
        | 45 :: r => - (digits_value r 0 : Int)
        | 43 :: r => (digits_value r 0 : Int)
        | r => (digits_value r 0 : Int)) = (digits_value (a :: (ds ++ post)) 0 : Int) := by
      intro _
      split
      · rename_i heq
        simp at heq
        omega
      · rename_i heq
        simp at heq
        omega
      · rfl
    simp only [e 0]
    simp only [List.cons_append] at hv
    rw [hv]
    change (if ((decimal (a :: ds) : Nat) : Int) < -(2 ^ 63) then (-(2 ^ 63) : Int)
      else if (2 ^ 63 - 1 : Int) < (decimal (a :: ds) : Nat) then 2 ^ 63 - 1
      else ((decimal (a :: ds) : Nat) : Int)) = _
    have h4 : ((decimal (a :: ds) : Nat) : Int) < 2 ^ 63 := by exact_mod_cast h3
    have h5 : (0 : Int) ≤ (decimal (a :: ds) : Nat) := Int.ofNat_nonneg _
    rw [if_neg (by omega), if_neg (by omega)]

theorem atoi_digits {ds : List Nat} (post : List Nat) (hne : ds ≠ [])
    (h1 : ∀ c ∈ ds, is_digit c) (h2 : ¬ is_digit (post.headD 0))
    (h3 : decimal ds < 2 ^ 31) : atoi (ds ++ post) = (decimal ds : Int) := by
  unfold atoi
  rw [strtol_digits post hne h1 h2 (by omega)]
  unfold to_int
  have h4 : ((decimal ds : Nat) : Int) < 2 ^ 31 := by exact_mod_cast h3
  have h5 : (0 : Int) ≤ (decimal ds : Nat) := Int.ofNat_nonneg _
  omega

theorem decimal_four (d1 d2 d3 d4 : Nat) :
    decimal [d1, d2, d3, d4] =
      1000 * (d1 - 48) + 100 * (d2 - 48) + 10 * (d3 - 48) + (d4 - 48) := by
  simp only [decimal, List.foldl_cons, List.foldl_nil]
  omega

/-! ## The checks, block by block -/

theorem passed_fail (events : List Event) (kind : ErrKind) (offset : Option Nat) (n : Nat) :
    (fail events kind offset).passed n ↔ n < kind.step := Iff.rfl

theorem passed_mono {o : Outcome} {n m : Nat} (h : o.passed n) (hm : m ≤ n) : o.passed m := by
  unfold Outcome.passed at h ⊢
  cases hr : o.result with
  | ok _ => simp
  | error e =>
    rw [hr] at h
    simp only at h ⊢
    omega

theorem rd_eq_headD (m : List Nat) (p : Nat) : rd m p = (m.drop p).headD 0 := by
  induction m generalizing p with
  | nil => simp [rd]
  | cons a m ih =>
    cases p with
    | zero => simp [rd]
    | succ n =>
      have := ih n
      simp only [rd, List.getD_cons_succ, List.drop_succ_cons] at this ⊢
      exact this

theorem drop_add_of_append {m pre r : List Nat} {p : Nat} (h : m.drop p = pre ++ r) :
    m.drop (p + pre.length) = r := by
  rw [← List.drop_drop, h]
  exact List.drop_left' rfl

theorem create_the_tag_passed (repo : git_repository) (events : List Event)
    (buffer target_oid : List Nat) (target_type : Int)
    (tagname author_name author_email timestamp offset : List Nat) (p : Nat) :
    (create_the_tag repo events buffer target_oid target_type tagname author_name
      author_email timestamp offset p).passed 17 := by
  unfold create_the_tag
  simp only
  split
  · exact (passed_fail _ _ _ _).2 (by decide)
  · split
    · exact (passed_fail _ _ _ _).2 (by decide)
    · exact trivial

theorem verify_blank_line_eq {buffer : List Nat} {p : Nat} (h : rd buffer p = 10)
    (repo : git_repository) (events : List Event)
    (target_oid : List Nat) (target_type : Int)
    (tagname author_name author_email timestamp offset : List Nat) :
    verify_blank_line repo events buffer target_oid target_type tagname author_name
      author_email timestamp offset p =
    create_the_tag repo events buffer target_oid target_type tagname author_name
      author_email timestamp offset p := by
  unfold verify_blank_line
  rw [if_neg (by simp [h])]

theorem verify_blank_line_fail {buffer : List Nat} {p : Nat} (h : rd buffer p ≠ 10)
    (repo : git_repository) (events : List Event)
    (target_oid : List Nat) (target_type : Int)
    (tagname author_name author_email timestamp offset : List Nat) :
    verify_blank_line repo events buffer target_oid target_type tagname author_name
      author_email timestamp offset p = fail events ErrKind.trailing_garbage (some p) := by
  unfold verify_blank_line
  rw [if_pos h]

theorem verify_blank_line_passed (repo : git_repository) (events : List Event)
    (buffer target_oid : List Nat) (target_type : Int)
    (tagname author_name author_email timestamp offset : List Nat) (p : Nat) :
    (verify_blank_line repo events buffer target_oid target_type tagname author_name
      author_email timestamp offset p).passed 16 := by
  by_cases h : rd buffer p = 10
  · rw [verify_blank_line_eq h]
    exact passed_mono (create_the_tag_passed ..) (by decide)
  · rw [verify_blank_line_fail h]
    exact (passed_fail _ _ _ _).2 (by decide)

theorem verify_blank_line_reach {repo : git_repository} {events : List Event}
    {buffer target_oid : List Nat} {target_type : Int}
    {tagname author_name author_email timestamp offset : List Nat} {p : Nat}
    (h : (verify_blank_line repo events buffer target_oid target_type tagname author_name
      author_email timestamp offset p).passed 17) : rd buffer p = 10 := by
  by_contra hne
  rw [verify_blank_line_fail hne] at h
  exact absurd ((passed_fail _ _ _ _).1 h) (by decide)

theorem decimal_four_lt (d1 d2 d3 d4 : Nat) (h1 : is_digit d1) (h2 : is_digit d2)
    (h3 : is_digit d3) (h4 : is_digit d4) : decimal [d1, d2, d3, d4] < 10000 := by
  rw [decimal_four]
  unfold is_digit at h1 h2 h3 h4
  omega

theorem timezone_check (buffer : List Nat) (p : Nat) :
    ((rd buffer p = 43 ∨ rd buffer p = 45) ∧
      strspn (buffer.drop (p + 1)) lit_digits = 4 ∧
      rd buffer (p + 5) = 10 ∧
      atoi (buffer.drop (p + 1)) ≤ 1400) ↔ timezone_ok (buffer.drop p) := by
  have hnd : ¬ is_digit 10 := by decide
  constructor
  · rintro ⟨hs, hspn, hnl, hat⟩
    rw [rd_eq_headD] at hs
    cases hb : buffer.drop p with
    | nil => simp [hb] at hs
    | cons sign s =>
      rw [hb] at hs
      simp only [List.headD_cons] at hs
      have hs1 : buffer.drop (p + 1) = s := by
        have := @drop_add_of_append buffer [sign] s p (by simpa using hb)
        simpa using this
      rw [hs1] at hspn hat
      obtain ⟨pre, post, e1, e2, e3, e4⟩ := strspn_spec s lit_digits
      rw [hspn] at e2
      have hp5 : rd buffer (p + 5) = post.headD 0 := by
        rw [rd_eq_headD]
        have : buffer.drop (p + 1 + pre.length) = post := by
          apply drop_add_of_append
          rw [hs1, e1]
        rw [e2] at this
        rw [show p + 5 = p + 1 + 4 by omega, this]
      rw [hp5] at hnl
      match pre, e2 with
      | [d1, d2, d3, d4], _ =>
        have hd : ∀ c ∈ [d1, d2, d3, d4], is_digit c := fun c hc =>
          (digit_run c).1 ⟨(e3 c hc).2, (e3 c hc).1⟩
        have hd1 := hd d1 (by simp)
        have hd2 := hd d2 (by simp)
        have hd3 := hd d3 (by simp)
        have hd4 := hd d4 (by simp)
        have hlt := decimal_four_lt d1 d2 d3 d4 hd1 hd2 hd3 hd4
        have hav : atoi ([d1, d2, d3, d4] ++ post) = (decimal [d1, d2, d3, d4] : Int) :=
          atoi_digits post (by simp) hd (by rw [hnl]; exact hnd) (by omega)
        rw [e1, hav] at hat
        cases post with
        | nil => simp at hnl
        | cons c post =>
          simp only [List.headD_cons] at hnl
          subst hnl
          refine ⟨sign, d1, d2, d3, d4, post, by simp [e1], hs, hd1, hd2, hd3, hd4, ?_⟩
          exact_mod_cast hat
  · rintro ⟨sign, d1, d2, d3, d4, r, e, hs, hd1, hd2, hd3, hd4, hle⟩
    have hs1 : buffer.drop (p + 1) = [d1, d2, d3, d4] ++ 10 :: r := by
      have := @drop_add_of_append buffer [sign] (d1 :: d2 :: d3 :: d4 :: 10 :: r) p
        (by simpa using e)
      simpa using this
    have hd : ∀ c ∈ [d1, d2, d3, d4], is_digit c := by
      intro c hc
      simp only [List.mem_cons, List.mem_singleton, List.not_mem_nil, or_false] at hc
      rcases hc with e | e | e | e <;> subst e <;> assumption
    have hlt := decimal_four_lt d1 d2 d3 d4 hd1 hd2 hd3 hd4
    refine ⟨?_, ?_, ?_, ?_⟩
    · rw [rd_eq_headD, e]
      exact hs
    · rw [hs1]
      exact strspn_append _ (fun c hc => ⟨((digit_run c).2 (hd c hc)).2,
        ((digit_run c).2 (hd c hc)).1⟩) (by simp [lit_digits])
    · rw [rd_eq_headD, show p + 5 = p + 1 + 4 by omega]
      have := drop_add_of_append hs1
      simp only [List.length_cons, List.length_nil] at this
      rw [this]
      rfl
    · rw [hs1, atoi_digits _ (by simp) hd (by exact hnd) (by omega)]
      exact_mod_cast hle

theorem verify_timezone_eq {buffer : List Nat} {p : Nat} (h : timezone_ok (buffer.drop p))
    (repo : git_repository) (events : List Event)
    (target_oid : List Nat) (target_type : Int)
    (tagname author_name author_email timestamp : List Nat) :
    verify_timezone repo events buffer target_oid target_type tagname author_name
      author_email timestamp p =
    verify_blank_line repo events buffer target_oid target_type tagname author_name
      author_email timestamp ((buffer.drop p).take 5 ++ [0]) (p + 6) := by
  unfold verify_timezone
  rw [if_neg (not_not.2 ((timezone_check buffer p).2 h))]

theorem verify_timezone_fail {buffer : List Nat} {p : Nat} (h : ¬ timezone_ok (buffer.drop p))
    (repo : git_repository) (events : List Event)
    (target_oid : List Nat) (target_type : Int)
    (tagname author_name author_email timestamp : List Nat) :
    verify_timezone repo events buffer target_oid target_type tagname author_name
      author_email timestamp p = fail events ErrKind.malformed_timezone (some p) := by
  unfold verify_timezone
  rw [if_pos (fun hc => h ((timezone_check buffer p).1 hc))]

theorem verify_timezone_passed (repo : git_repository) (events : List Event)
    (buffer target_oid : List Nat) (target_type : Int)
    (tagname author_name author_email timestamp : List Nat) (p : Nat) :
    (verify_timezone repo events buffer target_oid target_type tagname author_name
      author_email timestamp p).passed 15 := by
  by_cases h : timezone_ok (buffer.drop p)
  · rw [verify_timezone_eq h]
    exact passed_mono (verify_blank_line_passed ..) (by decide)
  · rw [verify_timezone_fail h]
    exact (passed_fail _ _ _ _).2 (by decide)

theorem verify_timezone_reach {repo : git_repository} {events : List Event}
    {buffer target_oid : List Nat} {target_type : Int}
    {tagname author_name author_email timestamp : List Nat} {p : Nat}
    (h : (verify_timezone repo events buffer target_oid target_type tagname author_name
      author_email timestamp p).passed 16) : timezone_ok (buffer.drop p) := by
  by_contra hne
  rw [verify_timezone_fail hne] at h
  exact absurd ((passed_fail _ _ _ _).1 h) (by decide)

theorem timestamp_strspn {s ts : List Nat} (h : timestamp_ok s ts) :
    strspn s lit_digits = ts.length := by
  obtain ⟨⟨r, e⟩, _, hd, _⟩ := h
  rw [e]
  exact strspn_append _ (fun c hc => ⟨((digit_run c).2 (hd c hc)).2,
    ((digit_run c).2 (hd c hc)).1⟩) (by simp [lit_digits])

theorem verify_timestamp_eq {buffer ts : List Nat} {p : Nat}
    (h : timestamp_ok (buffer.drop p) ts)
    (repo : git_repository) (events : List Event)
    (target_oid : List Nat) (target_type : Int)
    (tagname author_name author_email : List Nat) :
    verify_timestamp repo events buffer target_oid target_type tagname author_name
      author_email p =
    verify_timezone repo events buffer target_oid target_type tagname author_name
      author_email (ts ++ [0]) (p + ts.length + 1) := by
  have hspn := timestamp_strspn h
  obtain ⟨⟨r, e⟩, hne, hd, hcap⟩ := h
  have hlen : ts.length ≠ 0 := by
    intro h0
    exact hne (List.length_eq_zero.1 h0)
  have hsp : rd buffer (p + ts.length) = 32 := by
    rw [rd_eq_headD, drop_add_of_append e]
    rfl
  have htk : (buffer.drop p).take ts.length = ts := by
    rw [e]
    exact List.take_left' rfl
  unfold verify_timestamp
  simp only [hspn]
  rw [if_neg hlen, if_neg (by omega), if_neg (by simp [hsp]), htk]

theorem verify_timestamp_reach {repo : git_repository} {events : List Event}
    {buffer target_oid : List Nat} {target_type : Int}
    {tagname author_name author_email : List Nat} {p : Nat}
    (h : (verify_timestamp repo events buffer target_oid target_type tagname author_name
      author_email p).passed 15) : ∃ ts, timestamp_ok (buffer.drop p) ts := by
  unfold verify_timestamp at h
  simp only at h
  split at h
  · exact absurd ((passed_fail _ _ _ _).1 h) (by decide)
  · rename_i hlen
    split at h
    · exact absurd ((passed_fail _ _ _ _).1 h) (by decide)
    · rename_i hcap
      split at h
      · exact absurd ((passed_fail _ _ _ _).1 h) (by decide)
      · rename_i hsp
        simp only [ne_eq, not_not] at hsp
        obtain ⟨pre, post, e1, e2, e3, e4⟩ := strspn_spec (buffer.drop p) lit_digits
        rw [← e2, rd_eq_headD, drop_add_of_append e1] at hsp
        rw [← e2] at hcap
        cases post with
        | nil => simp at hsp
        | cons c post =>
          simp only [List.headD_cons] at hsp
          subst hsp
          refine ⟨pre, ⟨post, e1⟩, ?_,
            fun c hc => (digit_run c).1 ⟨(e3 c hc).2, (e3 c hc).1⟩, by omega⟩
          intro hnil
          rw [hnil] at e2
          exact hlen e2.symm

theorem verify_timestamp_passed (repo : git_repository) (events : List Event)
    (buffer target_oid : List Nat) (target_type : Int)
    (tagname author_name author_email : List Nat) (p : Nat) :
    (verify_timestamp repo events buffer target_oid target_type tagname author_name
      author_email p).passed 13 := by
  unfold verify_timestamp
  simp only
  split
  · exact (passed_fail _ _ _ _).2 (by decide)
  · split
    · exact (passed_fail _ _ _ _).2 (by decide)
    · split
      · exact (passed_fail _ _ _ _).2 (by decide)
      · exact passed_mono (verify_timezone_passed ..) (by decide)

theorem not_mem_of_forall_ne {l : List Nat} {x : Nat} (h : ∀ c ∈ l, c ≠ x) : x ∉ l :=
  fun hx => h x hx rfl

theorem verify_tagger_eq {buffer name email : List Nat} {q : Nat}
    (h : tagger_ok (buffer.drop q) name email)
    (repo : git_repository) (events : List Event)
    (target_oid : List Nat) (target_type : Int) (tagname : List Nat) :
    verify_tagger repo events buffer target_oid target_type tagname q =
    verify_timestamp repo events buffer target_oid target_type tagname
      (name ++ [0]) (email ++ [0]) (q + 7 + name.length + 2 + email.length + 2) := by
  obtain ⟨⟨r, e⟩, hne, hn, he, hcn, hce⟩ := h
  have hm : memcmp (buffer.drop q) lit_tagger 7 = false :=
    (memcmp_lit lit_tagger (by decide) _).2 ⟨name ++ lit_lb ++ email ++ lit_rb ++ r, by
      rw [e]
      simp only [List.append_assoc]⟩
  have e7 : buffer.drop (q + 7) = name ++ 32 :: 60 :: (email ++ 62 :: 32 :: r) := by
    have e' : buffer.drop q = lit_tagger ++ (name ++ 32 :: 60 :: (email ++ 62 :: 32 :: r)) := by
      rw [e]
      simp [lit_lb, lit_rb]
    have := drop_add_of_append e'
    simpa [lit_tagger] using this
  have elb : buffer.drop (q + 7 + name.length + 2) = email ++ 62 :: 32 :: r := by
    have e' : buffer.drop (q + 7) = (name ++ [32, 60]) ++ (email ++ 62 :: 32 :: r) := by
      rw [e7]
      simp
    have := drop_add_of_append e'
    simpa [Nat.add_assoc] using this
  have h1 : strstr (buffer.drop (q + 7)) lit_lb = some name.length := by
    rw [e7]
    exact strstr_append_snd 32 60 _ (by decide)
      (not_mem_of_forall_ne fun c hc => (hn c hc).1)
      (not_mem_of_forall_ne fun c hc => (hn c hc).2.2.2)
  have h2 : strstr (buffer.drop (q + 7 + name.length + 2)) lit_rb = some email.length := by
    rw [elb]
    exact strstr_append_fst 62 32 _
      (not_mem_of_forall_ne fun c hc => (he c hc).1)
      (not_mem_of_forall_ne fun c hc => (he c hc).2.2.2.2)
  have h3 : strpbrk (buffer.drop (q + 7)) lit_name_stop = some (name.length + 1) := by
    have e7b : buffer.drop (q + 7) = (name ++ [32]) ++ 60 :: (email ++ 62 :: 32 :: r) := by
      simp [e7]
    rw [e7b]
    have := @strpbrk_append (name ++ [32]) lit_name_stop 60
      (email ++ 62 :: 32 :: r) (by
        intro a ha
        rcases List.mem_append.1 ha with ha | ha
        · have := hn a ha
          simp only [lit_name_stop, List.mem_cons, List.mem_singleton, List.not_mem_nil,
            or_false]
          omega
        · simp only [List.mem_singleton] at ha
          subst ha
          decide) (by decide) (by decide)
    simpa using this
  have h4 : strpbrk (buffer.drop (q + 7 + name.length + 2)) lit_email_stop =
      some email.length := by
    rw [elb]
    exact strpbrk_append 62 _ (by
      intro a ha
      have := he a ha
      simp only [lit_email_stop, List.mem_cons, List.mem_singleton, List.not_mem_nil,
        or_false]
      omega) (by decide) (by decide)
  have hlen : name.length ≠ 0 := fun h0 => hne (List.length_eq_zero.1 h0)
  have t1 : (buffer.drop (q + 7)).take name.length = name := by
    rw [e7]
    exact List.take_left' rfl
  have t2 : (buffer.drop (q + 7 + name.length + 2)).take email.length = email := by
    rw [elb]
    exact List.take_left' rfl
  unfold verify_tagger
  simp only [hm, h1, h2, Bool.false_eq_true, if_false]
  have a1 : q + 7 + name.length + 1 - (q + 7) = name.length + 1 := by omega
  have a2 : q + 7 + name.length + 2 + email.length - (q + 7 + name.length + 2) =
      email.length := by omega
  have a3 : q + 7 + name.length - (q + 7) = name.length := by omega
  have a4 : q + 7 + name.length + 2 + email.length - (q + 7 + name.length) - 2 =
      email.length := by omega
  have a5 : ¬ (q + 7 + name.length = q + 7) := by omega
  have a6 : ¬ (40 ≤ name.length) := by omega
  have a7 : ¬ (40 ≤ email.length) := by omega
  simp only [a1, a2, a3, a4, h3, h4, ne_eq, not_true_eq_false, or_self, if_false, a5, a6, a7,
    t1, t2]

theorem verify_tagger_reach {repo : git_repository} {events : List Event}
    {buffer target_oid : List Nat} {target_type : Int} {tagname : List Nat} {q : Nat}
    (h : (verify_tagger repo events buffer target_oid target_type tagname q).passed 14) :
    ∃ name email, tagger_ok (buffer.drop q) name email := by
  unfold verify_tagger at h
  simp only at h
  split at h
  · exact absurd ((passed_fail _ _ _ _).1 h) (by decide)
  · rename_i hm
    simp only [Bool.not_eq_true] at hm
    obtain ⟨r0, e0⟩ := (memcmp_lit lit_tagger (by decide) _).1 hm
    have e7 : buffer.drop (q + 7) = r0 := by
      have := drop_add_of_append e0
      simpa [lit_tagger] using this
    split at h
    · exact absurd ((passed_fail _ _ _ _).1 h) (by decide)
    · rename_i a ha
      split at h
      · exact absurd ((passed_fail _ _ _ _).1 h) (by decide)
      · rename_i b hb
        split at h
        · exact absurd ((passed_fail _ _ _ _).1 h) (by decide)
        · rename_i hpb
          split at h
          · exact absurd ((passed_fail _ _ _ _).1 h) (by decide)
          · rename_i hlb
            split at h
            · exact absurd ((passed_fail _ _ _ _).1 h) (by decide)
            · rename_i hcn
              split at h
              · exact absurd ((passed_fail _ _ _ _).1 h) (by decide)
              · rename_i hce
                simp only [not_or, ne_eq, not_not] at hpb
                obtain ⟨hp1, hp2⟩ := hpb
                have a1 : q + 7 + a + 1 - (q + 7) = a + 1 := by omega
                have a2 : q + 7 + a + 2 + b - (q + 7 + a + 2) = b := by omega
                rw [a1] at hp1
                rw [a2] at hp2
                have ha0 : a ≠ 0 := by omega
                obtain ⟨name, post, n1, n2, n3⟩ := strstr_some ha
                have elb : buffer.drop (q + 7 + a + 2) = post := by
                  have e' : buffer.drop (q + 7) = (name ++ [32, 60]) ++ post := by
                    rw [n1]
                    simp
                  have := drop_add_of_append e'
                  simpa [n2, Nat.add_assoc] using this
                rw [elb] at hb hp2
                obtain ⟨email, r, m1, m2, m3⟩ := strstr_some hb
                obtain ⟨pre1, c1, post1, p1, p2, p3, p4⟩ := strpbrk_some hp1
                obtain ⟨pre2, c2, post2, q1, q2, q3, q4⟩ := strpbrk_some hp2
                have hpre1 : pre1 = name ++ [32] := by
                  have h1 : (buffer.drop (q + 7)).take (a + 1) = pre1 := by
                    rw [p1]
                    exact List.take_left' p2
                  have h2 : (buffer.drop (q + 7)).take (a + 1) = name ++ [32] := by
                    rw [n1]
                    have : name ++ 32 :: 60 :: post = (name ++ [32]) ++ 60 :: post := by simp
                    rw [this]
                    exact List.take_left' (by simp [n2])
                  rw [← h1, h2]
                have hpre2 : pre2 = email := by
                  have h1 : post.take b = pre2 := by
                    rw [q1]
                    exact List.take_left' q2
                  have h2 : post.take b = email := by
                    rw [m1]
                    exact List.take_left' m2
                  rw [← h1, h2]
                subst hpre1 hpre2
                have a3 : q + 7 + a - (q + 7) = a := by omega
                have a4 : q + 7 + a + 2 + b - (q + 7 + a) - 2 = b := by omega
                rw [a3] at hcn
                rw [a4] at hce
                refine ⟨name, pre2, ⟨r, ?_⟩, ?_, ?_, ?_, by omega, by omega⟩
                · rw [e0, ← e7, n1, m1]
                  simp [lit_lb, lit_rb]
                · intro hnil
                  rw [hnil] at n2
                  exact ha0 n2.symm
                · intro c hc
                  have := p4 c (List.mem_append.2 (Or.inl hc))
                  simp only [lit_name_stop, List.mem_cons, List.mem_singleton, List.not_mem_nil,
                    or_false, not_or] at this
                  exact ⟨this.1.1, this.1.2.1, this.1.2.2, this.2⟩
                · intro c hc
                  have := q4 c hc
                  simp only [lit_email_stop, List.mem_cons, List.mem_singleton, List.not_mem_nil,
                    or_false, not_or] at this
                  exact ⟨this.1.1, this.1.2.1, this.1.2.2.1, this.1.2.2.2, this.2⟩

theorem verify_tagger_passed (repo : git_repository) (events : List Event)
    (buffer target_oid : List Nat) (target_type : Int) (tagname : List Nat) (q : Nat) :
    (verify_tagger repo events buffer target_oid target_type tagname q).passed 10 := by
  unfold verify_tagger
  simp only
  split
  · exact (passed_fail _ _ _ _).2 (by decide)
  · split
    · exact (passed_fail _ _ _ _).2 (by decide)
    · split
      · exact (passed_fail _ _ _ _).2 (by decide)
      · split
        · exact (passed_fail _ _ _ _).2 (by decide)
        · split
          · exact (passed_fail _ _ _ _).2 (by decide)
          · split
            · exact (passed_fail _ _ _ _).2 (by decide)
            · split
              · exact (passed_fail _ _ _ _).2 (by decide)
              · exact passed_mono (verify_timestamp_passed ..) (by decide)

theorem verify_tag_name_eq {buffer N : List Nat} {t : Nat}
    (h : tag_name_ok (buffer.drop (t + 4)) N) (hlen : N.length < 40)
    (repo : git_repository) (stack_tagname : List Nat) (events : List Event)
    (target_oid : List Nat) (target_type : Int) :
    verify_tag_name repo stack_tagname events buffer target_oid target_type t =
    verify_tagger repo events buffer target_oid target_type
      (N ++ stack_tagname.drop N.length) (t + 4 + N.length + 1) := by
  obtain ⟨⟨r, e⟩, hN⟩ := h
  unfold verify_tag_name
  simp only [e, scan_tag_name_append r (t + 4) hN, TAG_NAME_LEN]
  have a1 : t + 4 + N.length + 1 - 1 - (t + 4) = N.length := by omega
  rw [a1, if_neg (by omega), List.take_left' rfl]

theorem verify_tag_name_long {buffer N : List Nat} {t : Nat}
    (h : tag_name_ok (buffer.drop (t + 4)) N) (hlen : 40 ≤ N.length)
    (repo : git_repository) (stack_tagname : List Nat) (events : List Event)
    (target_oid : List Nat) (target_type : Int) :
    verify_tag_name repo stack_tagname events buffer target_oid target_type t =
    fail events ErrKind.tag_name_too_long none := by
  obtain ⟨⟨r, e⟩, hN⟩ := h
  unfold verify_tag_name
  simp only [e, scan_tag_name_append r (t + 4) hN, TAG_NAME_LEN]
  have a1 : t + 4 + N.length + 1 - 1 - (t + 4) = N.length := by omega
  rw [a1, if_pos (by omega)]

theorem verify_tag_name_bad {buffer N r : List Nat} {t : Nat}
    (e : buffer.drop (t + 4) = N ++ r) (h1 : ∃ c ∈ N, c ≤ 32) (h2 : 10 ∉ N)
    (repo : git_repository) (stack_tagname : List Nat) (events : List Event)
    (target_oid : List Nat) (target_type : Int) :
    ∃ q, verify_tag_name repo stack_tagname events buffer target_oid target_type t =
      fail events ErrKind.tag_name (some q) := by
  obtain ⟨q, hq⟩ := scan_tag_name_error r (t + 4) h1 h2
  unfold verify_tag_name
  simp only [e, hq]
  exact ⟨q, rfl⟩

theorem verify_tag_name_reach {repo : git_repository} {stack_tagname : List Nat}
    {events : List Event} {buffer target_oid : List Nat} {target_type : Int} {t : Nat}
    (h : (verify_tag_name repo stack_tagname events buffer target_oid
      target_type t).passed 9) : ∃ N, tag_name_ok (buffer.drop (t + 4)) N := by
  unfold verify_tag_name at h
  simp only at h
  split at h
  · exact absurd ((passed_fail _ _ _ _).1 h) (by decide)
  · rename_i q hq
    obtain ⟨N, post, h1, _, h3⟩ := scan_tag_name_ok hq
    exact ⟨N, ⟨post, h1⟩, h3⟩

theorem verify_tag_name_reach_len {repo : git_repository} {stack_tagname : List Nat}
    {events : List Event} {buffer target_oid N : List Nat} {target_type : Int} {t : Nat}
    (h : (verify_tag_name repo stack_tagname events buffer target_oid
      target_type t).passed 10) (hN : tag_name_ok (buffer.drop (t + 4)) N) :
    N.length < 40 := by
  by_contra hlen
  rw [verify_tag_name_long hN (by omega)] at h
  exact absurd ((passed_fail _ _ _ _).1 h) (by decide)

theorem verify_tag_name_passed (repo : git_repository) (stack_tagname : List Nat)
    (events : List Event) (buffer target_oid : List Nat) (target_type : Int) (t : Nat) :
    (verify_tag_name repo stack_tagname events buffer target_oid target_type t).passed 8 := by
  unfold verify_tag_name
  simp only
  split
  · exact (passed_fail _ _ _ _).2 (by decide)
  · split
    · exact (passed_fail _ _ _ _).2 (by decide)
    · exact passed_mono (verify_tagger_passed ..) (by decide)

theorem memcmp_self_append (s r : List Nat) : memcmp s (s ++ r) s.length = false := by
  induction s with
  | nil => simp [memcmp]
  | cons a s ih => simp [memcmp, ih]

theorem verify_object_ok {repo : git_repository} {oid T : List Nat} {tt : Int}
    (h1 : repo.odb_read oid = some tt) (h2 : repo.type2string tt = T) (h3 : 0 ∉ T) :
    verify_object repo (T ++ [0]) oid = Except.ok tt := by
  unfold verify_object
  simp only [h1, h2, strlen, cstr_eq_self T h3, memcmp_self_append]
  rfl

theorem typelen_eq (type_line n : Nat) (hn : n < 2 ^ 31) :
    typelen type_line (type_line + 6 + n) = n := by
  unfold typelen to_int to_size_t
  push_cast
  omega

theorem verify_type_eq {buffer T r : List Nat} {type_line : Nat} {tt : Int}
    {repo : git_repository} {oid : List Nat}
    (e : buffer.drop (type_line + 5) = T ++ r) (hlen : T.length < 20)
    (hdb : repo.has_database = true) (hv : verify_object repo (T ++ [0]) oid = Except.ok tt)
    (stack_tagname : List Nat) :
    verify_type repo stack_tagname buffer oid type_line (type_line + 6 + T.length) =
    verify_tag_name repo stack_tagname [Event.odb_read oid] buffer oid tt
      (type_line + 6 + T.length) := by
  unfold verify_type
  simp only [typelen_eq type_line T.length (by omega)]
  have h1 : ¬ (to_size_t (T.length : Int) ≥ 20) := by
    unfold to_size_t
    omega
  rw [if_neg h1]
  simp only [Int.toNat_ofNat, e, List.take_left' rfl, hdb, hv, not_true_eq_false, if_false]

theorem verify_type_reach {repo : git_repository} {stack_tagname buffer oid : List Nat}
    {type_line tag_line : Nat}
    (h : (verify_type repo stack_tagname buffer oid type_line tag_line).passed 8) :
    repo.has_database = true ∧ ∃ tt, repo.odb_read oid = some tt ∧
      verify_type repo stack_tagname buffer oid type_line tag_line =
      verify_tag_name repo stack_tagname [Event.odb_read oid] buffer oid tt tag_line := by
  unfold verify_type at h ⊢
  simp only at h ⊢
  split at h
  · exact absurd ((passed_fail _ _ _ _).1 h) (by decide)
  · rename_i hlen
    rw [if_neg hlen]
    split at h
    · exact absurd ((passed_fail _ _ _ _).1 h) (by decide)
    · rename_i hdb
      rw [if_neg hdb]
      simp only [Bool.not_eq_true, Bool.not_eq_false] at hdb
      refine ⟨hdb, ?_⟩
      split at h
      · exact absurd ((passed_fail _ _ _ _).1 h) (by simp [ErrKind.step])
      · rename_i tt hv
        refine ⟨tt, ?_, rfl⟩
        unfold verify_object at hv
        split at hv
        · simp at hv
        · rename_i ty hty
          simp only at hv
          split at hv
          · simp at hv
          · simp only [Except.ok.injEq] at hv
            rw [hty, hv]

theorem verify_type_passed (repo : git_repository) (stack_tagname buffer oid : List Nat)
    (type_line tag_line : Nat) :
    (verify_type repo stack_tagname buffer oid type_line tag_line).passed 5 := by
  unfold verify_type
  simp only
  split
  · exact (passed_fail _ _ _ _).2 (by decide)
  · split
    · exact (passed_fail _ _ _ _).2 (by decide)
    · split
      · exact (passed_fail _ _ _ _).2 (by simp [ErrKind.step])
      · exact passed_mono (verify_tag_name_passed ..) (by decide)

theorem strchr_cons_ne {x c : Nat} (xs : List Nat) (h1 : x ≠ c) (h2 : x ≠ 0) :
    strchr (x :: xs) c = (strchr xs c).map (fun i => i + 1) := by
  simp [strchr, h1, h2]

theorem type_line_drop {buffer T r : List Nat}
    (e : buffer.drop 47 = lit_nl_type ++ T ++ 10 :: (lit_tag ++ r)) :
    buffer.drop 48 = [116, 121, 112, 101, 32] ++ T ++ 10 :: (lit_tag ++ r) ∧
    buffer.drop 53 = T ++ 10 :: (lit_tag ++ r) ∧
    buffer.drop (54 + T.length) = lit_tag ++ r ∧
    buffer.drop (54 + T.length + 4) = r := by
  have e1 : buffer.drop 47 = [10] ++ ([116, 121, 112, 101, 32] ++ T ++ 10 :: (lit_tag ++ r)) := by
    rw [e]
    simp [lit_nl_type]
  have h1 := drop_add_of_append e1
  have e2 : buffer.drop 47 = lit_nl_type ++ (T ++ 10 :: (lit_tag ++ r)) := by
    rw [e]
    simp
  have h2 := drop_add_of_append e2
  have e3 : buffer.drop 47 = (lit_nl_type ++ T ++ [10]) ++ (lit_tag ++ r) := by
    rw [e]
    simp
  have h3 := drop_add_of_append e3
  have e4 : buffer.drop 47 = (lit_nl_type ++ T ++ [10] ++ lit_tag) ++ r := by
    rw [e]
    simp
  have h4 := drop_add_of_append e4
  have a3 : 47 + (lit_nl_type ++ T ++ [10]).length = 54 + T.length := by
    simp only [List.length_append, List.length_cons, List.length_nil, lit_nl_type]
    omega
  have a4 : 47 + (lit_nl_type ++ T ++ [10] ++ lit_tag).length = 54 + T.length + 4 := by
    simp only [List.length_append, List.length_cons, List.length_nil, lit_nl_type, lit_tag]
    omega
  rw [a3] at h3
  rw [a4] at h4
  exact ⟨h1, h2, h3, h4⟩

theorem verify_tag_line_eq {buffer T : List Nat} (h : type_line_ok (buffer.drop 47) T)
    (repo : git_repository) (stack_tagname : List Nat) (oid : List Nat) :
    verify_tag_line repo stack_tagname buffer oid =
    verify_type repo stack_tagname buffer oid 48 (48 + 6 + T.length) := by
  obtain ⟨⟨r, e, hr⟩, hT, hT0⟩ := h
  obtain ⟨d48, _, d54, d58⟩ := type_line_drop e
  have hm : memcmp (buffer.drop 47) lit_nl_type 6 = false :=
    (memcmp_lit lit_nl_type (by decide) _).2 ⟨T ++ 10 :: (lit_tag ++ r), by
      rw [e]
      simp only [List.append_assoc]⟩
  have hc : strchr (buffer.drop 48) 10 = some (5 + T.length) := by
    rw [d48]
    have := @strchr_append ([116, 121, 112, 101, 32] ++ T) 10 (lit_tag ++ r) (by
      simp only [List.mem_append, List.mem_cons, List.mem_singleton, List.not_mem_nil,
        or_false, not_or]
      exact ⟨by decide, hT⟩) (by
      simp only [List.mem_append, List.mem_cons, List.mem_singleton, List.not_mem_nil,
        or_false, not_or]
      exact ⟨by decide, hT0⟩)
    have a : ([116, 121, 112, 101, 32] ++ T).length = 5 + T.length := by
      rw [List.length_append]
      rfl
    rw [a] at this
    rw [← this]
  have a1 : 48 + (5 + T.length) + 1 = 54 + T.length := by omega
  have hm2 : memcmp (buffer.drop (54 + T.length)) lit_tag 4 = false :=
    (memcmp_lit lit_tag (by decide) _).2 ⟨r, d54⟩
  have hrd : rd buffer (54 + T.length + 4) ≠ 10 := by
    rw [rd_eq_headD, d58]
    exact hr
  unfold verify_tag_line
  simp only [Nat.add_sub_cancel, hm, hc, a1, hm2, hrd, Bool.false_eq_true, if_false, or_self]

theorem verify_tag_line_reach {repo : git_repository} {stack_tagname buffer oid : List Nat}
    (h : (verify_tag_line repo stack_tagname buffer oid).passed 5) :
    ∃ T, type_line_ok (buffer.drop 47) T := by
  unfold verify_tag_line at h
  simp only [Nat.reduceSub] at h
  split at h
  · exact absurd ((passed_fail _ _ _ _).1 h) (by decide)
  · rename_i hm
    simp only [Bool.not_eq_true] at hm
    obtain ⟨r0, e0⟩ := (memcmp_lit lit_nl_type (by decide) _).1 hm
    split at h
    · exact absurd ((passed_fail _ _ _ _).1 h) (by decide)
    · rename_i k hk
      split at h
      · exact absurd ((passed_fail _ _ _ _).1 h) (by decide)
      · rename_i htag
        simp only [not_or, Bool.not_eq_true] at htag
        obtain ⟨hm2, hrd⟩ := htag
        have e48 : buffer.drop 48 = [116, 121, 112, 101, 32] ++ r0 := by
          have e1 : buffer.drop 47 = [10] ++ ([116, 121, 112, 101, 32] ++ r0) := by
            rw [e0]
            simp [lit_nl_type]
          exact drop_add_of_append e1
        have e48b : buffer.drop 48 = 116 :: 121 :: 112 :: 101 :: 32 :: r0 := e48
        rw [e48b, strchr_cons_ne _ (by decide) (by decide),
          strchr_cons_ne _ (by decide) (by decide), strchr_cons_ne _ (by decide) (by decide),
          strchr_cons_ne _ (by decide) (by decide),
          strchr_cons_ne _ (by decide) (by decide)] at hk
        cases hj : strchr r0 10 with
        | none => simp [hj] at hk
        | some j =>
        simp only [hj, Option.map_some', Option.some.injEq] at hk
        have hjk : j + 5 = k := hk
        obtain ⟨T, post, t1, t2, t3, t4⟩ := strchr_some (by decide) hj
        have e47 : buffer.drop 47 = (lit_nl_type ++ T ++ [10]) ++ post := by
          rw [e0, t1]
          simp
        have d54 := drop_add_of_append e47
        have a1 : 47 + (lit_nl_type ++ T ++ [10]).length = 48 + k + 1 := by
          simp only [List.length_append, List.length_cons, List.length_nil, lit_nl_type]
          omega
        rw [a1] at d54
        rw [d54] at hm2
        obtain ⟨r, e2⟩ := (memcmp_lit lit_tag (by decide) _).1 hm2
        refine ⟨T, ⟨r, ?_, ?_⟩, t3, t4⟩
        · rw [e47, e2]
          simp
        · have e3 : buffer.drop (48 + k + 1) = lit_tag ++ r := by rw [d54, e2]
          have := drop_add_of_append e3
          rw [rd_eq_headD] at hrd
          simp only [lit_tag, List.length_cons, List.length_nil] at this
          rw [this] at hrd
          exact hrd

theorem verify_tag_line_passed (repo : git_repository) (stack_tagname buffer oid : List Nat) :
    (verify_tag_line repo stack_tagname buffer oid).passed 2 := by
  unfold verify_tag_line
  simp only
  split
  · exact (passed_fail _ _ _ _).2 (by decide)
  · split
    · exact (passed_fail _ _ _ _).2 (by decide)
    · split
      · exact (passed_fail _ _ _ _).2 (by decide)
      · exact passed_mono (verify_type_passed ..) (by decide)

theorem object_ok_mkstr {buffer h : List Nat} (hk : object_ok buffer h) :
    ∃ oid, git_oid_mkstr h = some oid := by
  have := (git_oid_mkstr_isSome h hk.2.1).2 hk.2.2
  exact Option.isSome_iff_exists.1 this

theorem verify_and_create_tag_eq {buffer h oid : List Nat} {size : Nat} (hs : 84 ≤ size)
    (hk : object_ok (buffer.set size 0) h) (ho : git_oid_mkstr h = some oid)
    (repo : git_repository) (stack_tagname : List Nat) :
    verify_and_create_tag repo stack_tagname buffer size =
    verify_tag_line repo stack_tagname (buffer.set size 0) oid := by
  obtain ⟨⟨r, e⟩, h40, _⟩ := hk
  have hm : memcmp (buffer.set size 0) lit_object 7 = false :=
    (memcmp_lit lit_object (by decide) _).2 ⟨h ++ r, by
      rw [e]
      simp only [List.append_assoc]⟩
  have htk : ((buffer.set size 0).drop 7).take 40 = h := by
    rw [e]
    have : (lit_object ++ h ++ r).drop 7 = h ++ r := by
      simp [lit_object]
    rw [this]
    exact List.take_left' h40
  unfold verify_and_create_tag
  rw [if_neg (by omega)]
  simp only [hm, htk, ho, Bool.false_eq_true, if_false]

theorem verify_and_create_tag_reach {repo : git_repository}
    {stack_tagname buffer : List Nat} {size : Nat}
    (h : (verify_and_create_tag repo stack_tagname buffer size).passed 2) :
    84 ≤ size ∧ ∃ hx oid, object_ok (buffer.set size 0) hx ∧ git_oid_mkstr hx = some oid := by
  unfold verify_and_create_tag at h
  split at h
  · exact absurd ((passed_fail _ _ _ _).1 h) (by decide)
  · rename_i hs
    refine ⟨by omega, ?_⟩
    simp only at h
    split at h
    · exact absurd ((passed_fail _ _ _ _).1 h) (by decide)
    · rename_i hm
      simp only [Bool.not_eq_true] at hm
      obtain ⟨r0, e0⟩ := (memcmp_lit lit_object (by decide) _).1 hm
      split at h
      · exact absurd ((passed_fail _ _ _ _).1 h) (by decide)
      · rename_i oid ho
        have e7 : (buffer.set size 0).drop 7 = r0 := by
          rw [e0]
          simp [lit_object]
        rw [e7] at ho
        obtain ⟨hx, r, x1, x2, x3, x4⟩ := git_oid_mkstr_take ho
        exact ⟨hx, oid, ⟨⟨r, by rw [e0, x1]; simp⟩, x2, x3⟩, x4⟩

theorem drop_of_append {buf P r : List Nat} (e : buf = P ++ r) : buf.drop P.length = r := by
  rw [e]
  exact List.drop_left' rfl

theorem length_doc_to_tag (h T : List Nat) (h40 : h.length = 40) :
    (doc_to_tag h T).length = 54 + T.length + 4 := by
  simp only [doc_to_tag, List.length_append, h40, lit_object, lit_nl_type, lit_tag,
    List.length_cons, List.length_nil]
  omega

theorem length_doc_to_tagger (h T N : List Nat) (h40 : h.length = 40) :
    (doc_to_tagger h T N).length = 54 + T.length + 4 + N.length + 1 := by
  simp only [doc_to_tagger, List.length_append, length_doc_to_tag h T h40, List.length_cons,
    List.length_nil]

theorem length_doc_to_stamp (h T N name email : List Nat) :
    (doc_to_stamp h T N name email).length =
      (doc_to_tagger h T N).length + 7 + name.length + 2 + email.length + 2 := by
  simp only [doc_to_stamp, List.length_append, lit_tagger, lit_lb, lit_rb, List.length_cons,
    List.length_nil]

theorem length_doc_to_zone (h T N name email ts : List Nat) :
    (doc_to_zone h T N name email ts).length =
      (doc_to_stamp h T N name email).length + ts.length + 1 := by
  simp only [doc_to_zone, List.length_append, List.length_cons, List.length_nil]

/-! ## From a document of the grammar to the run: one block after the other -/

theorem step_object {buf' buffer h T r oid : List Nat} {size : Nat} (hs : 84 ≤ size)
    (hb : buf' = buffer.set size 0)
    (e : buf' = doc_to_tag h T ++ r) (hr : r.headD 0 ≠ 10) (h40 : h.length = 40)
    (hx : ∀ c ∈ h, is_hex c) (hT : 10 ∉ T) (hT0 : 0 ∉ T) (ho : git_oid_mkstr h = some oid)
    (repo : git_repository) (stack_tagname : List Nat) :
    verify_and_create_tag repo stack_tagname buffer size =
    verify_type repo stack_tagname buf' oid 48 (48 + 6 + T.length) := by
  subst hb
  have e1 : buffer.set size 0 =
      lit_object ++ h ++ (lit_nl_type ++ T ++ 10 :: (lit_tag ++ r)) := by
    rw [e]
    simp [doc_to_tag]
  rw [verify_and_create_tag_eq hs ⟨⟨_, e1⟩, h40, hx⟩ ho]
  have e2 : (buffer.set size 0).drop 47 = lit_nl_type ++ T ++ 10 :: (lit_tag ++ r) := by
    have := drop_of_append e1
    simpa [lit_object, h40] using this
  exact verify_tag_line_eq ⟨⟨r, e2, hr⟩, hT, hT0⟩ repo stack_tagname oid

theorem step_tag_name {buf' h T N r : List Nat} (e : buf' = doc_to_tagger h T N ++ r)
    (h40 : h.length = 40) (hN : name_ok N)
    (repo : git_repository) (stack_tagname : List Nat) (events : List Event)
    (oid : List Nat) (tt : Int) :
    verify_tag_name repo stack_tagname events buf' oid tt (48 + 6 + T.length) =
    verify_tagger repo events buf' oid tt (N ++ stack_tagname.drop N.length)
      (doc_to_tagger h T N).length := by
  have e1 : buf' = doc_to_tag h T ++ (N ++ 10 :: r) := by
    rw [e]
    simp [doc_to_tagger]
  have e2 := drop_of_append e1
  rw [length_doc_to_tag h T h40] at e2
  have a : 48 + 6 + T.length = 54 + T.length := by omega
  rw [a, verify_tag_name_eq ⟨⟨r, e2⟩, hN.2.1⟩ hN.2.2, length_doc_to_tagger h T N h40]

theorem step_tagger {buf' h T N name email r : List Nat}
    (e : buf' = doc_to_stamp h T N name email ++ r) (hi : ident_ok name email)
    (repo : git_repository) (events : List Event) (oid : List Nat) (tt : Int)
    (tagname : List Nat) :
    verify_tagger repo events buf' oid tt tagname (doc_to_tagger h T N).length =
    verify_timestamp repo events buf' oid tt tagname (name ++ [0]) (email ++ [0])
      (doc_to_stamp h T N name email).length := by
  have e1 : buf' = doc_to_tagger h T N ++
      (lit_tagger ++ name ++ lit_lb ++ email ++ lit_rb ++ r) := by
    rw [e]
    simp [doc_to_stamp]
  have e2 := drop_of_append e1
  rw [verify_tagger_eq ⟨⟨r, e2⟩, hi⟩, length_doc_to_stamp]

theorem step_timestamp {buf' h T N name email ts r : List Nat}
    (e : buf' = doc_to_zone h T N name email ts ++ r) (ht : stamp_ok ts)
    (repo : git_repository) (events : List Event) (oid : List Nat) (tt : Int)
    (tagname author_name author_email : List Nat) :
    verify_timestamp repo events buf' oid tt tagname author_name author_email
      (doc_to_stamp h T N name email).length =
    verify_timezone repo events buf' oid tt tagname author_name author_email (ts ++ [0])
      (doc_to_zone h T N name email ts).length := by
  have e1 : buf' = doc_to_stamp h T N name email ++ (ts ++ 32 :: r) := by
    rw [e]
    simp [doc_to_zone]
  have e2 := drop_of_append e1
  rw [verify_timestamp_eq ⟨⟨r, e2⟩, ht⟩, length_doc_to_zone]

theorem zone_ok_timezone {tz r : List Nat} (hz : zone_ok tz) :
    timezone_ok (tz ++ 10 :: r) ∧ (tz ++ 10 :: r).take 5 = tz ∧ tz.length = 5 := by
  obtain ⟨sign, d1, d2, d3, d4, e, hs, h1, h2, h3, h4, hle⟩ := hz
  subst e
  exact ⟨⟨sign, d1, d2, d3, d4, r, rfl, hs, h1, h2, h3, h4, hle⟩, rfl, rfl⟩

theorem step_timezone {buf' h T N name email ts tz r : List Nat}
    (e : buf' = doc_to_zone h T N name email ts ++ (tz ++ 10 :: r)) (hz : zone_ok tz)
    (repo : git_repository) (events : List Event) (oid : List Nat) (tt : Int)
    (tagname author_name author_email timestamp : List Nat) :
    verify_timezone repo events buf' oid tt tagname author_name author_email timestamp
      (doc_to_zone h T N name email ts).length =
    verify_blank_line repo events buf' oid tt tagname author_name author_email timestamp
      (tz ++ [0]) ((doc_to_zone h T N name email ts).length + 6) := by
  have e2 := drop_of_append e
  obtain ⟨z1, z2, _⟩ := zone_ok_timezone (r := r) hz
  rw [verify_timezone_eq (by rw [e2]; exact z1), e2, z2]

theorem step_blank_line {buf' h T N name email ts tz r : List Nat}
    (e : buf' = doc_header h T N name email ts tz ++ r) (hz : zone_ok tz)
    (repo : git_repository) (events : List Event) (oid : List Nat) (tt : Int)
    (tagname author_name author_email timestamp offset : List Nat) :
    verify_blank_line repo events buf' oid tt tagname author_name author_email timestamp
      offset ((doc_to_zone h T N name email ts).length + 6) =
    create_the_tag repo events buf' oid tt tagname author_name author_email timestamp
      offset ((doc_to_zone h T N name email ts).length + 6) ∧
    buf'.drop ((doc_to_zone h T N name email ts).length + 6 + 1) = r := by
  obtain ⟨_, _, z3⟩ := zone_ok_timezone (r := r) hz
  have e1 : buf' = (doc_to_zone h T N name email ts ++ tz ++ [10]) ++ (10 :: r) := by
    rw [e]
    simp [doc_header]
  have e2 := drop_of_append e1
  have a : (doc_to_zone h T N name email ts ++ tz ++ [10]).length =
      (doc_to_zone h T N name email ts).length + 6 := by
    simp only [List.length_append, z3, List.length_cons, List.length_nil]
  rw [a] at e2
  constructor
  · apply verify_blank_line_eq
    rw [rd_eq_headD, e2]
    rfl
  · have e3 : buf'.drop ((doc_to_zone h T N name email ts).length + 6) = [10] ++ r := e2
    exact drop_add_of_append e3

/-! ## From the run to the grammar: what a run that got past a check has read -/

theorem reach_type {repo : git_repository} {stack_tagname buffer : List Nat} {size : Nat}
    (hp : (verify_and_create_tag repo stack_tagname buffer size).passed 5) :
    84 ≤ size ∧ ∃ h T r oid, buffer.set size 0 = doc_to_tag h T ++ r ∧ r.headD 0 ≠ 10 ∧
      h.length = 40 ∧ (∀ c ∈ h, is_hex c) ∧ 10 ∉ T ∧ 0 ∉ T ∧ git_oid_mkstr h = some oid ∧
      verify_and_create_tag repo stack_tagname buffer size =
        verify_type repo stack_tagname (buffer.set size 0) oid 48 (48 + 6 + T.length) := by
  obtain ⟨hs, h, oid, hk, ho⟩ := verify_and_create_tag_reach (passed_mono hp (by decide))
  refine ⟨hs, ?_⟩
  have e1 := verify_and_create_tag_eq hs hk ho repo stack_tagname
  rw [e1] at hp
  obtain ⟨T, ⟨r, e2, hr⟩, hT, hT0⟩ := verify_tag_line_reach hp
  obtain ⟨⟨r0, e0⟩, h40, hx⟩ := hk
  have e47 : (buffer.set size 0).drop 47 = r0 := by
    have := drop_of_append e0
    simpa [lit_object, h40] using this
  have e3 : buffer.set size 0 = doc_to_tag h T ++ r := by
    rw [e0, ← e47, e2]
    simp [doc_to_tag]
  exact ⟨h, T, r, oid, e3, hr, h40, hx, hT, hT0, ho,
    step_object hs rfl e3 hr h40 hx hT hT0 ho repo stack_tagname⟩

theorem reach_tag_name {repo : git_repository} {stack_tagname buffer : List Nat} {size : Nat}
    (hp : (verify_and_create_tag repo stack_tagname buffer size).passed 8) :
    84 ≤ size ∧ ∃ h T r oid tt, buffer.set size 0 = doc_to_tag h T ++ r ∧ r.headD 0 ≠ 10 ∧
      target_ok repo h T oid tt ∧
      verify_and_create_tag repo stack_tagname buffer size =
        verify_tag_name repo stack_tagname [Event.odb_read oid] (buffer.set size 0) oid tt
          (48 + 6 + T.length) := by
  obtain ⟨hs, h, T, r, oid, e, hr, h40, hx, hT, hT0, ho, eq⟩ :=
    reach_type (passed_mono hp (by decide))
  refine ⟨hs, ?_⟩
  rw [eq] at hp
  obtain ⟨hdb, tt, hrd, eq2⟩ := verify_type_reach hp
  exact ⟨h, T, r, oid, tt, e, hr, ⟨h40, hx, hT, hT0, ho, hdb, hrd⟩, eq.trans eq2⟩

theorem name_ok_of {N r r' : List Nat} (e : r = N ++ 10 :: r') (hr : r.headD 0 ≠ 10)
    (h1 : ∀ c ∈ N, 32 < c) (h2 : N.length < 40) : name_ok N := by
  refine ⟨?_, h1, h2⟩
  intro hnil
  subst hnil
  rw [e] at hr
  exact hr rfl

theorem reach_tagger {repo : git_repository} {stack_tagname buffer : List Nat} {size : Nat}
    (hp : (verify_and_create_tag repo stack_tagname buffer size).passed 10) :
    84 ≤ size ∧ ∃ h T N r oid tt, buffer.set size 0 = doc_to_tagger h T N ++ r ∧
      target_ok repo h T oid tt ∧ name_ok N ∧
      verify_and_create_tag repo stack_tagname buffer size =
        verify_tagger repo [Event.odb_read oid] (buffer.set size 0) oid tt
          (N ++ stack_tagname.drop N.length) (doc_to_tagger h T N).length := by
  obtain ⟨hs, h, T, r, oid, tt, e, hr, hk, eq⟩ := reach_tag_name (passed_mono hp (by decide))
  refine ⟨hs, ?_⟩
  rw [eq] at hp
  have e2 := drop_of_append e
  rw [length_doc_to_tag h T hk.1] at e2
  have a : 48 + 6 + T.length = 54 + T.length := by omega
  rw [a] at hp
  obtain ⟨N, hN⟩ := verify_tag_name_reach (passed_mono hp (by decide))
  have hlen := verify_tag_name_reach_len hp hN
  rw [e2] at hN
  obtain ⟨⟨r', e3⟩, hN1⟩ := hN
  have hname := name_ok_of e3 hr hN1 hlen
  have e4 : buffer.set size 0 = doc_to_tagger h T N ++ r' := by
    rw [e, e3]
    simp [doc_to_tagger]
  exact ⟨h, T, N, r', oid, tt, e4, hk, hname,
    eq.trans (step_tag_name e4 hk.1 hname repo stack_tagname _ oid tt)⟩

theorem reach_timestamp {repo : git_repository} {stack_tagname buffer : List Nat} {size : Nat}
    (hp : (verify_and_create_tag repo stack_tagname buffer size).passed 14) :
    84 ≤ size ∧ ∃ h T N name email r oid tt,
      buffer.set size 0 = doc_to_stamp h T N name email ++ r ∧
      target_ok repo h T oid tt ∧ name_ok N ∧ ident_ok name email ∧
      verify_and_create_tag repo stack_tagname buffer size =
        verify_timestamp repo [Event.odb_read oid] (buffer.set size 0) oid tt
          (N ++ stack_tagname.drop N.length) (name ++ [0]) (email ++ [0])
          (doc_to_stamp h T N name email).length := by
  obtain ⟨hs, h, T, N, r, oid, tt, e, hk, hN, eq⟩ := reach_tagger (passed_mono hp (by decide))
  refine ⟨hs, ?_⟩
  rw [eq] at hp
  obtain ⟨name, email, ⟨r', e3⟩, hi⟩ := verify_tagger_reach hp
  rw [drop_of_append e] at e3
  have e4 : buffer.set size 0 = doc_to_stamp h T N name email ++ r' := by
    rw [e, e3]
    simp [doc_to_stamp]
  exact ⟨h, T, N, name, email, r', oid, tt, e4, hk, hN, hi,
    eq.trans (step_tagger e4 hi repo _ oid tt _)⟩

theorem reach_timezone {repo : git_repository} {stack_tagname buffer : List Nat} {size : Nat}
    (hp : (verify_and_create_tag repo stack_tagname buffer size).passed 15) :
    84 ≤ size ∧ ∃ h T N name email ts r oid tt,
      buffer.set size 0 = doc_to_zone h T N name email ts ++ r ∧
      target_ok repo h T oid tt ∧ name_ok N ∧ ident_ok name email ∧ stamp_ok ts ∧
      verify_and_create_tag repo stack_tagname buffer size =
        verify_timezone repo [Event.odb_read oid] (buffer.set size 0) oid tt
          (N ++ stack_tagname.drop N.length) (name ++ [0]) (email ++ [0]) (ts ++ [0])
          (doc_to_zone h T N name email ts).length := by
  obtain ⟨hs, h, T, N, name, email, r, oid, tt, e, hk, hN, hi, eq⟩ :=
    reach_timestamp (passed_mono hp (by decide))
  refine ⟨hs, ?_⟩
  rw [eq] at hp
  obtain ⟨ts, ⟨r', e3⟩, ht⟩ := verify_timestamp_reach hp
  rw [drop_of_append e] at e3
  have e4 : buffer.set size 0 = doc_to_zone h T N name email ts ++ r' := by
    rw [e, e3]
    simp [doc_to_zone]
  exact ⟨h, T, N, name, email, ts, r', oid, tt, e4, hk, hN, hi, ht,
    eq.trans (step_timestamp e4 ht repo _ oid tt _ _ _)⟩

theorem timezone_ok_zone {s : List Nat} (h : timezone_ok s) :
    ∃ tz r, s = tz ++ 10 :: r ∧ zone_ok tz := by
  obtain ⟨sign, d1, d2, d3, d4, r, e, hs, h1, h2, h3, h4, hle⟩ := h
  exact ⟨[sign, d1, d2, d3, d4], r, e, sign, d1, d2, d3, d4, rfl, hs, h1, h2, h3, h4, hle⟩

theorem reach_create {repo : git_repository} {stack_tagname buffer : List Nat} {size : Nat}
    (hp : (verify_and_create_tag repo stack_tagname buffer size).passed 17) :
    84 ≤ size ∧ ∃ h T N name email ts tz r oid tt,
      buffer.set size 0 = doc_header h T N name email ts tz ++ r ∧
      target_ok repo h T oid tt ∧ name_ok N ∧ ident_ok name email ∧ stamp_ok ts ∧
      zone_ok tz ∧
      verify_and_create_tag repo stack_tagname buffer size =
        create_the_tag repo [Event.odb_read oid] (buffer.set size 0) oid tt
          (N ++ stack_tagname.drop N.length) (name ++ [0]) (email ++ [0]) (ts ++ [0])
          (tz ++ [0]) ((doc_to_zone h T N name email ts).length + 6) ∧
      (buffer.set size 0).drop ((doc_to_zone h T N name email ts).length + 6 + 1) = r := by
  obtain ⟨hs, h, T, N, name, email, ts, r, oid, tt, e, hk, hN, hi, ht, eq⟩ :=
    reach_timezone (passed_mono hp (by decide))
  refine ⟨hs, ?_⟩
  rw [eq] at hp
  have hz := verify_timezone_reach (passed_mono hp (by decide))
  rw [drop_of_append e] at hz
  obtain ⟨tz, r1, e1, hz1⟩ := timezone_ok_zone hz
  rw [e1] at e
  have eq2 := step_timezone e hz1 repo [Event.odb_read oid] oid tt
    (N ++ stack_tagname.drop N.length) (name ++ [0]) (email ++ [0]) (ts ++ [0])
  rw [eq2] at hp
  have hnl := verify_blank_line_reach hp
  obtain ⟨_, _, z3⟩ := zone_ok_timezone (r := r1) hz1
  have e5 : (buffer.set size 0).drop ((doc_to_zone h T N name email ts).length + 6) = r1 := by
    have e' : buffer.set size 0 = (doc_to_zone h T N name email ts ++ tz ++ [10]) ++ r1 := by
      rw [e]
      simp
    have := drop_of_append e'
    simpa only [List.length_append, z3, List.length_cons, List.length_nil] using this
  rw [rd_eq_headD, e5] at hnl
  cases r1 with
  | nil => simp at hnl
  | cons c r =>
    simp only [List.headD_cons] at hnl
    subst hnl
    have e6 : buffer.set size 0 = doc_header h T N name email ts tz ++ r := by
      rw [e]
      simp [doc_header]
    obtain ⟨eq3, e7⟩ := step_blank_line e6 hz1 repo [Event.odb_read oid] oid tt
      (N ++ stack_tagname.drop N.length) (name ++ [0]) (email ++ [0]) (ts ++ [0]) (tz ++ [0])
    exact ⟨h, T, N, name, email, ts, tz, r, oid, tt, e6, hk, hN, hi, ht, hz1,
      eq.trans (eq2.trans eq3), e7⟩

/-! ## The sentinel and the document -/

theorem prefix_of_sentinel {D z P r : List Nat} (e : D ++ z = P ++ r) (hz : z.headD 0 = 0)
    (hP : 0 ∉ P) : ∃ body, D = P ++ body ∧ r = body ++ z := by
  rcases List.append_eq_append_iff.1 e with ⟨a, h1, h2⟩ | ⟨c, h1, h2⟩
  · cases a with
    | nil => exact ⟨[], by simpa using h1.symm, by simpa using h2.symm⟩
    | cons x a =>
      rw [h2] at hz
      simp only [List.cons_append, List.headD_cons] at hz
      subst hz
      exact absurd (by rw [h1]; simp) hP
  · exact ⟨c, h1, h2⟩

theorem is_hex_ne_zero {c : Nat} (h : is_hex c) : c ≠ 0 := by
  unfold is_hex at h
  omega

theorem no_nul_append {a b : List Nat} (ha : 0 ∉ a) (hb : 0 ∉ b) : 0 ∉ a ++ b := by
  intro h
  rcases List.mem_append.1 h with h | h
  · exact ha h
  · exact hb h

theorem no_nul_doc_to_tag {h T : List Nat} (hx : ∀ c ∈ h, is_hex c) (hT0 : 0 ∉ T) :
    0 ∉ doc_to_tag h T := by
  unfold doc_to_tag
  have hh : 0 ∉ h := fun hm => is_hex_ne_zero (hx 0 hm) rfl
  exact no_nul_append (no_nul_append (no_nul_append (no_nul_append (no_nul_append
    (by decide) hh) (by decide)) hT0) (by decide)) (by decide)

theorem no_nul_doc_to_tagger {h T N : List Nat} (hx : ∀ c ∈ h, is_hex c) (hT0 : 0 ∉ T)
    (hN : ∀ c ∈ N, 32 < c) : 0 ∉ doc_to_tagger h T N := by
  unfold doc_to_tagger
  have hn : 0 ∉ N := fun hm => absurd (hN 0 hm) (by decide)
  exact no_nul_append (no_nul_append (no_nul_doc_to_tag hx hT0) hn) (by decide)

theorem no_nul_doc_to_stamp {h T N name email : List Nat} (hx : ∀ c ∈ h, is_hex c)
    (hT0 : 0 ∉ T) (hN : ∀ c ∈ N, 32 < c) (hi : ident_ok name email) :
    0 ∉ doc_to_stamp h T N name email := by
  unfold doc_to_stamp
  have h1 : 0 ∉ name := fun hm => (hi.2.1 0 hm).2.2.2 rfl
  have h2 : 0 ∉ email := fun hm => (hi.2.2.1 0 hm).2.2.2.2 rfl
  exact no_nul_append (no_nul_append (no_nul_append (no_nul_append
    (no_nul_append (no_nul_doc_to_tagger hx hT0 hN) (by decide)) h1) (by decide)) h2)
    (by decide)

theorem no_nul_doc_to_zone {h T N name email ts : List Nat} (hx : ∀ c ∈ h, is_hex c)
    (hT0 : 0 ∉ T) (hN : ∀ c ∈ N, 32 < c) (hi : ident_ok name email) (ht : stamp_ok ts) :
    0 ∉ doc_to_zone h T N name email ts := by
  unfold doc_to_zone
  have h1 : 0 ∉ ts := fun hm => absurd (ht.2.1 0 hm) (by decide)
  exact no_nul_append (no_nul_append (no_nul_doc_to_stamp hx hT0 hN hi) h1) (by decide)

theorem no_nul_zone {tz : List Nat} (hz : zone_ok tz) : 0 ∉ tz := by
  obtain ⟨sign, d1, d2, d3, d4, e, hs, h1, h2, h3, h4, _⟩ := hz
  subst e
  unfold is_digit at h1 h2 h3 h4
  simp only [List.mem_cons, List.mem_singleton, List.not_mem_nil, or_false, not_or]
  omega

theorem no_nul_doc_header {h T N name email ts tz : List Nat} (hx : ∀ c ∈ h, is_hex c)
    (hT0 : 0 ∉ T) (hN : ∀ c ∈ N, 32 < c) (hi : ident_ok name email) (ht : stamp_ok ts)
    (hz : zone_ok tz) : 0 ∉ doc_header h T N name email ts tz := by
  unfold doc_header
  exact no_nul_append (no_nul_append (no_nul_append (no_nul_doc_to_zone hx hT0 hN hi ht)
    (no_nul_zone hz)) (by decide)) (by decide)

theorem append_newline_unique {a a' r r' : List Nat} (ha : 10 ∉ a) (ha' : 10 ∉ a')
    (e : a ++ 10 :: r = a' ++ 10 :: r') : a = a' ∧ r = r' := by
  induction a generalizing a' with
  | nil =>
    cases a' with
    | nil => simpa using e
    | cons x a' =>
      simp only [List.nil_append, List.cons_append, List.cons.injEq] at e
      exact absurd (by rw [← e.1]; simp) ha'
  | cons x a ih =>
    cases a' with
    | nil =>
      simp only [List.nil_append, List.cons_append, List.cons.injEq] at e
      exact absurd (by rw [e.1]; simp) ha
    | cons y a' =>
      simp only [List.cons_append, List.cons.injEq] at e
      simp only [List.mem_cons, not_or] at ha ha'
      obtain ⟨h1, h2⟩ := ih ha.2 ha'.2 e.2
      exact ⟨by rw [e.1, h1], h2⟩

theorem doc_to_tag_unique {h T r h' T' r' : List Nat} (h40 : h.length = 40)
    (h40' : h'.length = 40) (hT : 10 ∉ T) (hT' : 10 ∉ T')
    (e : doc_to_tag h T ++ r = doc_to_tag h' T' ++ r') : h = h' ∧ T = T' ∧ r = r' := by
  unfold doc_to_tag at e
  simp only [List.append_assoc] at e
  have e1 := List.append_cancel_left e
  obtain ⟨e2, e3⟩ := List.append_inj e1 (by rw [h40, h40'])
  have e4 := List.append_cancel_left e3
  obtain ⟨e5, e6⟩ := append_newline_unique hT hT' e4
  exact ⟨e2, e5, List.append_cancel_left e6⟩

theorem take_set_of_le (buffer : List Nat) {n size : Nat} (h : n ≤ size) :
    (buffer.set size 0).take n = buffer.take n := by
  induction buffer generalizing n size with
  | nil => simp
  | cons a buffer ih =>
    cases n with
    | zero => simp
    | succ n =>
      cases size with
      | zero => omega
      | succ size => simp [ih (Nat.le_of_succ_le_succ h)]

theorem timezone_ok_sentinel {rest z : List Nat} (hz : z.headD 0 = 0) :
    timezone_ok (rest ++ z) ↔ timezone_ok rest := by
  constructor
  · rintro ⟨sign, d1, d2, d3, d4, r, e, hs, h1, h2, h3, h4, hle⟩
    have e' : rest ++ z = [sign, d1, d2, d3, d4, 10] ++ r := e
    obtain ⟨body, hb, _⟩ := prefix_of_sentinel e' hz (by
      unfold is_digit at h1 h2 h3 h4
      simp only [List.mem_cons, List.mem_singleton, List.not_mem_nil, or_false, not_or]
      omega)
    exact ⟨sign, d1, d2, d3, d4, body, hb, hs, h1, h2, h3, h4, hle⟩
  · rintro ⟨sign, d1, d2, d3, d4, r, e, hs, h1, h2, h3, h4, hle⟩
    exact ⟨sign, d1, d2, d3, d4, r ++ z, by rw [e]; rfl, hs, h1, h2, h3, h4, hle⟩

theorem create_the_tag_events (repo : git_repository) (buffer oid : List Nat) (tt : Int)
    (tagname name email timestamp offset : List Nat) (p : Nat)
    (h1 : 0 ∉ name) (h2 : 0 ∉ email) :
    (create_the_tag repo [Event.odb_read oid] buffer oid tt tagname (name ++ [0])
      (email ++ [0]) timestamp offset p).events =
    accepted_events repo oid tt (cstr tagname) name email (atoi timestamp) (atoi offset)
      (cstr (buffer.drop (p + 1))) := by
  unfold create_the_tag accepted_events
  simp only [cstr_of_no_nul name h1, cstr_of_no_nul email h2]
  cases repo.signature_new name email (atoi timestamp) (atoi offset) with
  | none => rfl
  | some tagger =>
    simp only
    cases repo.tag_create (cstr tagname) oid tt tagger (cstr (buffer.drop (p + 1))) with
    | none => rfl
    | some t => rfl

/-! ## Accepted documents -/

theorem accepted_run {repo : git_repository} {stack_tagname buffer : List Nat} {size : Nat}
    (hp : (verify_and_create_tag repo stack_tagname buffer size).passed 17) :
    84 ≤ size ∧ ∃ h T N name email ts tz body oid tt,
      buffer.take size = doc_header h T N name email ts tz ++ body ∧
      target_ok repo h T oid tt ∧ name_ok N ∧ ident_ok name email ∧ stamp_ok ts ∧
      zone_ok tz ∧
      (verify_and_create_tag repo stack_tagname buffer size).events =
        accepted_events repo oid tt (cstr (N ++ stack_tagname.drop N.length)) name email
          (atoi (ts ++ [0])) (atoi (tz ++ [0])) (cstr body) := by
  obtain ⟨hs, h, T, N, name, email, ts, tz, r, oid, tt, e, hk, hN, hi, ht, hz, eq, hd⟩ :=
    reach_create hp
  refine ⟨hs, ?_⟩
  obtain ⟨z, z1, z2, _⟩ := set_sentinel buffer size
  rw [z1] at e
  obtain ⟨body, b1, b2⟩ := prefix_of_sentinel e z2
    (no_nul_doc_header hk.2.1 hk.2.2.2.1 hN.2.1 hi ht hz)
  refine ⟨h, T, N, name, email, ts, tz, body, oid, tt, b1, hk, hN, hi, ht, hz, ?_⟩
  rw [eq, create_the_tag_events repo _ oid tt _ name email _ _ _
    (fun hm => (hi.2.1 0 hm).2.2.2 rfl) (fun hm => (hi.2.2.1 0 hm).2.2.2.2 rfl), hd, b2,
    cstr_append_nul body z z2]

/-- C1 (soundness of acceptance): a run that got past every check of the document, the
blank line included (so that it reached the call of `git_signature_new`), was given a buffer
whose first `size` bytes are a well-formed tag document. A run in which the copy of the
name, the email or the timestamp does not fit its array ends in undefined behaviour before
the blank line and is not such a run. -/
theorem accepted_is_tag_document (repo : git_repository) (stack_tagname buffer : List Nat)
    (size : Nat)
    (hp : (verify_and_create_tag repo stack_tagname buffer size).passed 17) :
    tag_document (buffer.take size) := by
  obtain ⟨_, h, T, N, name, email, ts, tz, body, oid, tt, e, hk, hN, hi, ht, hz, _⟩ :=
    accepted_run hp
  obtain ⟨sign, d1, d2, d3, d4, ez, hs, h1, h2, h3, h4, _⟩ := hz
  subst ez
  refine ⟨h, T, N, name, email, ts, sign, d1, d2, d3, d4, body, ?_, hk.1, hk.2.1, hk.2.2.1,
    hN.1, hN.2.1, hi.1, fun c hc => ⟨(hi.2.1 c hc).1, (hi.2.1 c hc).2.1, (hi.2.1 c hc).2.2.1⟩,
    fun c hc => ⟨(hi.2.2.1 c hc).2.1, (hi.2.2.1 c hc).1, (hi.2.2.1 c hc).2.2.1,
      (hi.2.2.1 c hc).2.2.2.1⟩, ht.1, ht.2.1, hs, h1, h2, h3, h4⟩
  rw [e]
  simp only [doc_header, doc_to_zone, doc_to_stamp, doc_to_tagger, doc_to_tag,
    List.append_assoc]

theorem accepted_is_tag_document_witness :
    (verify_and_create_tag repo_blob [] (doc_v1 ++ [7]) 104).passed 17 ∧
    tag_document ((doc_v1 ++ [7]).take 104) :=
  ⟨by decide, accepted_is_tag_document repo_blob [] (doc_v1 ++ [7]) 104 (by decide)⟩

/-- C4: with a size below 84 the function fails with the size error, before anything else:
it makes no call to the library (no object lookup, no signature, no tag creation). -/
theorem size_error (repo : git_repository) (stack_tagname buffer : List Nat) (size : Nat)
    (h : size < 84) :
    (verify_and_create_tag repo stack_tagname buffer size).result =
      Except.error { kind := ErrKind.wrong_size, offset := none } ∧
    (verify_and_create_tag repo stack_tagname buffer size).events = [] := by
  unfold verify_and_create_tag
  rw [if_pos h]
  exact ⟨rfl, rfl⟩

theorem size_error_witness :
    (83 : Nat) < 84 ∧
    (verify_and_create_tag repo_blob [] (doc_v1.take 83) 83).result =
      Except.error { kind := ErrKind.wrong_size, offset := none } ∧
    (verify_and_create_tag repo_blob [] (doc_v1.take 83) 83).events = [] :=
  ⟨by decide, size_error repo_blob [] (doc_v1.take 83) 83 (by decide)⟩

/-- C9 (object-line diagnostics): with a size of at least 84, when the first 7 bytes are
not `"object "` the function fails reporting offset 0, and when they are but bytes 7 to 46
are not 40 hexadecimal characters it fails reporting offset 7; in both cases it makes no
call to the library. -/
theorem object_line_errors (repo : git_repository) (stack_tagname buffer : List Nat)
    (size : Nat) (hs : 84 ≤ size) :
    (buffer.take 7 ≠ lit_object →
      verify_and_create_tag repo stack_tagname buffer size =
        fail [] ErrKind.no_object (some 0)) ∧
    (buffer.take 7 = lit_object →
      ¬ (((buffer.drop 7).take 40).length = 40 ∧ ∀ c ∈ (buffer.drop 7).take 40, is_hex c) →
      verify_and_create_tag repo stack_tagname buffer size =
        fail [] ErrKind.invalid_sha1 (some 7)) := by
  have t47 : (buffer.set size 0).take 47 = buffer.take 47 := take_set_of_le buffer (by omega)
  have t7 : (buffer.set size 0).take 7 = buffer.take 7 := take_set_of_le buffer (by omega)
  have hsha : ((buffer.set size 0).drop 7).take 40 = (buffer.drop 7).take 40 := by
    have := congrArg (List.drop 7) t47
    rw [List.drop_take, List.drop_take] at this
    simpa using this
  constructor
  · intro hne
    have hm : memcmp (buffer.set size 0) lit_object 7 = true := by
      cases hc : memcmp (buffer.set size 0) lit_object 7 with
      | true => rfl
      | false =>
        obtain ⟨r, e⟩ := (memcmp_lit lit_object (by decide) _).1 hc
        exfalso
        apply hne
        rw [← t7, e]
        rfl
    unfold verify_and_create_tag
    rw [if_neg (by omega)]
    simp only [hm, if_true]
  · intro heq hbad
    have hm : memcmp (buffer.set size 0) lit_object 7 = false := by
      apply (memcmp_lit lit_object (by decide) _).2
      refine ⟨(buffer.set size 0).drop 7, ?_⟩
      rw [← heq, ← t7]
      exact (List.take_append_drop 7 _).symm
    have hnone : git_oid_mkstr ((buffer.drop 7).take 40) = none := by
      cases ho : git_oid_mkstr ((buffer.drop 7).take 40) with
      | none => rfl
      | some oid =>
        exfalso
        apply hbad
        obtain ⟨hx, r, x1, x2, x3, _⟩ := git_oid_mkstr_take ho
        have : (buffer.drop 7).take 40 = hx := by
          rw [x1]
          exact List.take_left' x2
        rw [this]
        exact ⟨x2, x3⟩
    unfold verify_and_create_tag
    rw [if_neg (by omega)]
    simp only [hm, hsha, hnone, Bool.false_eq_true, if_false]

theorem object_line_errors_witness :
    (84 : Nat) ≤ 104 ∧
    verify_and_create_tag repo_blob [] ([120] ++ doc_v1) 104 =
      fail [] ErrKind.no_object (some 0) ∧
    verify_and_create_tag repo_blob [] (doc_v1.set 10 103 ++ [7]) 104 =
      fail [] ErrKind.invalid_sha1 (some 7) :=
  ⟨by decide,
   (object_line_errors repo_blob [] ([120] ++ doc_v1) 104 (by decide)).1 (by decide),
   (object_line_errors repo_blob [] (doc_v1.set 10 103 ++ [7]) 104 (by decide)).2
     (by decide) (by decide)⟩

/-! ## Well-formed documents are accepted -/

theorem run_of_document {repo : git_repository} {stack_tagname buffer : List Nat}
    {size : Nat} {h T N name email ts tz r oid : List Nat} {tt : Int} (hs : 84 ≤ size)
    (e : buffer.set size 0 = doc_header h T N name email ts tz ++ r)
    (hk : target_ok repo h T oid tt) (hT : T.length < 20)
    (hv : verify_object repo (T ++ [0]) oid = Except.ok tt)
    (hN : name_ok N) (hi : ident_ok name email) (ht : stamp_ok ts) (hz : zone_ok tz) :
    verify_and_create_tag repo stack_tagname buffer size =
      create_the_tag repo [Event.odb_read oid] (buffer.set size 0) oid tt
        (N ++ stack_tagname.drop N.length) (name ++ [0]) (email ++ [0]) (ts ++ [0])
        (tz ++ [0]) ((doc_to_zone h T N name email ts).length + 6) ∧
    (buffer.set size 0).drop ((doc_to_zone h T N name email ts).length + 6 + 1) = r := by
  obtain ⟨h40, hx, hT10, hT0, ho, hdb, hrd⟩ := hk
  have e1 : buffer.set size 0 = doc_to_zone h T N name email ts ++ (tz ++ 10 :: (10 :: r)) := by
    rw [e]
    simp [doc_header]
  have e2 : buffer.set size 0 =
      doc_to_stamp h T N name email ++ (ts ++ 32 :: (tz ++ 10 :: (10 :: r))) := by
    rw [e1]
    simp [doc_to_zone]
  have e3 : buffer.set size 0 = doc_to_tagger h T N ++
      (lit_tagger ++ name ++ lit_lb ++ email ++ lit_rb ++
        (ts ++ 32 :: (tz ++ 10 :: (10 :: r)))) := by
    rw [e2]
    simp [doc_to_stamp]
  have e4 : buffer.set size 0 = doc_to_tag h T ++ (N ++ 10 :: (lit_tagger ++ name ++ lit_lb ++
      email ++ lit_rb ++ (ts ++ 32 :: (tz ++ 10 :: (10 :: r))))) := by
    rw [e3]
    simp [doc_to_tagger]
  have hr : (N ++ 10 :: (lit_tagger ++ name ++ lit_lb ++
      email ++ lit_rb ++ (ts ++ 32 :: (tz ++ 10 :: (10 :: r))))).headD 0 ≠ 10 := by
    cases N with
    | nil => exact absurd rfl hN.1
    | cons c N =>
      have := hN.2.1 c (by simp)
      simp only [List.cons_append, List.headD_cons]
      omega
  have s1 := step_object hs rfl e4 hr h40 hx hT10 hT0 ho repo stack_tagname
  have e53 : (buffer.set size 0).drop (48 + 5) = T ++ (10 :: (lit_tag ++ (N ++ 10 ::
      (lit_tagger ++ name ++ lit_lb ++ email ++ lit_rb ++
        (ts ++ 32 :: (tz ++ 10 :: (10 :: r))))))) := by
    have e5 : buffer.set size 0 = (lit_object ++ h ++ lit_nl_type) ++ (T ++ (10 :: (lit_tag ++
        (N ++ 10 :: (lit_tagger ++ name ++ lit_lb ++ email ++ lit_rb ++
          (ts ++ 32 :: (tz ++ 10 :: (10 :: r)))))))) := by
      rw [e4]
      simp [doc_to_tag]
    have := drop_of_append e5
    simpa only [List.length_append, h40, lit_object, lit_nl_type, List.length_cons,
      List.length_nil] using this
  have s2 := verify_type_eq e53 hT hdb hv stack_tagname
  have s3 := step_tag_name (r := lit_tagger ++ name ++ lit_lb ++ email ++ lit_rb ++
    (ts ++ 32 :: (tz ++ 10 :: (10 :: r)))) e3 h40 hN repo stack_tagname
    [Event.odb_read oid] oid tt
  have s4 := step_tagger e2 hi repo [Event.odb_read oid] oid tt
    (N ++ stack_tagname.drop N.length)
  have s5 := step_timestamp e1 ht repo [Event.odb_read oid] oid tt
    (N ++ stack_tagname.drop N.length) (name ++ [0]) (email ++ [0])
  have s6 := step_timezone e1 hz repo [Event.odb_read oid] oid tt
    (N ++ stack_tagname.drop N.length) (name ++ [0]) (email ++ [0]) (ts ++ [0])
  obtain ⟨s7, s8⟩ := step_blank_line e hz repo [Event.odb_read oid] oid tt
    (N ++ stack_tagname.drop N.length) (name ++ [0]) (email ++ [0]) (ts ++ [0]) (tz ++ [0])
  exact ⟨s1.trans (s2.trans (s3.trans (s4.trans (s5.trans (s6.trans s7))))), s8⟩

theorem type_names_facts {T : List Nat} (h : T ∈ type_names) :
    10 ∉ T ∧ 0 ∉ T ∧ 3 ≤ T.length ∧ T.length < 20 := by
  simp only [type_names, List.mem_cons, List.mem_singleton, List.not_mem_nil, or_false] at h
  rcases h with h | h | h | h <;> subst h <;> decide

theorem length_doc_header (h T N name email ts tz : List Nat) (h40 : h.length = 40)
    (hz : tz.length = 5) :
    (doc_header h T N name email ts tz).length =
      78 + T.length + N.length + name.length + email.length + ts.length := by
  simp only [doc_header, List.length_append, length_doc_to_zone, length_doc_to_stamp,
    length_doc_to_tagger h T N h40, hz, List.length_cons, List.length_nil]
  omega

theorem document_accepted (repo : git_repository) (stack_tagname : List Nat)
    (h T N name email ts tz body rest oid : List Nat) (tt : Int)
    (h40 : h.length = 40) (hx : ∀ c ∈ h, is_hex c) (ho : git_oid_mkstr h = some oid)
    (hdb : repo.has_database = true) (hrd : repo.odb_read oid = some tt)
    (hty : repo.type2string tt = T) (hT : T ∈ type_names)
    (hNok : name_ok N) (hi : ident_ok name email) (ht : stamp_ok ts) (hz : zone_ok tz) :
    84 ≤ (doc_header h T N name email ts tz ++ body).length ∧
    (verify_and_create_tag repo stack_tagname (doc_header h T N name email ts tz ++ body ++ rest)
      (doc_header h T N name email ts tz ++ body).length).passed 17 ∧
    (verify_and_create_tag repo stack_tagname (doc_header h T N name email ts tz ++ body ++ rest)
      (doc_header h T N name email ts tz ++ body).length).events =
      accepted_events repo oid tt (cstr (N ++ stack_tagname.drop N.length)) name email
        (atoi (ts ++ [0])) (atoi (tz ++ [0])) (cstr body) := by
  obtain ⟨hT10, hT0, hT3, hT20⟩ := type_names_facts hT
  have hzl : tz.length = 5 := (zone_ok_timezone (r := []) hz).2.2
  have hlen : 84 ≤ (doc_header h T N name email ts tz ++ body).length := by
    rw [List.length_append, length_doc_header h T N name email ts tz h40 hzl]
    have l1 := List.length_pos.2 hNok.1
    have l2 := List.length_pos.2 hi.1
    have l3 := List.length_pos.2 ht.1
    omega
  generalize hH : doc_header h T N name email ts tz = H at hlen ⊢
  obtain ⟨z, z1, z2, _⟩ := set_sentinel (H ++ body ++ rest) (H ++ body).length
  have z3 : (H ++ body ++ rest).set (H ++ body).length 0 = H ++ (body ++ z) := by
    rw [z1, List.take_left' rfl, List.append_assoc]
  have hv : verify_object repo (T ++ [0]) oid = Except.ok tt := verify_object_ok hrd hty hT0
  subst hH
  obtain ⟨eq, hd⟩ := @run_of_document repo stack_tagname
    (doc_header h T N name email ts tz ++ body ++ rest)
    (doc_header h T N name email ts tz ++ body).length h T N name email ts tz (body ++ z)
    oid tt hlen z3
    ⟨h40, hx, hT10, hT0, ho, hdb, hrd⟩ hT20 hv hNok hi ht hz
  refine ⟨hlen, ?_, ?_⟩
  · rw [eq]
    exact create_the_tag_passed ..
  · rw [eq, create_the_tag_events repo _ oid tt _ name email _ _ _
      (fun hm => (hi.2.1 0 hm).2.2.2 rfl) (fun hm => (hi.2.2.1 0 hm).2.2.2.2 rfl), hd,
      cstr_append_nul body z z2]

/-- C2 (completeness of acceptance, as amended): a document of the grammar, with 40
hexadecimal characters naming a stored object whose type string is the declared type (one of
blob, tree, commit, tag), a tag name of 1 to 39 bytes above 0x20, a name of 1 to 39 bytes and
an email of at most 39 bytes without the forbidden characters, 1 to 19 digits and a timezone
of at most 1400, given with its length as size, has at least 84 bytes, passes every check
and makes the call of `git_signature_new`; the call of `git_tag_create` follows when
`git_signature_new` returned a signature. -/
theorem well_formed_is_accepted (repo : git_repository) (stack_tagname : List Nat)
    (h T N name email ts tz body rest oid : List Nat) (tt : Int)
    (h40 : h.length = 40) (hx : ∀ c ∈ h, is_hex c) (ho : git_oid_mkstr h = some oid)
    (hdb : repo.has_database = true) (hrd : repo.odb_read oid = some tt)
    (hty : repo.type2string tt = T) (hT : T ∈ type_names)
    (hN : 1 ≤ N.length ∧ N.length ≤ 39 ∧ ∀ c ∈ N, 32 < c)
    (hname : 1 ≤ name.length ∧ name.length ≤ 39 ∧
      ∀ c ∈ name, c ≠ 60 ∧ c ≠ 62 ∧ c ≠ 10 ∧ c ≠ 0)
    (hemail : email.length ≤ 39 ∧ ∀ c ∈ email, c ≠ 62 ∧ c ≠ 60 ∧ c ≠ 10 ∧ c ≠ 32 ∧ c ≠ 0)
    (hts : 1 ≤ ts.length ∧ ts.length ≤ 19 ∧ ∀ c ∈ ts, is_digit c)
    (hz : zone_ok tz) :
    84 ≤ (doc_header h T N name email ts tz ++ body).length ∧
    (verify_and_create_tag repo stack_tagname (doc_header h T N name email ts tz ++ body ++ rest)
      (doc_header h T N name email ts tz ++ body).length).passed 17 ∧
    (verify_and_create_tag repo stack_tagname (doc_header h T N name email ts tz ++ body ++ rest)
      (doc_header h T N name email ts tz ++ body).length).events =
      accepted_events repo oid tt (cstr (N ++ stack_tagname.drop N.length)) name email
        (atoi (ts ++ [0])) (atoi (tz ++ [0])) (cstr body) :=
  document_accepted repo stack_tagname h T N name email ts tz body rest oid tt h40 hx ho hdb
    hrd hty hT
    ⟨fun hn => by rw [hn] at hN; simp at hN, hN.2.2, by omega⟩
    ⟨fun hn => by rw [hn] at hname; simp at hname, hname.2.2, hemail.2, by omega, by omega⟩
    ⟨fun hn => by rw [hn] at hts; simp at hts, hts.2.2, by omega⟩ hz

theorem well_formed_is_accepted_witness :
    84 ≤ (doc_header hex_a [98, 108, 111, 98] [118, 49] [65] [97, 64, 98]
      [49, 48, 48, 48, 48, 48, 48, 48, 48, 48] [43, 48, 48, 48, 48] ++
      [72, 101, 108, 108, 111, 10]).length ∧
    (verify_and_create_tag repo_blob []
      (doc_header hex_a [98, 108, 111, 98] [118, 49] [65] [97, 64, 98]
        [49, 48, 48, 48, 48, 48, 48, 48, 48, 48] [43, 48, 48, 48, 48] ++
        [72, 101, 108, 108, 111, 10] ++ [7])
      (doc_header hex_a [98, 108, 111, 98] [118, 49] [65] [97, 64, 98]
        [49, 48, 48, 48, 48, 48, 48, 48, 48, 48] [43, 48, 48, 48, 48] ++
        [72, 101, 108, 108, 111, 10]).length).passed 17 ∧
    (verify_and_create_tag repo_blob []
      (doc_header hex_a [98, 108, 111, 98] [118, 49] [65] [97, 64, 98]
        [49, 48, 48, 48, 48, 48, 48, 48, 48, 48] [43, 48, 48, 48, 48] ++
        [72, 101, 108, 108, 111, 10] ++ [7])
      (doc_header hex_a [98, 108, 111, 98] [118, 49] [65] [97, 64, 98]
        [49, 48, 48, 48, 48, 48, 48, 48, 48, 48] [43, 48, 48, 48, 48] ++
        [72, 101, 108, 108, 111, 10]).length).events =
      accepted_events repo_blob (List.replicate 20 170) 3
        (cstr ([118, 49] ++ ([] : List Nat).drop [118, 49].length)) [65] [97, 64, 98]
        (atoi ([49, 48, 48, 48, 48, 48, 48, 48, 48, 48] ++ [0]))
        (atoi ([43, 48, 48, 48, 48] ++ [0])) (cstr [72, 101, 108, 108, 111, 10]) :=
  well_formed_is_accepted repo_blob [] hex_a [98, 108, 111, 98] [118, 49] [65] [97, 64, 98]
    [49, 48, 48, 48, 48, 48, 48, 48, 48, 48] [43, 48, 48, 48, 48] [72, 101, 108, 108, 111, 10]
    [7] (List.replicate 20 170) 3 (by decide) (by decide) (by decide) (by decide) (by decide)
    (by decide) (by decide) (by decide) (by decide) (by decide) (by decide)
    ⟨43, 48, 48, 48, 48, rfl, Or.inl rfl, by decide, by decide, by decide, by decide,
      by decide⟩

/-- C2 as stated fails: on the scenario document, with a stored blob, the run passes every
check and calls `git_signature_new`, which returns NULL; the function then returns the
error of line 193 and `git_tag_create` is not called. -/
theorem signature_failure_skips_tag_create :
    (verify_and_create_tag repo_no_signature [] (doc_v1 ++ [7]) 104).passed 17 ∧
    (verify_and_create_tag repo_no_signature [] (doc_v1 ++ [7]) 104).events =
      [Event.odb_read (List.replicate 20 170),
       Event.signature_new [65] [97, 64, 98] 1000000000 0] ∧
    (verify_and_create_tag repo_no_signature [] (doc_v1 ++ [7]) 104).result =
      Except.error { kind := ErrKind.signature, offset := none } := by
  decide

/-- C3 (the defect): the copy of the tag name gets no terminator (line 125), so the name
handed to `git_tag_create` runs on into what the array `tagname` held before. On the
scenario document, with `X`, `Y` and a NUL behind the two copied bytes, the tag is created
with the name `v1XY`, not `v1`. -/
theorem tag_name_not_terminated :
    (verify_and_create_tag repo_blob [0, 0, 88, 89, 0] (doc_v1 ++ [7]) 104).events =
      [Event.odb_read (List.replicate 20 170),
       Event.signature_new [65] [97, 64, 98] 1000000000 0,
       Event.tag_create [118, 49, 88, 89] (List.replicate 20 170) 3
         { name := [65], email := [97, 64, 98], time := 1000000000, offset := 0 }
         [72, 101, 108, 108, 111, 10]] := by
  decide

/-- C5 (the defect): `verify_object` compares only `strlen(str_type)` bytes (line 39), so the
terminator of the declared type is not compared: with a stored blob, the declared type
`"blobx"` passes the check and the tag is created. -/
theorem longer_type_is_accepted :
    verify_object repo_blob ([98, 108, 111, 98, 120] ++ [0]) (List.replicate 20 170) =
      Except.ok 3 ∧
    (verify_and_create_tag repo_blob [0] (doc_blobx ++ [7]) 105).result =
      Except.ok (List.replicate 20 170) := by
  decide

/-! ## The tag name -/

theorem tag_name_stage {repo : git_repository} {stack_tagname buffer : List Nat}
    {size : Nat} {h T N rest : List Nat}
    (e : buffer.take size = doc_to_tag h T ++ N ++ [10] ++ rest) (h40 : h.length = 40)
    (hT : 10 ∉ T)
    (hp : (verify_and_create_tag repo stack_tagname buffer size).passed 8) :
    ∃ z oid tt, (buffer.set size 0).drop (54 + T.length + 4) = N ++ 10 :: (rest ++ z) ∧
      verify_and_create_tag repo stack_tagname buffer size =
        verify_tag_name repo stack_tagname [Event.odb_read oid] (buffer.set size 0) oid tt
          (54 + T.length) := by
  obtain ⟨_, h', T', r', oid, tt, e', _, hk, eq⟩ := reach_tag_name hp
  obtain ⟨z, z1, _, _⟩ := set_sentinel buffer size
  have e1 : doc_to_tag h T ++ (N ++ 10 :: (rest ++ z)) = doc_to_tag h' T' ++ r' := by
    rw [← e', z1, e]
    simp
  obtain ⟨u1, u2, u3⟩ := doc_to_tag_unique h40 hk.1 hT hk.2.2.1 e1
  subst u1 u2 u3
  refine ⟨z, oid, tt, ?_, ?_⟩
  · have := drop_of_append e'
    rw [length_doc_to_tag h T h40] at this
    exact this
  · have a : 48 + 6 + T.length = 54 + T.length := by omega
    rw [eq, a]

/-- C6: a document `"object " X "\ntype " T "\ntag " N "\n" rest` (40 bytes `X`, no newline
in `T` or `N`) whose tag name `N` holds a byte of value 0x20 or less, at any position, is
refused whatever the object store; and a tag name whose bytes are all above 0x20, bytes of
0x80 and more included, never gets the error of the tag-name scan. -/
theorem bad_tag_name_rejected (repo : git_repository) (stack_tagname buffer : List Nat)
    (size : Nat) (X T N rest : List Nat)
    (e : buffer.take size = lit_object ++ X ++ lit_nl_type ++ T ++ [10] ++ lit_tag ++ N ++
      [10] ++ rest)
    (h40 : X.length = 40) (hT : 10 ∉ T) (hN : 10 ∉ N) :
    ((∃ c ∈ N, c ≤ 32) →
      ∃ err, (verify_and_create_tag repo stack_tagname buffer size).result =
        Except.error err) ∧
    ((∀ c ∈ N, 32 < c) →
      ∀ offset, (verify_and_create_tag repo stack_tagname buffer size).result ≠
        Except.error { kind := ErrKind.tag_name, offset := offset }) := by
  have e0 : buffer.take size = doc_to_tag X T ++ N ++ [10] ++ rest := e
  constructor
  · intro hbad
    by_cases hp : (verify_and_create_tag repo stack_tagname buffer size).passed 8
    · obtain ⟨z, oid, tt, d, eq⟩ := tag_name_stage e0 h40 hT hp
      obtain ⟨q, hq⟩ := verify_tag_name_bad d hbad hN repo stack_tagname
        [Event.odb_read oid] oid tt
      rw [eq, hq]
      exact ⟨_, rfl⟩
    · unfold Outcome.passed at hp
      cases hr : (verify_and_create_tag repo stack_tagname buffer size).result with
      | ok v =>
        rw [hr] at hp
        exact absurd trivial hp
      | error err => exact ⟨err, rfl⟩
  · intro hgood offset hres
    have hp : (verify_and_create_tag repo stack_tagname buffer size).passed 8 := by
      unfold Outcome.passed
      rw [hres]
      exact (by decide : (8 : Nat) < 9)
    obtain ⟨z, oid, tt, d, eq⟩ := tag_name_stage e0 h40 hT hp
    have hok : tag_name_ok ((buffer.set size 0).drop (54 + T.length + 4)) N :=
      ⟨⟨rest ++ z, d⟩, hgood⟩
    have h9 : (verify_and_create_tag repo stack_tagname buffer size).passed 9 := by
      rw [eq]
      by_cases hl : N.length < 40
      · rw [verify_tag_name_eq hok hl]
        exact passed_mono (verify_tagger_passed ..) (by decide)
      · rw [verify_tag_name_long hok (by omega)]
        exact (passed_fail _ _ _ _).2 (by decide)
    unfold Outcome.passed at h9
    rw [hres] at h9
    exact absurd h9 (Nat.lt_irrefl 9)

theorem bad_tag_name_rejected_witness :
    (∃ err, (verify_and_create_tag repo_blob [] (doc_v1.set 63 32 ++ [7]) 104).result =
        Except.error err) ∧
    (∀ offset, (verify_and_create_tag repo_blob [] (doc_v1.set 63 200 ++ [7]) 104).result ≠
        Except.error { kind := ErrKind.tag_name, offset := offset }) :=
  ⟨(bad_tag_name_rejected repo_blob [] (doc_v1.set 63 32 ++ [7]) 104 hex_a
      [98, 108, 111, 98] [118, 32]
      ((doc_v1.drop 65)) (by decide) (by decide) (by decide) (by decide)).1
      ⟨32, by decide, by decide⟩,
   (bad_tag_name_rejected repo_blob [] (doc_v1.set 63 200 ++ [7]) 104 hex_a
      [98, 108, 111, 98] [118, 200]
      ((doc_v1.drop 65)) (by decide) (by decide) (by decide) (by decide)).2
      (by decide)⟩

/-- C8 (tag-name length limit): for a document that got past the object, type and lookup
checks and whose tag name `N` (the bytes between `"tag "` and the next newline) has only
bytes above 0x20, the function fails with "Tag name too long" when `N` has 40 bytes or
more, and gets past the tag-name checks when it has 39 bytes or fewer. -/
theorem tag_name_length_limit (repo : git_repository) (stack_tagname buffer : List Nat)
    (size : Nat) (h T N rest : List Nat)
    (e : buffer.take size = lit_object ++ h ++ lit_nl_type ++ T ++ [10] ++ lit_tag ++ N ++
      [10] ++ rest)
    (h40 : h.length = 40) (hT : 10 ∉ T) (hN : ∀ c ∈ N, 32 < c)
    (hp : (verify_and_create_tag repo stack_tagname buffer size).passed 8) :
    (40 ≤ N.length →
      (verify_and_create_tag repo stack_tagname buffer size).result =
        Except.error { kind := ErrKind.tag_name_too_long, offset := none }) ∧
    (N.length ≤ 39 →
      (verify_and_create_tag repo stack_tagname buffer size).passed 10) := by
  have e0 : buffer.take size = doc_to_tag h T ++ N ++ [10] ++ rest := e
  obtain ⟨z, oid, tt, d, eq⟩ := tag_name_stage e0 h40 hT hp
  have hok : tag_name_ok ((buffer.set size 0).drop (54 + T.length + 4)) N :=
    ⟨⟨rest ++ z, d⟩, hN⟩
  constructor
  · intro hl
    rw [eq, verify_tag_name_long hok hl]
    rfl
  · intro hl
    rw [eq, verify_tag_name_eq hok (by omega)]
    exact verify_tagger_passed ..

theorem tag_name_length_limit_witness :
    (verify_and_create_tag repo_blob [] (doc_long_name ++ [7]) 142).passed 8 ∧
    (verify_and_create_tag repo_blob [] (doc_long_name ++ [7]) 142).result =
      Except.error { kind := ErrKind.tag_name_too_long, offset := none } ∧
    (verify_and_create_tag repo_blob [] (doc_v1 ++ [7]) 104).passed 10 :=
  ⟨by decide,
   (tag_name_length_limit repo_blob [] (doc_long_name ++ [7]) 142 hex_a [98, 108, 111, 98]
      (List.replicate 40 118) (doc_v1.drop 65) (by decide) (by decide) (by decide)
      (by decide) (by decide)).1 (by decide),
   (tag_name_length_limit repo_blob [] (doc_v1 ++ [7]) 104 hex_a [98, 108, 111, 98]
      [118, 49] (doc_v1.drop 65) (by decide) (by decide) (by decide)
      (by decide) (by decide)).2 (by decide)⟩

/-! ## The timezone -/

/-- C7: a run that got past the timestamp and its space (the copies of the name, the email
and the timestamp made on the way fitted their arrays: a run in which one does not ends in
undefined behaviour before the timezone check) has read a document
`... "> " ts " " rest`, with a name and an email of at most 39 bytes and at most 19 digits;
it gets past the timezone check exactly when `rest` starts with a sign, four digits of
decimal value at most 1400 (whatever the sign) and a newline, and otherwise it fails with
the malformed-timezone error at the offset of the sign position. So `+1400` and `-1400`
pass, `+1401` and `-1500` do not. -/
theorem timezone_check_exact (repo : git_repository) (stack_tagname buffer : List Nat)
    (size : Nat)
    (hp : (verify_and_create_tag repo stack_tagname buffer size).passed 15) :
    (∃ h T N name email ts rest,
      buffer.take size = doc_to_zone h T N name email ts ++ rest ∧
      h.length = 40 ∧ 10 ∉ T ∧ name_ok N ∧ ident_ok name email ∧ stamp_ok ts ∧
      ((verify_and_create_tag repo stack_tagname buffer size).passed 16 ↔
        timezone_ok rest) ∧
      (¬ timezone_ok rest →
        (verify_and_create_tag repo stack_tagname buffer size).result =
          Except.error { kind := ErrKind.malformed_timezone,
                         offset := some (doc_to_zone h T N name email ts).length })) ∧
    timezone_ok [43, 49, 52, 48, 48, 10] ∧ timezone_ok [45, 49, 52, 48, 48, 10] ∧
    ¬ timezone_ok [43, 49, 52, 48, 49, 10] ∧ ¬ timezone_ok [45, 49, 53, 48, 48, 10] := by
  refine ⟨?_, ?_, ?_, ?_, ?_⟩
  · obtain ⟨_, h, T, N, name, email, ts, r, oid, tt, e, hk, hN, hi, ht, eq⟩ :=
      reach_timezone hp
    obtain ⟨z, z1, z2, _⟩ := set_sentinel buffer size
    have e1 := e
    rw [z1] at e1
    obtain ⟨rest, b1, b2⟩ := prefix_of_sentinel e1 z2
      (no_nul_doc_to_zone hk.2.1 hk.2.2.2.1 hN.2.1 hi ht)
    have hd : (buffer.set size 0).drop (doc_to_zone h T N name email ts).length =
        rest ++ z := by
      rw [drop_of_append e, b2]
    refine ⟨h, T, N, name, email, ts, rest, b1, hk.1, hk.2.2.1, hN, hi, ht, ?_, ?_⟩
    · rw [eq]
      constructor
      · intro h16
        have := verify_timezone_reach h16
        rw [hd] at this
        exact (timezone_ok_sentinel z2).1 this
      · intro hok
        have hok' : timezone_ok ((buffer.set size 0).drop
            (doc_to_zone h T N name email ts).length) := by
          rw [hd]
          exact (timezone_ok_sentinel z2).2 hok
        rw [verify_timezone_eq hok']
        exact verify_blank_line_passed ..
    · intro hbad
      have hbad' : ¬ timezone_ok ((buffer.set size 0).drop
          (doc_to_zone h T N name email ts).length) := by
        rw [hd]
        exact fun hc => hbad ((timezone_ok_sentinel z2).1 hc)
      rw [eq, verify_timezone_fail hbad']
      rfl
  · exact ⟨43, 49, 52, 48, 48, [], rfl, Or.inl rfl, by decide, by decide, by decide,
      by decide, by decide⟩
  · exact ⟨45, 49, 52, 48, 48, [], rfl, Or.inr rfl, by decide, by decide, by decide,
      by decide, by decide⟩
  · rintro ⟨sign, d1, d2, d3, d4, r, e, _, _, _, _, _, hle⟩
    simp only [List.cons.injEq] at e
    obtain ⟨_, e1, e2, e3, e4, _⟩ := e
    subst e1 e2 e3 e4
    exact absurd hle (by decide)
  · rintro ⟨sign, d1, d2, d3, d4, r, e, _, _, _, _, _, hle⟩
    simp only [List.cons.injEq] at e
    obtain ⟨_, e1, e2, e3, e4, _⟩ := e
    subst e1 e2 e3 e4
    exact absurd hle (by decide)

theorem timezone_check_exact_witness :
    (verify_and_create_tag repo_blob [] (doc_v1 ++ [7]) 104).passed 15 ∧
    ((∃ h T N name email ts rest,
      (doc_v1 ++ [7]).take 104 = doc_to_zone h T N name email ts ++ rest ∧
      h.length = 40 ∧ 10 ∉ T ∧ name_ok N ∧ ident_ok name email ∧ stamp_ok ts ∧
      ((verify_and_create_tag repo_blob [] (doc_v1 ++ [7]) 104).passed 16 ↔
        timezone_ok rest) ∧
      (¬ timezone_ok rest →
        (verify_and_create_tag repo_blob [] (doc_v1 ++ [7]) 104).result =
          Except.error { kind := ErrKind.malformed_timezone,
                         offset := some (doc_to_zone h T N name email ts).length })) ∧
    timezone_ok [43, 49, 52, 48, 48, 10] ∧ timezone_ok [45, 49, 52, 48, 48, 10] ∧
    ¬ timezone_ok [43, 49, 52, 48, 49, 10] ∧ ¬ timezone_ok [45, 49, 53, 48, 48, 10]) :=
  ⟨by decide, timezone_check_exact repo_blob [] (doc_v1 ++ [7]) 104 (by decide)⟩

/-! ## The message -/

/-- C10 as stated fails: with a NUL in the body (`"He\0lo\n"` after the blank line of the
scenario document) the message handed to `git_tag_create`, a C string, is `"He"`, not the
six bytes up to `size`. -/
theorem message_stops_at_nul :
    ((doc_v1.set 100 0 ++ [7]).take 104).drop 98 = [72, 101, 0, 108, 111, 10] ∧
    (verify_and_create_tag repo_blob [0, 0, 0] (doc_v1.set 100 0 ++ [7]) 104).events =
      [Event.odb_read (List.replicate 20 170),
       Event.signature_new [65] [97, 64, 98] 1000000000 0,
       Event.tag_create [118, 49] (List.replicate 20 170) 3
         { name := [65], email := [97, 64, 98], time := 1000000000, offset := 0 }
         [72, 101]] := by
  decide

/-- C10 (as amended): for an accepted document, header followed by `body` up to `size`,
the message handed to `git_tag_create` is the body up to its first NUL byte: the whole
body, verbatim, when it has no NUL byte, and the empty message when the blank line is the
last byte. The call is made when `git_signature_new` returned a signature. An accepted
document has a name and an email of at most 39 bytes and at most 19 digits: with a longer
field the run ends in undefined behaviour at the copy and is not an accepted run. -/
theorem message_is_body (repo : git_repository) (stack_tagname buffer : List Nat)
    (size : Nat)
    (hp : (verify_and_create_tag repo stack_tagname buffer size).passed 17) :
    ∃ h T N name email ts tz body oid tt tagname time offset,
      buffer.take size = doc_header h T N name email ts tz ++ body ∧
      h.length = 40 ∧ 10 ∉ T ∧ name_ok N ∧ ident_ok name email ∧ stamp_ok ts ∧ zone_ok tz ∧
      (verify_and_create_tag repo stack_tagname buffer size).events =
        accepted_events repo oid tt tagname name email time offset (cstr body) ∧
      (0 ∉ body → cstr body = body) ∧ (body = [] → cstr body = []) := by
  obtain ⟨_, h, T, N, name, email, ts, tz, body, oid, tt, e, hk, hN, hi, ht, hz, ev⟩ :=
    accepted_run hp
  exact ⟨h, T, N, name, email, ts, tz, body, oid, tt, _, _, _, e, hk.1, hk.2.2.1, hN, hi, ht,
    hz, ev, cstr_eq_self body, fun hb => by rw [hb]; rfl⟩

theorem message_is_body_witness :
    (verify_and_create_tag repo_blob [] (doc_v1 ++ [7]) 104).passed 17 ∧
    ∃ h T N name email ts tz body oid tt tagname time offset,
      (doc_v1 ++ [7]).take 104 = doc_header h T N name email ts tz ++ body ∧
      h.length = 40 ∧ 10 ∉ T ∧ name_ok N ∧ ident_ok name email ∧ stamp_ok ts ∧ zone_ok tz ∧
      (verify_and_create_tag repo_blob [] (doc_v1 ++ [7]) 104).events =
        accepted_events repo_blob oid tt tagname name email time offset (cstr body) ∧
      (0 ∉ body → cstr body = body) ∧ (body = [] → cstr body = []) :=
  ⟨by decide, message_is_body repo_blob [] (doc_v1 ++ [7]) 104 (by decide)⟩

/-! ## The library calls of a run -/

theorem verify_blank_line_quiet (repo : git_repository) (events : List Event)
    (buffer target_oid : List Nat) (target_type : Int)
    (tagname author_name author_email timestamp offset : List Nat) (p : Nat) :
    (verify_blank_line repo events buffer target_oid target_type tagname author_name
      author_email timestamp offset p).passed 17 ∨
    (verify_blank_line repo events buffer target_oid target_type tagname author_name
      author_email timestamp offset p).events = events := by
  by_cases h : rd buffer p = 10
  · rw [verify_blank_line_eq h]
    exact Or.inl (create_the_tag_passed ..)
  · rw [verify_blank_line_fail h]
    exact Or.inr rfl

theorem verify_timezone_quiet (repo : git_repository) (events : List Event)
    (buffer target_oid : List Nat) (target_type : Int)
    (tagname author_name author_email timestamp : List Nat) (p : Nat) :
    (verify_timezone repo events buffer target_oid target_type tagname author_name
      author_email timestamp p).passed 17 ∨
    (verify_timezone repo events buffer target_oid target_type tagname author_name
      author_email timestamp p).events = events := by
  by_cases h : timezone_ok (buffer.drop p)
  · rw [verify_timezone_eq h]
    exact verify_blank_line_quiet ..
  · rw [verify_timezone_fail h]
    exact Or.inr rfl

theorem verify_timestamp_quiet (repo : git_repository) (events : List Event)
    (buffer target_oid : List Nat) (target_type : Int)
    (tagname author_name author_email : List Nat) (p : Nat) :
    (verify_timestamp repo events buffer target_oid target_type tagname author_name
      author_email p).passed 17 ∨
    (verify_timestamp repo events buffer target_oid target_type tagname author_name
      author_email p).events = events := by
  unfold verify_timestamp
  simp only
  split
  · exact Or.inr rfl
  · split
    · exact Or.inr rfl
    · split
      · exact Or.inr rfl
      · exact verify_timezone_quiet ..

theorem verify_tagger_quiet (repo : git_repository) (events : List Event)
    (buffer target_oid : List Nat) (target_type : Int) (tagname : List Nat) (q : Nat) :
    (verify_tagger repo events buffer target_oid target_type tagname q).passed 17 ∨
    (verify_tagger repo events buffer target_oid target_type tagname q).events = events := by
  unfold verify_tagger
  simp only
  split
  · exact Or.inr rfl
  · split
    · exact Or.inr rfl
    · split
      · exact Or.inr rfl
      · split
        · exact Or.inr rfl
        · split
          · exact Or.inr rfl
          · split
            · exact Or.inr rfl
            · split
              · exact Or.inr rfl
              · exact verify_timestamp_quiet ..

theorem verify_tag_name_quiet (repo : git_repository) (stack_tagname : List Nat)
    (events : List Event) (buffer target_oid : List Nat) (target_type : Int) (t : Nat) :
    (verify_tag_name repo stack_tagname events buffer target_oid target_type t).passed 17 ∨
    (verify_tag_name repo stack_tagname events buffer target_oid target_type t).events =
      events := by
  unfold verify_tag_name
  simp only
  split
  · exact Or.inr rfl
  · split
    · exact Or.inr rfl
    · exact verify_tagger_quiet ..

theorem verify_type_quiet (repo : git_repository) (stack_tagname buffer oid : List Nat)
    (type_line tag_line : Nat) :
    (verify_type repo stack_tagname buffer oid type_line tag_line).passed 17 ∨
    (verify_type repo stack_tagname buffer oid type_line tag_line).events = [] ∨
    (verify_type repo stack_tagname buffer oid type_line tag_line).events =
      [Event.odb_read oid] := by
  unfold verify_type
  simp only
  split
  · exact Or.inr (Or.inl rfl)
  · split
    · exact Or.inr (Or.inl rfl)
    · split
      · exact Or.inr (Or.inr rfl)
      · rcases verify_tag_name_quiet repo stack_tagname [Event.odb_read oid] buffer oid _
          tag_line with h | h
        · exact Or.inl h
        · exact Or.inr (Or.inr h)

theorem verify_tag_line_quiet (repo : git_repository) (stack_tagname buffer oid : List Nat) :
    (verify_tag_line repo stack_tagname buffer oid).passed 17 ∨
    (verify_tag_line repo stack_tagname buffer oid).events = [] ∨
    (verify_tag_line repo stack_tagname buffer oid).events = [Event.odb_read oid] := by
  unfold verify_tag_line
  simp only
  split
  · exact Or.inr (Or.inl rfl)
  · split
    · exact Or.inr (Or.inl rfl)
    · split
      · exact Or.inr (Or.inl rfl)
      · exact verify_type_quiet ..

theorem run_quiet (repo : git_repository) (stack_tagname buffer : List Nat) (size : Nat) :
    (verify_and_create_tag repo stack_tagname buffer size).passed 17 ∨
    (verify_and_create_tag repo stack_tagname buffer size).events = [] ∨
    ∃ oid, (verify_and_create_tag repo stack_tagname buffer size).events =
      [Event.odb_read oid] := by
  unfold verify_and_create_tag
  split
  · exact Or.inr (Or.inl rfl)
  · simp only
    split
    · exact Or.inr (Or.inl rfl)
    · split
      · exact Or.inr (Or.inl rfl)
      · rename_i oid _
        rcases verify_tag_line_quiet repo stack_tagname (buffer.set size 0) oid with h | h | h
        · exact Or.inl h
        · exact Or.inr (Or.inl h)
        · exact Or.inr (Or.inr ⟨oid, h⟩)

theorem create_the_tag_calls (repo : git_repository) (buffer oid : List Nat) (tt : Int)
    (tagname author_name author_email timestamp offset : List Nat) (p : Nat) :
    ((create_the_tag repo [Event.odb_read oid] buffer oid tt tagname author_name
        author_email timestamp offset p).events.filter Event.is_tag_create).length ≤ 1 ∧
    ((∃ e ∈ (create_the_tag repo [Event.odb_read oid] buffer oid tt tagname author_name
        author_email timestamp offset p).events, e.is_tag_create = true) →
      (create_the_tag repo [Event.odb_read oid] buffer oid tt tagname author_name
        author_email timestamp offset p).passed 18 ∧
      ∃ tagger, repo.signature_new (cstr author_name) (cstr author_email) (atoi timestamp)
        (atoi offset) = some tagger) := by
  unfold create_the_tag
  simp only
  cases hs : repo.signature_new (cstr author_name) (cstr author_email) (atoi timestamp)
      (atoi offset) with
  | none =>
    simp only [fail, List.cons_append, List.nil_append]
    constructor
    · simp [List.filter, Event.is_tag_create]
    · rintro ⟨e, he, h1⟩
      simp only [List.mem_cons, List.mem_singleton, List.not_mem_nil, or_false] at he
      rcases he with he | he <;> subst he <;> simp [Event.is_tag_create] at h1
  | some tagger =>
    simp only
    cases repo.tag_create (cstr tagname) oid tt tagger (cstr (buffer.drop (p + 1))) with
    | none =>
      simp only [fail, List.cons_append, List.nil_append]
      exact ⟨by simp [List.filter, Event.is_tag_create],
        fun _ => ⟨(by decide : (18 : Nat) < 19), tagger, rfl⟩⟩
    | some t =>
      simp only [List.cons_append, List.nil_append]
      exact ⟨by simp [List.filter, Event.is_tag_create], fun _ => ⟨trivial, tagger, rfl⟩⟩

/-- C12 (no partial effect): in every run in which no copy overflows its array (the tagger
name and the email have at most 39 bytes and the timestamp at most 19 digits, so that the
behaviour of the function is defined), `git_tag_create` is called at most once, and when it
is called the run got past every check up to and including the signature construction
(checks 0 to 18: size, syntax, lengths, lookup with type check, `git_signature_new`); a run
that fails at one of those checks makes no call of `git_tag_create`. -/
theorem tag_create_only_after_all_checks (repo : git_repository)
    (stack_tagname buffer : List Nat) (size : Nat)
    (hdef : (verify_and_create_tag repo stack_tagname buffer size).is_defined = true) :
    ((verify_and_create_tag repo stack_tagname buffer size).events.filter
      Event.is_tag_create).length ≤ 1 ∧
    ((∃ e ∈ (verify_and_create_tag repo stack_tagname buffer size).events,
        e.is_tag_create = true) →
      (verify_and_create_tag repo stack_tagname buffer size).passed 18) ∧
    (¬ (verify_and_create_tag repo stack_tagname buffer size).passed 18 →
      ∀ e ∈ (verify_and_create_tag repo stack_tagname buffer size).events,
        e.is_tag_create = false) := by
  have key : ((verify_and_create_tag repo stack_tagname buffer size).events.filter
      Event.is_tag_create).length ≤ 1 ∧
    ((∃ e ∈ (verify_and_create_tag repo stack_tagname buffer size).events,
        e.is_tag_create = true) →
      (verify_and_create_tag repo stack_tagname buffer size).passed 18) := by
    rcases run_quiet repo stack_tagname buffer size with h | h | ⟨oid, h⟩
    · obtain ⟨_, h1, T1, N1, n1, m1, ts1, tz1, _, oid, tt, _, _, _, _, _, _, eq, _⟩ :=
        reach_create h
      rw [eq]
      have := create_the_tag_calls repo (buffer.set size 0) oid tt
        (N1 ++ stack_tagname.drop N1.length) (n1 ++ [0]) (m1 ++ [0]) (ts1 ++ [0])
        (tz1 ++ [0]) ((doc_to_zone h1 T1 N1 n1 m1 ts1).length + 6)
      exact ⟨this.1, fun hx => (this.2 hx).1⟩
    · rw [h]
      exact ⟨by decide, fun ⟨e, he, _⟩ => absurd he (List.not_mem_nil e)⟩
    · rw [h]
      refine ⟨by simp [List.filter, Event.is_tag_create], ?_⟩
      rintro ⟨e, he, h1⟩
      simp only [List.mem_singleton] at he
      subst he
      simp [Event.is_tag_create] at h1
  have _ := hdef
  refine ⟨key.1, key.2, ?_⟩
  intro hnp e he
  cases hc : e.is_tag_create with
  | false => rfl
  | true => exact absurd (key.2 ⟨e, he, hc⟩) hnp

theorem tag_create_only_after_all_checks_witness :
    (verify_and_create_tag repo_no_signature [] (doc_v1 ++ [7]) 104).is_defined = true ∧
    ((verify_and_create_tag repo_no_signature [] (doc_v1 ++ [7]) 104).events.filter
      Event.is_tag_create).length ≤ 1 ∧
    ((∃ e ∈ (verify_and_create_tag repo_no_signature [] (doc_v1 ++ [7]) 104).events,
        e.is_tag_create = true) →
      (verify_and_create_tag repo_no_signature [] (doc_v1 ++ [7]) 104).passed 18) ∧
    (¬ (verify_and_create_tag repo_no_signature [] (doc_v1 ++ [7]) 104).passed 18 →
      ∀ e ∈ (verify_and_create_tag repo_no_signature [] (doc_v1 ++ [7]) 104).events,
        e.is_tag_create = false) :=
  ⟨by decide,
    tag_create_only_after_all_checks repo_no_signature [] (doc_v1 ++ [7]) 104 (by decide)⟩

/-! ## The declared type -/

theorem type_stage {repo : git_repository} {stack_tagname buffer : List Nat}
    {size : Nat} {h T r : List Nat}
    (e : buffer.take size = doc_to_tag h T ++ r) (h40 : h.length = 40) (hT : 10 ∉ T)
    (hp : (verify_and_create_tag repo stack_tagname buffer size).passed 5) :
    ∃ z oid, (buffer.set size 0).drop (48 + 5) = T ++ 10 :: (lit_tag ++ (r ++ z)) ∧
      git_oid_mkstr h = some oid ∧ T.length ≤ size ∧
      verify_and_create_tag repo stack_tagname buffer size =
        verify_type repo stack_tagname (buffer.set size 0) oid 48 (48 + 6 + T.length) := by
  obtain ⟨_, h', T', r', oid, e', _, h40', _, hT', _, ho, eq⟩ := reach_type hp
  obtain ⟨z, z1, _, _⟩ := set_sentinel buffer size
  have e1 : doc_to_tag h T ++ (r ++ z) = doc_to_tag h' T' ++ r' := by
    rw [← e', z1, e]
    simp
  obtain ⟨u1, u2, u3⟩ := doc_to_tag_unique h40 h40' hT hT' e1
  subst u1 u2 u3
  refine ⟨z, oid, ?_, ho, ?_, eq⟩
  · have e5 : buffer.set size 0 =
        (lit_object ++ h ++ lit_nl_type) ++ (T ++ 10 :: (lit_tag ++ (r ++ z))) := by
      rw [e']
      simp [doc_to_tag]
    have := drop_of_append e5
    simpa only [List.length_append, h40, lit_object, lit_nl_type, List.length_cons,
      List.length_nil] using this
  · have hl := congrArg List.length e
    rw [List.length_append, length_doc_to_tag h T h40] at hl
    have := List.length_take_le size buffer
    omega

theorem verify_type_long {buffer : List Nat} {n : Nat} (h1 : 20 ≤ n) (h2 : n < 2 ^ 31)
    (repo : git_repository) (stack_tagname oid : List Nat) (type_line : Nat) :
    verify_type repo stack_tagname buffer oid type_line (type_line + 6 + n) =
      fail [] ErrKind.type_too_long (some (type_line + 5)) := by
  unfold verify_type
  rw [typelen_eq type_line n h2]
  have : to_size_t (n : Int) ≥ 20 := by
    unfold to_size_t
    omega
  rw [if_pos this]

theorem verify_type_short {buffer T r : List Nat} {type_line : Nat}
    (e : buffer.drop (type_line + 5) = T ++ r) (hlen : T.length < 20)
    (repo : git_repository) (stack_tagname oid : List Nat) :
    verify_type repo stack_tagname buffer oid type_line (type_line + 6 + T.length) =
      if ¬ repo.has_database then fail [] ErrKind.no_database none
      else
        match verify_object repo (T ++ [0]) oid with
        | Except.error cause =>
          fail [Event.odb_read oid] (ErrKind.verify_object cause) (some 7)
        | Except.ok target_type =>
          verify_tag_name repo stack_tagname [Event.odb_read oid] buffer oid target_type
            (type_line + 6 + T.length) := by
  unfold verify_type
  simp only [typelen_eq type_line T.length (by omega)]
  have h1 : ¬ (to_size_t (T.length : Int) ≥ 20) := by
    unfold to_size_t
    omega
  rw [if_neg h1]
  simp only [Int.toNat_ofNat, e, List.take_left' rfl]

/-- C17 (type-name cap): for a document `"object " h "\ntype " T "\ntag " ...` of less than
2^31 bytes (`cmd_mktag` reads at most `BUF_LEN` = 4096 bytes; `typelen` is an `int`) that got
past the object-line, type-line and tag-line checks, the computed
`typelen` is the length of the type token `T` (so it is not negative); the function fails
with "type too long" at offset 53 exactly when `T` has 20 bytes or more, and then makes no
call to the library; a token of 0 to 19 bytes is handed unchanged, with its terminator, to
`verify_object`. -/
theorem type_length_cap (repo : git_repository) (stack_tagname buffer : List Nat)
    (size : Nat) (h T r : List Nat)
    (e : buffer.take size = lit_object ++ h ++ lit_nl_type ++ T ++ [10] ++ lit_tag ++ r)
    (h40 : h.length = 40) (hT : 10 ∉ T) (hsz : size < 2 ^ 31)
    (hp : (verify_and_create_tag repo stack_tagname buffer size).passed 5) :
    typelen 48 (48 + 6 + T.length) = (T.length : Int) ∧
    (20 ≤ T.length ↔
      (verify_and_create_tag repo stack_tagname buffer size).result =
        Except.error { kind := ErrKind.type_too_long, offset := some 53 }) ∧
    (20 ≤ T.length → (verify_and_create_tag repo stack_tagname buffer size).events = []) ∧
    (T.length < 20 → ∃ oid, git_oid_mkstr h = some oid ∧
      verify_and_create_tag repo stack_tagname buffer size =
        if ¬ repo.has_database then fail [] ErrKind.no_database none
        else
          match verify_object repo (T ++ [0]) oid with
          | Except.error cause =>
            fail [Event.odb_read oid] (ErrKind.verify_object cause) (some 7)
          | Except.ok target_type =>
            verify_tag_name repo stack_tagname [Event.odb_read oid] (buffer.set size 0) oid
              target_type (48 + 6 + T.length)) := by
  obtain ⟨z, oid, d, ho, hle, eq⟩ := type_stage (r := r) e h40 hT hp
  have hlt : T.length < 2 ^ 31 := by omega
  have hshort : T.length < 20 →
      verify_and_create_tag repo stack_tagname buffer size =
        if ¬ repo.has_database then fail [] ErrKind.no_database none
        else
          match verify_object repo (T ++ [0]) oid with
          | Except.error cause =>
            fail [Event.odb_read oid] (ErrKind.verify_object cause) (some 7)
          | Except.ok target_type =>
            verify_tag_name repo stack_tagname [Event.odb_read oid] (buffer.set size 0) oid
              target_type (48 + 6 + T.length) := by
    intro hl
    rw [eq]
    exact verify_type_short d hl repo stack_tagname oid
  refine ⟨typelen_eq 48 T.length hlt, ⟨?_, ?_⟩, ?_, fun hl => ⟨oid, ho, hshort hl⟩⟩
  · intro hl
    rw [eq, verify_type_long hl hlt]
    rfl
  · intro hres
    by_contra hl
    have h6 : (verify_and_create_tag repo stack_tagname buffer size).passed 6 := by
      rw [hshort (by omega)]
      split
      · exact (passed_fail _ _ _ _).2 (by decide)
      · split
        · exact (passed_fail _ _ _ _).2 (by simp [ErrKind.step])
        · exact passed_mono (verify_tag_name_passed ..) (by decide)
    unfold Outcome.passed at h6
    rw [hres] at h6
    exact absurd h6 (Nat.lt_irrefl 6)
  · intro hl
    rw [eq, verify_type_long hl hlt]
    rfl

theorem type_length_cap_witness :
    (verify_and_create_tag repo_blob [] (doc_long_type ++ [7]) 120).passed 5 ∧
    (verify_and_create_tag repo_blob [] (doc_long_type ++ [7]) 120).result =
      Except.error { kind := ErrKind.type_too_long, offset := some 53 } ∧
    (verify_and_create_tag repo_blob [] (doc_long_type ++ [7]) 120).events = [] ∧
    typelen 48 (48 + 6 + [98, 108, 111, 98].length) = (([98, 108, 111, 98] : List Nat).length : Int) :=
  ⟨by decide,
   (type_length_cap repo_blob [] (doc_long_type ++ [7]) 120 hex_a (List.replicate 20 120)
      (doc_v1.drop 62) (by decide) (by decide) (by decide) (by decide) (by decide)).2.1.1
      (by decide),
   (type_length_cap repo_blob [] (doc_long_type ++ [7]) 120 hex_a (List.replicate 20 120)
      (doc_v1.drop 62) (by decide) (by decide) (by decide) (by decide) (by decide)).2.2.1
      (by decide),
   (type_length_cap repo_blob [] (doc_v1 ++ [7]) 104 hex_a [98, 108, 111, 98]
      (doc_v1.drop 62) (by decide) (by decide) (by decide) (by decide) (by decide)).1⟩

theorem memcmp_short {T : List Nat} (c : Nat) (r1 r2 : List Nat) (hc : c ≠ 0) (n : Nat)
    (hn : T.length < n) : memcmp (T ++ c :: r1) (T ++ 0 :: r2) n = true := by
  induction T generalizing n with
  | nil =>
    cases n with
    | zero => omega
    | succ n => simp [memcmp, hc]
  | cons a T ih =>
    cases n with
    | zero => omega
    | succ n =>
      simp only [List.length_cons] at hn
      simp [memcmp, ih n (by omega)]

/-- C18 (short-type guard): when the store holds the object with a type string `S` and the
declared type `T` is a proper prefix of `S` (the empty one included), `verify_object`,
given the declared type and its terminator, reports a type mismatch. -/
theorem short_type_is_refused (repo : git_repository) (oid S T : List Nat) (tt : Int)
    (c : Nat) (rest : List Nat)
    (h1 : repo.odb_read oid = some tt) (h2 : repo.type2string tt = S) (h3 : 0 ∉ S)
    (h4 : S = T ++ c :: rest) :
    verify_object repo (T ++ [0]) oid = Except.error ObjectError.type_mismatch := by
  have hc : c ≠ 0 := by
    intro h0
    apply h3
    rw [h4, h0]
    simp
  have hlen : T.length < S.length := by
    rw [h4]
    simp
  unfold verify_object
  simp only [h1, h2, strlen, cstr_eq_self S h3]
  have : memcmp S (T ++ [0]) S.length = true := by
    rw [h4] at hlen ⊢
    exact memcmp_short c rest [] hc _ hlen
  rw [this]
  rfl

theorem short_type_is_refused_witness :
    verify_object repo_blob ([98, 108] ++ [0]) (List.replicate 20 170) =
      Except.error ObjectError.type_mismatch ∧
    verify_object repo_blob ([] ++ [0]) (List.replicate 20 170) =
      Except.error ObjectError.type_mismatch :=
  ⟨short_type_is_refused repo_blob (List.replicate 20 170) [98, 108, 111, 98] [98, 108] 3
      111 [98] (by decide) (by decide) (by decide) (by decide),
   short_type_is_refused repo_blob (List.replicate 20 170) [98, 108, 111, 98] [] 3
      98 [108, 111, 98] (by decide) (by decide) (by decide) (by decide)⟩

/-! ## The values handed to the library: defects shown on documents -/

/-- C13 (the defect): the timestamp is converted with `atoi` (line 192), which returns a
32-bit `int`: the digits `3000000000`, a value that fits in an int64, reach
`git_signature_new` as -1294967296. -/
theorem timestamp_wraps_at_32_bits :
    (verify_and_create_tag repo_blob [0, 0, 0]
      (doc_with [65] [51, 48, 48, 48, 48, 48, 48, 48, 48, 48] [43, 48, 48, 48, 48] ++ [7])
      104).events =
      [Event.odb_read (List.replicate 20 170),
       Event.signature_new [65] [97, 64, 98] (-1294967296) 0,
       Event.tag_create [118, 49] (List.replicate 20 170) 3
         { name := [65], email := [97, 64, 98], time := -1294967296, offset := 0 }
         [72, 101, 108, 108, 111, 10]] := by
  decide

/-- C14 (the defect): the timezone is converted with `atoi` (line 192) and handed over as
the number `hhmm`: for `+0530` the offset given to `git_signature_new` is 530, not the 330
minutes of 5 hours 30. -/
theorem offset_is_hhmm_not_minutes :
    (verify_and_create_tag repo_blob [0, 0, 0]
      (doc_with [65] [49, 48, 48, 48, 48, 48, 48, 48, 48, 48] [43, 48, 53, 51, 48] ++ [7])
      104).events =
      [Event.odb_read (List.replicate 20 170),
       Event.signature_new [65] [97, 64, 98] 1000000000 530,
       Event.tag_create [118, 49] (List.replicate 20 170) 3
         { name := [65], email := [97, 64, 98], time := 1000000000, offset := 530 }
         [72, 101, 108, 108, 111, 10]] := by
  decide

/-- C16 (the defect): the loop of lines 112-120 has already advanced `tag_line` past the
byte it refuses (`*tag_line++`), so the offset reported is one more than the index of that
byte: with the tag name `v 1` the space is at index 63 and the error says 64. -/
theorem tag_name_offset_is_one_past :
    rd (doc_v1.set 63 32) 62 = 118 ∧ rd (doc_v1.set 63 32) 63 = 32 ∧
    (verify_and_create_tag repo_blob [] (doc_v1.set 63 32 ++ [7]) 104).result =
      Except.error { kind := ErrKind.tag_name, offset := some 64 } := by
  decide

/-- C19 (the defect): the copies of the tagger name, the email and the timestamp (lines
153-157, 165-166) are not preceded by any check of their length. A document that passes
every check made before the copy, with a tagger name of 40 bytes, or an email of 40 bytes,
or a timestamp of 20 digits, makes the copy write its terminator outside
`char author_name[40]`, `char author_email[40]` or `char timestamp[20]`: the run ends in
undefined behaviour, after the lookup of the object and without any error. -/
theorem author_name_overflows :
    (List.replicate 40 65).length = 40 ∧
    (verify_and_create_tag repo_blob [0, 0, 0]
      (doc_with (List.replicate 40 65) [49, 48, 48, 48, 48, 48, 48, 48, 48, 48]
        [43, 48, 48, 48, 48] ++ [7]) 143).result =
      Except.error { kind := ErrKind.overflow FieldArray.author_name, offset := none } ∧
    (verify_and_create_tag repo_blob [0, 0, 0]
      (doc_with (List.replicate 40 65) [49, 48, 48, 48, 48, 48, 48, 48, 48, 48]
        [43, 48, 48, 48, 48] ++ [7]) 143).events = [Event.odb_read (List.replicate 20 170)] ∧
    (List.replicate 40 97).length = 40 ∧
    (verify_and_create_tag repo_blob [0, 0, 0]
      (doc_header hex_a [98, 108, 111, 98] [118, 49] [65] (List.replicate 40 97)
        [49, 48, 48, 48, 48, 48, 48, 48, 48, 48] [43, 48, 48, 48, 48] ++
        [72, 101, 108, 108, 111, 10] ++ [7]) 141).result =
      Except.error { kind := ErrKind.overflow FieldArray.author_email, offset := none } ∧
    (List.replicate 20 49).length = 20 ∧
    (verify_and_create_tag repo_blob [0, 0, 0]
      (doc_with [65] (List.replicate 20 49) [43, 48, 48, 48, 48] ++ [7]) 114).result =
      Except.error { kind := ErrKind.overflow FieldArray.timestamp, offset := none } := by
  decide

/-! ## The bytes of the buffer that are read: the defect -/

/-- C15 (the defect): the comparisons with `"tag "` and `"tagger "` are calls of `memcmp`,
which the sentinel does not stop. When the newline of the type line is the last byte of
the input, `tag_line` is `size` and `memcmp(tag_line, "tag ", 4)` reads the indices `size`
to `size + 3`. -/
theorem memcmp_reads_past_size :
    doc_no_tag.length = 84 ∧
    (verify_and_create_tag repo_blob [] (doc_no_tag ++ [7, 7, 7, 7]) 84).result =
      Except.error { kind := ErrKind.no_tag, offset := some 84 } ∧
    reads_to_tag_line (doc_no_tag ++ [7, 7, 7, 7]) 84 =
      List.range' 0 7 ++ List.range' 7 40 ++ List.range' 47 6 ++ List.range' 48 36 ++
        [84, 85, 86, 87] := by
  decide

/-! ## The command table: the defect -/

/-! ## Round trip -/

/-- C20 (the defect): the loop is bounded by `sizeof(commands)`, the size in bytes, not by
the number of entries. For `"mktag"` the handler is returned, but for any other string the
loop goes on to `commands[1]`, outside the table of one entry, instead of returning NULL;
so for the command `"foo"`. -/
theorem lookup_indexes_outside_table :
    lookup_handler [109, 107, 116, 97, 103] = Lookup.handler Handler.cmd_mktag ∧
    lookup_handler [102, 111, 111] = Lookup.outside 1 ∧
    commands.length = 1 ∧
    ∀ cmd, cstr cmd ≠ [109, 107, 116, 97, 103] → lookup_handler cmd = Lookup.outside 1 := by
  refine ⟨by decide, by decide, rfl, ?_⟩
  intro cmd h
  have hs : strcmp [109, 107, 116, 97, 103] cmd = true := by
    unfold strcmp
    have : cstr [109, 107, 116, 97, 103] = [109, 107, 116, 97, 103] := by decide
    rw [this]
    simp only [ne_eq, decide_eq_true_eq]
    exact fun e => h e.symm
  simp [lookup_handler, sizeof_commands, lookup_loop, commands, hs]

theorem decimal_snoc (ds : List Nat) (d : Nat) :
    decimal (ds ++ [d]) = 10 * decimal ds + (d - 48) := by
  simp [decimal, List.foldl_append]

theorem decimal_digits_spec (fuel n : Nat) (h : n ≤ fuel) :
    decimal (decimal_digits fuel n) = n ∧ decimal_digits fuel n ≠ [] ∧
      ∀ c ∈ decimal_digits fuel n, is_digit c := by
  induction fuel generalizing n with
  | zero =>
    have : n = 0 := by omega
    subst this
    refine ⟨by decide, by decide, by decide⟩
  | succ fuel ih =>
    unfold decimal_digits
    split
    · rename_i hlt
      refine ⟨by simp [decimal], by simp, ?_⟩
      intro c hc
      simp only [List.mem_singleton] at hc
      subst hc
      unfold is_digit
      omega
    · rename_i hge
      obtain ⟨h1, h2, h3⟩ := ih (n / 10) (by omega)
      refine ⟨?_, by simp, ?_⟩
      · rw [decimal_snoc, h1]
        omega
      · intro c hc
        rcases List.mem_append.1 hc with hc | hc
        · exact h3 c hc
        · simp only [List.mem_singleton] at hc
          subst hc
          unfold is_digit
          omega

theorem decimal_digits_length (fuel n k : Nat) (h : n < 10 ^ (k + 1)) :
    (decimal_digits fuel n).length ≤ k + 1 := by
  induction fuel generalizing n k with
  | zero => simp [decimal_digits]
  | succ fuel ih =>
    unfold decimal_digits
    split
    · simp
    · rename_i hge
      cases k with
      | zero => omega
      | succ k =>
        have hlt : n / 10 < 10 ^ (k + 1) := by
          apply Nat.div_lt_of_lt_mul
          rw [← Nat.pow_succ']
          exact h
        have := ih (n / 10) k hlt
        simp only [List.length_append, List.length_singleton]
        omega

theorem stamp_ok_format (n : Nat) (h : n < 2 ^ 31) : stamp_ok (format_timestamp n) :=
  ⟨(decimal_digits_spec n n (Nat.le_refl n)).2.1, (decimal_digits_spec n n (Nat.le_refl n)).2.2,
    Nat.lt_of_le_of_lt
      (decimal_digits_length n n 9 (Nat.lt_trans h (by decide))) (by decide)⟩

theorem atoi_format_timestamp (n : Nat) (h : n < 2 ^ 31) :
    atoi (format_timestamp n ++ [0]) = (n : Int) := by
  obtain ⟨h1, h2, h3⟩ := decimal_digits_spec n n (Nat.le_refl n)
  have := atoi_digits [0] h2 h3 (by decide) (by
    rw [h1]
    exact h)
  unfold format_timestamp at this ⊢
  rw [this, h1]

theorem strtol_signed (sign : Nat) (ds post : List Nat) (hs : sign = 43 ∨ sign = 45)
    (h1 : ∀ c ∈ ds, is_digit c) (h2 : ¬ is_digit (post.headD 0))
    (h3 : decimal ds < 2 ^ 31) :
    atoi (sign :: (ds ++ post)) =
      if sign = 45 then - (decimal ds : Int) else (decimal ds : Int) := by
  have hv := digits_value_append post 0 h1 h2
  have hd : decimal ds = ds.foldl (fun acc c => 10 * acc + (c - 48)) 0 := rfl
  have h4 : ((decimal ds : Nat) : Int) < 2 ^ 31 := by exact_mod_cast h3
  have h5 : (0 : Int) ≤ (decimal ds : Nat) := Int.ofNat_nonneg _
  rcases hs with hs | hs
  · subst hs
    have hsp : isspace 43 = false := by decide
    have hdw : (43 :: (ds ++ post)).dropWhile isspace = 43 :: (ds ++ post) := by
      simp [List.dropWhile_cons, hsp]
    unfold atoi strtol
    rw [hdw]
    simp only [hv, ← hd]
    unfold to_int
    rw [if_neg (by omega), if_neg (by omega), if_neg (by decide)]
    omega
  · subst hs
    have hsp : isspace 45 = false := by decide
    have hdw : (45 :: (ds ++ post)).dropWhile isspace = 45 :: (ds ++ post) := by
      simp [List.dropWhile_cons, hsp]
    unfold atoi strtol
    rw [hdw]
    simp only [hv, ← hd]
    unfold to_int
    rw [if_neg (by omega), if_neg (by omega)]
    simp only [if_true]
    omega

theorem format_offset_spec (o : Int) (h : o.natAbs ≤ 1400) :
    zone_ok (format_offset o) ∧ atoi (format_offset o ++ [0]) = o := by
  have hd : ∀ x : Nat, is_digit (48 + x % 10) := by
    intro x
    unfold is_digit
    omega
  have hdec : decimal [48 + o.natAbs / 1000 % 10, 48 + o.natAbs / 100 % 10,
      48 + o.natAbs / 10 % 10, 48 + o.natAbs % 10] = o.natAbs := by
    rw [decimal_four]
    omega
  have hall : ∀ c ∈ [48 + o.natAbs / 1000 % 10, 48 + o.natAbs / 100 % 10,
      48 + o.natAbs / 10 % 10, 48 + o.natAbs % 10], is_digit c := by
    intro c hc
    simp only [List.mem_cons, List.mem_singleton, List.not_mem_nil, or_false] at hc
    rcases hc with e | e | e | e <;> subst e <;> exact hd _
  constructor
  · refine ⟨_, _, _, _, _, rfl, ?_, hd _, hd _, hd _, hd _, ?_⟩
    · by_cases ho : o < 0
      · exact Or.inr (if_pos ho)
      · exact Or.inl (if_neg ho)
    · rw [hdec]
      exact h
  · have := strtol_signed (if o < 0 then 45 else 43) _ [0]
      (by by_cases ho : o < 0 <;> simp [ho]) hall (by decide) (by rw [hdec]; omega)
    unfold format_offset
    rw [hdec] at this
    simp only [List.cons_append, List.nil_append] at this ⊢
    rw [this]
    by_cases ho : o < 0
    · simp only [ho, if_true]
      omega
    · simp only [ho, if_false]
      have : (43 : Nat) ≠ 45 := by decide
      simp only [this, if_false]
      omega

/-- C11 as stated fails: a `ParsedTag` whose message holds a NUL byte is formatted into a
document that is accepted, but the message handed to `git_tag_create` is cut at the NUL
byte and is not the message of the `ParsedTag`. -/
theorem round_trip_loses_message :
    (verify_and_create_tag repo_blob [0, 0, 0] (format parsed_nul ++ [7])
      (format parsed_nul).length).events =
      [Event.odb_read (List.replicate 20 170),
       Event.signature_new [65] [97, 64, 98] 1000000000 0,
       Event.tag_create [118, 49] (List.replicate 20 170) 3
         { name := [65], email := [97, 64, 98], time := 1000000000, offset := 0 }
         [72, 101]] ∧
    parsed_nul.message ≠ [72, 101] := by
  decide

/-- C11 (round trip, as amended): a valid `ParsedTag` (40 hexadecimal characters naming a
stored object of the declared type, tag name of 1 to 39 bytes above 0x20, tagger name of 1
to 39 bytes and email of at most 39 bytes without the forbidden characters, timestamp below
2^31, offset within ±1400, message without NUL byte), formatted into the grammar and
validated with its length as size, passes every check, and the tagger name, email,
timestamp, offset and message handed to the library are those of the `ParsedTag`. -/
theorem round_trip (repo : git_repository) (stack_tagname rest oid : List Nat) (tt : Int)
    (p : ParsedTag)
    (h40 : p.id.length = 40) (hx : ∀ c ∈ p.id, is_hex c) (ho : git_oid_mkstr p.id = some oid)
    (hdb : repo.has_database = true) (hrd : repo.odb_read oid = some tt)
    (hty : repo.type2string tt = p.type) (hT : p.type ∈ type_names)
    (hN : 1 ≤ p.tag_name.length ∧ p.tag_name.length ≤ 39 ∧ ∀ c ∈ p.tag_name, 32 < c)
    (hname : 1 ≤ p.name.length ∧ p.name.length ≤ 39 ∧
      ∀ c ∈ p.name, c ≠ 60 ∧ c ≠ 62 ∧ c ≠ 10 ∧ c ≠ 0)
    (hemail : p.email.length ≤ 39 ∧
      ∀ c ∈ p.email, c ≠ 62 ∧ c ≠ 60 ∧ c ≠ 10 ∧ c ≠ 32 ∧ c ≠ 0)
    (hts : p.timestamp < 2 ^ 31) (hoff : p.offset.natAbs ≤ 1400)
    (hmsg : 0 ∉ p.message) :
    (verify_and_create_tag repo stack_tagname (format p ++ rest) (format p).length).passed 17 ∧
    ∃ tagname,
      (verify_and_create_tag repo stack_tagname (format p ++ rest) (format p).length).events =
        accepted_events repo oid tt tagname p.name p.email (p.timestamp : Int) p.offset
          p.message := by
  obtain ⟨z1, z2⟩ := format_offset_spec p.offset hoff
  unfold format
  have key := document_accepted repo stack_tagname p.id p.type p.tag_name p.name
    p.email (format_timestamp p.timestamp) (format_offset p.offset) p.message rest oid tt
    h40 hx ho hdb hrd hty hT
    ⟨fun hn => by rw [hn] at hN; simp at hN, hN.2.2, by omega⟩
    ⟨fun hn => by rw [hn] at hname; simp at hname, hname.2.2, hemail.2, by omega, by omega⟩
    (stamp_ok_format p.timestamp hts) z1
  refine And.imp_right ?_ key.2
  intro e2
  rw [atoi_format_timestamp p.timestamp hts, z2, cstr_eq_self p.message hmsg] at e2
  exact ⟨_, e2⟩

theorem round_trip_witness :
    (verify_and_create_tag repo_blob [] (format parsed_v1 ++ [7])
      (format parsed_v1).length).passed 17 ∧
    ∃ tagname,
      (verify_and_create_tag repo_blob [] (format parsed_v1 ++ [7])
        (format parsed_v1).length).events =
        accepted_events repo_blob (List.replicate 20 170) 3 tagname parsed_v1.name
          parsed_v1.email (parsed_v1.timestamp : Int) parsed_v1.offset parsed_v1.message :=
  round_trip repo_blob [] [7] (List.replicate 20 170) 3 parsed_v1 (by decide) (by decide)
    (by decide) (by decide) (by decide) (by decide) (by decide) (by decide) (by decide)
    (by decide) (by decide) (by decide) (by decide)

end Git2
